import Mathlib

/-!
# raksh: the manifest transformation of `rakshctl app create`

A shallow embedding of `pkg/rakshctl/cmd/app/create.go`.

* Go structs are Lean structures with the Go field names; only the fields the
  tool reads, writes or serialises are kept.
* A Go slice is a `List` (a nil slice and an empty slice are both `[]`), a Go
  `map[string]string` is an association list with unique keys (`GoMap`).
* In-place mutation through a pointer is a function returning the new value;
  `DeepCopyObject` is therefore the identity on values.
* A call that can panic returns an `Outcome`; a Go `error` is its message.
* The package-level flag variables and the external collaborators
  (`ghodss/yaml`, `crypto.EncryptConfigMap`) are the fields of `Env`.
-/

namespace Raksh

/-- A Go `error`, identified with its message. -/
abbrev Error := String

/-- Result of running Go code that may panic. -/
inductive Outcome (α : Type) where
  | returned (a : α)
  | panicked (msg : String)

/-- A Go `map[string]string`: an association list whose keys are unique. -/
abbrev GoMap := List (String × String)

/-- Map read `m[k]` in its comma-ok form. -/
def GoMap.get? (m : GoMap) (k : String) : Option String :=
  m.lookup k

/-- Map assignment `m[k] = v`: overwrites the entry of `k` when there is one. -/
def GoMap.set : GoMap → String → String → GoMap
  | [], k, v => [(k, v)]
  | (k0, v0) :: rest, k, v =>
    if k0 = k then (k0, v) :: rest else (k0, v0) :: GoMap.set rest k v

/-- The keys of a map. -/
def GoMap.keys (m : GoMap) : List String :=
  m.map Prod.fst

namespace metav1

structure TypeMeta where
  Kind : String
  APIVersion : String
  deriving DecidableEq, Repr

structure ObjectMeta where
  Name : String
  Namespace : String
  Labels : List (String × String)
  deriving DecidableEq, Repr

end metav1

namespace corev1

/-- Go `corev1.SecretKeySelector`; `Name` is the inlined `LocalObjectReference`. -/
structure SecretKeySelector where
  Name : String
  Key : String
  Optional : Option Bool
  deriving DecidableEq, Repr

/-- Go `corev1.ConfigMapKeySelector`; `Name` is the inlined `LocalObjectReference`. -/
structure ConfigMapKeySelector where
  Name : String
  Key : String
  Optional : Option Bool
  deriving DecidableEq, Repr

structure EnvVarSource where
  ConfigMapKeyRef : Option ConfigMapKeySelector
  SecretKeyRef : Option SecretKeySelector
  deriving DecidableEq, Repr

structure EnvVar where
  Name : String
  Value : String
  ValueFrom : Option EnvVarSource
  deriving DecidableEq, Repr

set_option linter.dupNamespace false in
structure ContainerPort where
  Name : String
  HostPort : Int
  ContainerPort : Int
  Protocol : String
  HostIP : String
  deriving DecidableEq, Repr

/-- Go `corev1.ResourceRequirements`; a `ResourceList` maps a resource name to
the canonical string of its quantity. -/
structure ResourceRequirements where
  Limits : List (String × String)
  Requests : List (String × String)
  deriving DecidableEq, Repr

structure VolumeMount where
  Name : String
  ReadOnly : Bool
  MountPath : String
  SubPath : String
  deriving DecidableEq, Repr

structure KeyToPath where
  Key : String
  Path : String
  Mode : Option Int
  deriving DecidableEq, Repr

/-- Go `corev1.ConfigMapVolumeSource`; `Name` is the inlined `LocalObjectReference`. -/
structure ConfigMapVolumeSource where
  Name : String
  Items : List KeyToPath
  DefaultMode : Option Int
  Optional : Option Bool
  deriving DecidableEq, Repr

structure HostPathVolumeSource where
  Path : String
  deriving DecidableEq, Repr

structure VolumeSource where
  HostPath : Option HostPathVolumeSource
  ConfigMap : Option ConfigMapVolumeSource
  deriving DecidableEq, Repr

structure Volume where
  Name : String
  VolumeSource : VolumeSource
  deriving DecidableEq, Repr

structure Container where
  Name : String
  Image : String
  Command : List String
  Args : List String
  WorkingDir : String
  Ports : List ContainerPort
  Env : List EnvVar
  Resources : ResourceRequirements
  VolumeMounts : List VolumeMount
  ImagePullPolicy : String
  deriving DecidableEq, Repr

structure PodSpec where
  Volumes : List Volume
  InitContainers : List Container
  Containers : List Container
  RestartPolicy : String
  ServiceAccountName : String
  deriving DecidableEq, Repr

structure PodTemplateSpec where
  ObjectMeta : metav1.ObjectMeta
  Spec : PodSpec
  deriving DecidableEq, Repr

structure Pod where
  TypeMeta : metav1.TypeMeta
  ObjectMeta : metav1.ObjectMeta
  Spec : PodSpec
  deriving DecidableEq, Repr

structure ConfigMap where
  TypeMeta : metav1.TypeMeta
  ObjectMeta : metav1.ObjectMeta
  Data : GoMap
  deriving DecidableEq, Repr

end corev1

namespace appsv1

structure DeploymentSpec where
  Replicas : Option Int
  Template : corev1.PodTemplateSpec
  deriving DecidableEq, Repr

structure Deployment where
  TypeMeta : metav1.TypeMeta
  ObjectMeta : metav1.ObjectMeta
  Spec : DeploymentSpec
  deriving DecidableEq, Repr

end appsv1

namespace v2alpha1

structure JobSpec where
  Parallelism : Option Int
  Template : corev1.PodTemplateSpec
  deriving DecidableEq, Repr

structure JobTemplateSpec where
  ObjectMeta : metav1.ObjectMeta
  Spec : JobSpec
  deriving DecidableEq, Repr

structure CronJobSpec where
  Schedule : String
  JobTemplate : JobTemplateSpec
  deriving DecidableEq, Repr

structure CronJob where
  TypeMeta : metav1.TypeMeta
  ObjectMeta : metav1.ObjectMeta
  Spec : CronJobSpec
  deriving DecidableEq, Repr

end v2alpha1

/-! ## Objects handled by the tool -/

namespace reflect

/-- The value a `runtime.Object` of a kind without an explicit case points to,
as `reflect` sees it: a struct is the list of its fields by name. The two struct
types the accessor asserts on carry their typed value. -/
inductive GoValue where
  | objectMeta (m : metav1.ObjectMeta)
  | podSpec (p : corev1.PodSpec)
  | struct (fields : List (String × GoValue))
  | ptr (elem : Option GoValue)
  | scalar (repr : String)

/-- A `reflect.Value`; `none` is the zero Value. -/
abbrev Value := Option GoValue

/-- `Value.FieldByName`: panics unless the value is a struct; the zero Value
when the struct has no field of that name. Neither `metav1.ObjectMeta` nor
`corev1.PodSpec` has a field named ObjectMeta, Spec or Template, the only names
looked up. -/
def FieldByName (v : Value) (name : String) : Outcome Value :=
  match v with
  | none => .panicked "reflect: call of reflect.Value.FieldByName on zero Value"
  | some (.struct fields) => .returned (fields.lookup name)
  | some (.objectMeta _) => .returned none
  | some (.podSpec _) => .returned none
  | some (.ptr _) => .panicked "reflect: call of reflect.Value.FieldByName on ptr Value"
  | some (.scalar _) => .panicked "reflect: call of reflect.Value.FieldByName on non-struct Value"

/-- The chain `v.Addr().Interface().(*metav1.ObjectMeta)`. -/
def asObjectMeta (v : Value) : Outcome metav1.ObjectMeta :=
  match v with
  | none => .panicked "reflect.Value.Addr of unaddressable value"
  | some (.objectMeta m) => .returned m
  | some _ => .panicked "interface conversion: interface is not *v1.ObjectMeta"

/-- The chain `v.Addr().Interface().(*corev1.PodSpec)`. -/
def asPodSpec (v : Value) : Outcome corev1.PodSpec :=
  match v with
  | none => .panicked "reflect.Value.Addr of unaddressable value"
  | some (.podSpec p) => .returned p
  | some _ => .panicked "interface conversion: interface is not *v1.PodSpec"

/-- Assignment to the struct field `name`. -/
def setField (fields : List (String × GoValue)) (name : String) (v : GoValue) :
    List (String × GoValue) :=
  fields.map fun kv => if kv.1 = name then (kv.1, v) else kv

end reflect

namespace runtime

/-- A decoded `runtime.Object`: the three kinds `secureObject` has a case for,
and any other registered type, seen through reflection. -/
inductive Object where
  | cronJob (v : v2alpha1.CronJob)
  | pod (v : corev1.Pod)
  | deployment (v : appsv1.Deployment)
  | other (v : reflect.GoValue)

/-- Go `runtime.RawExtension`, without its raw bytes. -/
structure RawExtension where
  Object : Option Object

end runtime

namespace securecontainersv1alpha1

structure SecureContainerImageRef where
  Name : String
  deriving DecidableEq, Repr

structure SecureContainerSpec where
  SecureContainerImageRef : SecureContainerImageRef
  deriving DecidableEq, Repr

structure SecureContainer where
  TypeMeta : metav1.TypeMeta
  ObjectMeta : metav1.ObjectMeta
  Object : runtime.RawExtension
  Spec : SecureContainerSpec

end securecontainersv1alpha1

/-! ## JSON documents and the struct tags -/

/-- A JSON document, the intermediate form of `ghodss/yaml`. -/
inductive Doc where
  | null
  | str (s : String)
  | num (n : Int)
  | bool (b : Bool)
  | list (items : List Doc)
  | obj (fields : List (String × Doc))

/-- A struct field tagged `omitempty`: left out when it holds its empty value. -/
def omitempty (key : String) (isEmpty : Bool) (d : Doc) : List (String × Doc) :=
  if isEmpty then [] else [(key, d)]

/-- A pointer field tagged `omitempty`: left out when nil. -/
def omitnil (key : String) (d : Option Doc) : List (String × Doc) :=
  match d with
  | none => []
  | some v => [(key, v)]

/-- The value decoded for the key `key` of an object; a missing key leaves the
Go field at its zero value, as a `null` does. -/
def field (fields : List (String × Doc)) (key : String) : Doc :=
  (fields.lookup key).getD Doc.null

/-- Apply a decoder to every element, stopping at the first error. -/
def mapE {α β : Type} (f : α → Except Error β) : List α → Except Error (List β)
  | [] => .ok []
  | x :: xs =>
    match f x with
    | .error e => .error e
    | .ok y =>
      match mapE f xs with
      | .error e => .error e
      | .ok ys => .ok (y :: ys)

def decodeString : Doc → Except Error String
  | .null => .ok ""
  | .str s => .ok s
  | _ => .error "json: cannot unmarshal into Go value of type string"

def decodeInt : Doc → Except Error Int
  | .null => .ok 0
  | .num n => .ok n
  | _ => .error "json: cannot unmarshal into Go value of type int32"

def decodeBoolPtr : Doc → Except Error (Option Bool)
  | .null => .ok none
  | .bool b => .ok (some b)
  | _ => .error "json: cannot unmarshal into Go value of type bool"

def decodeSlice {α : Type} (f : Doc → Except Error α) : Doc → Except Error (List α)
  | .null => .ok []
  | .list items => mapE f items
  | _ => .error "json: cannot unmarshal into Go value of slice type"

def decodePtr {α : Type} (f : Doc → Except Error α) : Doc → Except Error (Option α)
  | .null => .ok none
  | d => (f d).map some

/-- Go's order `a < b` on strings, by bytes; on valid UTF-8 this is the
lexicographic order of the code points. -/
def keyLess : List Char → List Char → Bool
  | _, [] => false
  | [], _ :: _ => true
  | a :: as, b :: bs =>
    if a.toNat < b.toNat then true
    else if b.toNat < a.toNat then false
    else keyLess as bs

/-- The entries of an association list are in strictly increasing key order:
the form in which a Go map with string keys is kept. -/
def KeySorted {β : Type} (l : List (String × β)) : Prop :=
  l.Pairwise fun a b => keyLess a.1.data b.1.data = true

instance {β : Type} (l : List (String × β)) : Decidable (KeySorted l) :=
  (inferInstance :
    Decidable (List.Pairwise (fun a b : String × β => keyLess a.1.data b.1.data = true) l))

/-- Map assignment `m[k] = v` on a `ResourceList`, a Go map kept as the list of
its entries in increasing key order. -/
def ResourceList.set : List (String × String) → String → String → List (String × String)
  | [], k, v => [(k, v)]
  | (k0, v0) :: rest, k, v =>
    if keyLess k.data k0.data then (k, v) :: (k0, v0) :: rest
    else if keyLess k0.data k.data then (k0, v0) :: ResourceList.set rest k v
    else (k0, v) :: rest

/-- The Go map a list of entries denotes: entries in increasing key order, a
later entry of a key replacing an earlier one. -/
def ResourceList.canonical (r : List (String × String)) : List (String × String) :=
  r.foldl (fun m kv => ResourceList.set m kv.1 kv.2) []

/-- What `json.Unmarshal` stores into a `ResourceList`: the entries of the
object are assigned to the map one after the other. -/
def decodeResourceList : Doc → Except Error (List (String × String))
  | .null => .ok []
  | .obj fields =>
    (mapE (fun kv => (decodeString kv.2).map fun q => (kv.1, q)) fields).map
      ResourceList.canonical
  | _ => .error "json: cannot unmarshal into Go value of type v1.ResourceList"

def encodeStrings (xs : List String) : Doc :=
  .list (xs.map Doc.str)

/-- The document `json.Marshal` writes for a `ResourceList`: a Go map is written
with its keys sorted. -/
def encodeResourceList (r : List (String × String)) : Doc :=
  .obj ((ResourceList.canonical r).map fun kv => (kv.1, Doc.str kv.2))

namespace corev1

def SecretKeySelector.toJSON (s : SecretKeySelector) : Doc :=
  .obj (omitempty "name" (s.Name == "") (.str s.Name)
    ++ [("key", .str s.Key)]
    ++ omitnil "optional" (s.Optional.map Doc.bool))

def SecretKeySelector.fromJSON : Doc → Except Error SecretKeySelector
  | .null => .ok { Name := "", Key := "", Optional := none }
  | .obj fields => do
    let name ← decodeString (field fields "name")
    let key ← decodeString (field fields "key")
    let optional ← decodeBoolPtr (field fields "optional")
    pure { Name := name, Key := key, Optional := optional }
  | _ => .error "json: cannot unmarshal into Go value of type v1.SecretKeySelector"

def ConfigMapKeySelector.toJSON (s : ConfigMapKeySelector) : Doc :=
  .obj (omitempty "name" (s.Name == "") (.str s.Name)
    ++ [("key", .str s.Key)]
    ++ omitnil "optional" (s.Optional.map Doc.bool))

def ConfigMapKeySelector.fromJSON : Doc → Except Error ConfigMapKeySelector
  | .null => .ok { Name := "", Key := "", Optional := none }
  | .obj fields => do
    let name ← decodeString (field fields "name")
    let key ← decodeString (field fields "key")
    let optional ← decodeBoolPtr (field fields "optional")
    pure { Name := name, Key := key, Optional := optional }
  | _ => .error "json: cannot unmarshal into Go value of type v1.ConfigMapKeySelector"

def EnvVarSource.toJSON (s : EnvVarSource) : Doc :=
  .obj (omitnil "configMapKeyRef" (s.ConfigMapKeyRef.map ConfigMapKeySelector.toJSON)
    ++ omitnil "secretKeyRef" (s.SecretKeyRef.map SecretKeySelector.toJSON))

def EnvVarSource.fromJSON : Doc → Except Error EnvVarSource
  | .null => .ok { ConfigMapKeyRef := none, SecretKeyRef := none }
  | .obj fields => do
    let cm ← decodePtr ConfigMapKeySelector.fromJSON (field fields "configMapKeyRef")
    let sec ← decodePtr SecretKeySelector.fromJSON (field fields "secretKeyRef")
    pure { ConfigMapKeyRef := cm, SecretKeyRef := sec }
  | _ => .error "json: cannot unmarshal into Go value of type v1.EnvVarSource"

def EnvVar.toJSON (e : EnvVar) : Doc :=
  .obj ([("name", .str e.Name)]
    ++ omitempty "value" (e.Value == "") (.str e.Value)
    ++ omitnil "valueFrom" (e.ValueFrom.map EnvVarSource.toJSON))

def EnvVar.fromJSON : Doc → Except Error EnvVar
  | .null => .ok { Name := "", Value := "", ValueFrom := none }
  | .obj fields => do
    let name ← decodeString (field fields "name")
    let value ← decodeString (field fields "value")
    let valueFrom ← decodePtr EnvVarSource.fromJSON (field fields "valueFrom")
    pure { Name := name, Value := value, ValueFrom := valueFrom }
  | _ => .error "json: cannot unmarshal into Go value of type v1.EnvVar"

def ContainerPort.toJSON (p : corev1.ContainerPort) : Doc :=
  .obj (omitempty "name" (p.Name == "") (.str p.Name)
    ++ omitempty "hostPort" (p.HostPort == 0) (.num p.HostPort)
    ++ [("containerPort", .num p.ContainerPort)]
    ++ omitempty "protocol" (p.Protocol == "") (.str p.Protocol)
    ++ omitempty "hostIP" (p.HostIP == "") (.str p.HostIP))

def ContainerPort.fromJSON : Doc → Except Error corev1.ContainerPort
  | .null => .ok { Name := "", HostPort := 0, ContainerPort := 0, Protocol := "", HostIP := "" }
  | .obj fields => do
    let name ← decodeString (field fields "name")
    let hostPort ← decodeInt (field fields "hostPort")
    let containerPort ← decodeInt (field fields "containerPort")
    let protocol ← decodeString (field fields "protocol")
    let hostIP ← decodeString (field fields "hostIP")
    pure { Name := name, HostPort := hostPort, ContainerPort := containerPort,
           Protocol := protocol, HostIP := hostIP }
  | _ => .error "json: cannot unmarshal into Go value of type v1.ContainerPort"

def ResourceRequirements.toJSON (r : ResourceRequirements) : Doc :=
  .obj (omitempty "limits" r.Limits.isEmpty (encodeResourceList r.Limits)
    ++ omitempty "requests" r.Requests.isEmpty (encodeResourceList r.Requests))

def ResourceRequirements.fromJSON : Doc → Except Error ResourceRequirements
  | .null => .ok { Limits := [], Requests := [] }
  | .obj fields => do
    let limits ← decodeResourceList (field fields "limits")
    let requests ← decodeResourceList (field fields "requests")
    pure { Limits := limits, Requests := requests }
  | _ => .error "json: cannot unmarshal into Go value of type v1.ResourceRequirements"

/-- The resource requirements with both maps in key order. -/
def ResourceRequirements.canonical (r : ResourceRequirements) : ResourceRequirements :=
  { Limits := ResourceList.canonical r.Limits, Requests := ResourceList.canonical r.Requests }

def VolumeMount.toJSON (m : VolumeMount) : Doc :=
  .obj ([("name", .str m.Name)]
    ++ omitempty "readOnly" (!m.ReadOnly) (.bool m.ReadOnly)
    ++ [("mountPath", .str m.MountPath)]
    ++ omitempty "subPath" (m.SubPath == "") (.str m.SubPath))

/-- The document `json.Marshal` writes for a `corev1.Container`; `resources` is
a struct, which `omitempty` never leaves out. -/
def Container.toJSON (c : Container) : Doc :=
  .obj ([("name", .str c.Name)]
    ++ omitempty "image" (c.Image == "") (.str c.Image)
    ++ omitempty "command" c.Command.isEmpty (encodeStrings c.Command)
    ++ omitempty "args" c.Args.isEmpty (encodeStrings c.Args)
    ++ omitempty "workingDir" (c.WorkingDir == "") (.str c.WorkingDir)
    ++ omitempty "ports" c.Ports.isEmpty (.list (c.Ports.map ContainerPort.toJSON))
    ++ omitempty "env" c.Env.isEmpty (.list (c.Env.map EnvVar.toJSON))
    ++ [("resources", c.Resources.toJSON)]
    ++ omitempty "volumeMounts" c.VolumeMounts.isEmpty
        (.list (c.VolumeMounts.map VolumeMount.toJSON))
    ++ omitempty "imagePullPolicy" (c.ImagePullPolicy == "") (.str c.ImagePullPolicy))

end corev1

/-! ## Pod-spec transformations -/

/-- The constant `securePrefix`. -/
def securePrefix : String := "secure-"

/-- `newConfigMap`. -/
def newConfigMap (name namespace_ : String) : corev1.ConfigMap :=
  { TypeMeta := { Kind := "ConfigMap", APIVersion := "v1" }
    ObjectMeta := { Namespace := namespace_, Name := name, Labels := [] }
    Data := [] }

/-- The Go loop `for index := range xs` whose body assigns `f xs[index]` to
`xs[index]`. -/
def forEachIndex {α : Type} (f : α → α) (xs : List α) : List α :=
  (List.range xs.length).foldl
    (fun ys index =>
      match ys[index]? with
      | none => ys
      | some y => ys.set index (f y))
    xs

/-- `mountConfigMap`: the loop carries the containers and the local slice
`volumes`; the volumes are appended to the pod's after the loop. -/
def mountConfigMap (pod : corev1.PodSpec) (cm : corev1.ConfigMap) : corev1.PodSpec :=
  let loop := (List.range pod.Containers.length).foldl
    (fun (st : List corev1.Container × List corev1.Volume) index =>
      match st.1[index]? with
      | none => st
      | some c =>
        let volumeName := securePrefix ++ "volume-" ++ c.Name
        let volume : corev1.Volume :=
          { Name := volumeName
            VolumeSource :=
              { HostPath := none
                ConfigMap := some
                  { Name := cm.ObjectMeta.Name
                    Items := [{ Key := c.Name, Path := "raksh.properties", Mode := none }]
                    DefaultMode := none
                    Optional := none } } }
        let volumes := st.2 ++ [volume]
        let volmount : corev1.VolumeMount :=
          { Name := volumeName, ReadOnly := true, MountPath := "/etc/raksh", SubPath := "" }
        (st.1.set index { c with VolumeMounts := c.VolumeMounts ++ [volmount] }, volumes))
    (pod.Containers, [])
  { pod with Containers := loop.1, Volumes := pod.Volumes ++ loop.2 }

/-- The slice `vaultSecrets` of `insertVaultSecret`. -/
def vaultSecrets (secretName : String) : List corev1.EnvVar :=
  let ref (key : String) : Option corev1.EnvVarSource :=
    some { ConfigMapKeyRef := none
           SecretKeyRef := some { Name := secretName, Key := key, Optional := none } }
  [ { Name := "SC_VAULT_ADDR", Value := "", ValueFrom := ref "vaultAdd" },
    { Name := "SC_VAULT_TOKEN", Value := "", ValueFrom := ref "vaultToken" },
    { Name := "SC_VAULT_SECRET", Value := "", ValueFrom := ref "secretName" },
    { Name := "SC_VAULT_SYMM_KEY", Value := "", ValueFrom := ref "keyName" } ]

/-- `insertVaultSecret`. -/
def insertVaultSecret (pod : corev1.PodSpec) (secretName : String) : corev1.PodSpec :=
  { pod with
    Containers := forEachIndex
      (fun c => { c with Env := c.Env ++ vaultSecrets secretName }) pod.Containers }

/-- `maskSensitiveData`; `scratchImage` is the package-level flag variable. -/
def maskSensitiveData (scratchImage : String) (pod : corev1.PodSpec) : corev1.PodSpec :=
  { pod with
    Containers := forEachIndex
      (fun c => { c with Image := scratchImage, Command := [], Args := [], Env := [] })
      pod.Containers }

/-! ## The extracted container document -/

namespace app

/-- The struct `Container` of create.go: the subset of a container that goes
into the config map. -/
structure Container where
  Name : String
  Image : String
  Command : List String
  Args : List String
  Env : List corev1.EnvVar
  Ports : List corev1.ContainerPort
  Resources : Option corev1.ResourceRequirements
  deriving DecidableEq, Repr

structure SecureContainerConfigmapPodSpec where
  Containers : List Container
  deriving DecidableEq, Repr

/-- The anonymous struct `configData` of `secureObject`. -/
structure ConfigData where
  Spec : SecureContainerConfigmapPodSpec
  deriving DecidableEq, Repr

/-- What `json.Unmarshal` stores into a `Container`: the seven tagged keys,
every other key of the document being ignored. -/
def Container.fromJSON : Doc → Except Error Container
  | .null => .ok { Name := "", Image := "", Command := [], Args := [], Env := [], Ports := [],
                   Resources := none }
  | .obj fields => do
    let name ← decodeString (field fields "name")
    let image ← decodeString (field fields "image")
    let command ← decodeSlice decodeString (field fields "command")
    let args ← decodeSlice decodeString (field fields "args")
    let env ← decodeSlice corev1.EnvVar.fromJSON (field fields "env")
    let ports ← decodeSlice corev1.ContainerPort.fromJSON (field fields "ports")
    let resources ← decodePtr corev1.ResourceRequirements.fromJSON (field fields "resources")
    pure { Name := name, Image := image, Command := command, Args := args, Env := env,
           Ports := ports, Resources := resources }
  | _ => .error "json: cannot unmarshal into Go value of type app.Container"

def Container.toJSON (c : Container) : Doc :=
  .obj ([("name", .str c.Name)]
    ++ omitempty "image" (c.Image == "") (.str c.Image)
    ++ omitempty "command" c.Command.isEmpty (encodeStrings c.Command)
    ++ omitempty "args" c.Args.isEmpty (encodeStrings c.Args)
    ++ omitempty "env" c.Env.isEmpty (.list (c.Env.map corev1.EnvVar.toJSON))
    ++ omitempty "ports" c.Ports.isEmpty (.list (c.Ports.map corev1.ContainerPort.toJSON))
    ++ omitnil "resources" (c.Resources.map corev1.ResourceRequirements.toJSON))

def SecureContainerConfigmapPodSpec.toJSON (s : SecureContainerConfigmapPodSpec) : Doc :=
  .obj [("containers", .list (s.Containers.map Container.toJSON))]

def ConfigData.toJSON (d : ConfigData) : Doc :=
  .obj [("spec", d.Spec.toJSON)]

end app

/-! ## Flags and collaborators -/

/-- The package-level variables `secureContainerImage`, `scratchImage`,
`typeflags.Key` and `typeflags.VaultSecret`, the two conversions of
`ghodss/yaml`, and `crypto.EncryptConfigMap`. -/
structure Env where
  secureContainerImage : String
  scratchImage : String
  Key : String
  VaultSecret : String
  JSONToYAML : Doc → Except Error String
  YAMLToJSON : String → Except Error Doc
  EncryptConfigMap : String → String → Except Error String

namespace yaml

/-- `yaml.Marshal` on a value whose JSON document is `j`. -/
def Marshal (env : Env) (j : Doc) : Except Error String :=
  env.JSONToYAML j

/-- `yaml.Unmarshal` into a value decoded by `decode`. -/
def Unmarshal {α : Type} (env : Env) (y : String) (decode : Doc → Except Error α) :
    Except Error α :=
  match env.YAMLToJSON y with
  | .error err => .error err
  | .ok j => decode j

end yaml

/-! ## secureObject -/

instance : Monad Outcome where
  pure a := .returned a
  bind x f :=
    match x with
    | .returned a => f a
    | .panicked msg => .panicked msg

/-- The zero value of `scObj`. -/
def zeroSecureContainer : securecontainersv1alpha1.SecureContainer :=
  { TypeMeta := { Kind := "", APIVersion := "" }
    ObjectMeta := { Name := "", Namespace := "", Labels := [] }
    Object := { Object := none }
    Spec := { SecureContainerImageRef := { Name := "" } } }

/-- The zero value of `cmObj`. -/
def zeroConfigMap : corev1.ConfigMap :=
  { TypeMeta := { Kind := "", APIVersion := "" }
    ObjectMeta := { Name := "", Namespace := "", Labels := [] }
    Data := [] }

/-- `newSecureContainer`. -/
def newSecureContainer (name secureContainerImage : String) (obj : runtime.Object) :
    securecontainersv1alpha1.SecureContainer :=
  { TypeMeta := { Kind := "SecureContainer", APIVersion := "securecontainers.k8s.io/v1alpha1" }
    ObjectMeta := { Name := name, Namespace := "", Labels := [] }
    Object := { Object := some obj }
    Spec := { SecureContainerImageRef := { Name := secureContainerImage } } }

/-- The type switch of `secureObject`: the metadata and the pod spec of the
object, the error of a nil `Spec.Template`, or a panic of `reflect`. -/
def workloadAccessor (out : runtime.Object) :
    Outcome (Except Error (metav1.ObjectMeta × corev1.PodSpec)) :=
  match out with
  | .cronJob job => .returned (.ok (job.ObjectMeta, job.Spec.JobTemplate.Spec.Template.Spec))
  | .pod pod => .returned (.ok (pod.ObjectMeta, pod.Spec))
  | .deployment deploy => .returned (.ok (deploy.ObjectMeta, deploy.Spec.Template.Spec))
  | .other v => do
    let outValue : reflect.Value := some v
    let deploymentMetadata ← reflect.asObjectMeta (← reflect.FieldByName outValue "ObjectMeta")
    let templateValue ← reflect.FieldByName (← reflect.FieldByName outValue "Spec") "Template"
    match templateValue with
    | some (.ptr none) => pure (.error "spec.template is required value")
    | some (.ptr (some elem)) =>
      let podSpec ← reflect.asPodSpec (← reflect.FieldByName (some elem) "Spec")
      pure (.ok (deploymentMetadata, podSpec))
    | _ =>
      let podSpec ← reflect.asPodSpec (← reflect.FieldByName templateValue "Spec")
      pure (.ok (deploymentMetadata, podSpec))

/-- The object after an assignment through the `podSpec` pointer the type
switch took: the pod spec at the kind's path is replaced. -/
def storePodSpec (out : runtime.Object) (p : corev1.PodSpec) : runtime.Object :=
  match out with
  | .cronJob job =>
    .cronJob { job with Spec := { job.Spec with JobTemplate := { job.Spec.JobTemplate with
      Spec := { job.Spec.JobTemplate.Spec with
        Template := { job.Spec.JobTemplate.Spec.Template with Spec := p } } } } }
  | .pod pod => .pod { pod with Spec := p }
  | .deployment deploy =>
    .deployment { deploy with Spec := { deploy.Spec with
      Template := { deploy.Spec.Template with Spec := p } } }
  | .other (.struct fields) =>
    match fields.lookup "Spec" with
    | some (.struct specFields) =>
      match specFields.lookup "Template" with
      | some (.ptr (some (.struct templateFields))) =>
        .other (.struct (reflect.setField fields "Spec" (.struct (reflect.setField specFields
          "Template" (.ptr (some (.struct (reflect.setField templateFields "Spec"
            (.podSpec p)))))))))
      | some (.struct templateFields) =>
        .other (.struct (reflect.setField fields "Spec" (.struct (reflect.setField specFields
          "Template" (.struct (reflect.setField templateFields "Spec" (.podSpec p)))))))
      | _ => out
    | _ => out
  | .other _ => out

/-- Lines 291-311 of the loop body: the bytes `cbytes` of the document built
for one container. -/
def extract (env : Env) (container : corev1.Container) : Except Error String :=
  match yaml.Marshal env container.toJSON with
  | .error err => .error err
  | .ok c =>
    match yaml.Unmarshal env c app.Container.fromJSON with
    | .error err => .error err
    | .ok cSpec =>
      let configData : app.ConfigData := { Spec := { Containers := [cSpec] } }
      yaml.Marshal env configData.toJSON

/-- The assignment `cmObj.Data[key] = value`. -/
def setData (cm : corev1.ConfigMap) (key value : String) : corev1.ConfigMap :=
  { cm with Data := cm.Data.set key value }

/-- The loop of `secureObject` over `podSpec.Containers`: the config map when
the loop is left, and the error of an early return. -/
def encryptContainers (env : Env) :
    List corev1.Container → corev1.ConfigMap → corev1.ConfigMap × Option Error
  | [], cmObj => (cmObj, none)
  | container :: rest, cmObj =>
    match extract env container with
    | .error err => (cmObj, some err)
    | .ok cbytes =>
      let cmObj := setData cmObj container.Name cbytes
      match env.EncryptConfigMap cbytes env.Key with
      | .error err => (cmObj, some err)
      | .ok encConfigMap => encryptContainers env rest (setData cmObj container.Name encConfigMap)

/-- `secureObject`: the three values it returns, or a panic. -/
def secureObject (env : Env) (in_ : runtime.Object) :
    Outcome (securecontainersv1alpha1.SecureContainer × corev1.ConfigMap × Option Error) :=
  let out := in_
  let scObj := zeroSecureContainer
  let cmObj := zeroConfigMap
  match workloadAccessor out with
  | .panicked msg => .panicked msg
  | .returned (.error err) => .returned (scObj, cmObj, some err)
  | .returned (.ok (deploymentMetadata, podSpec)) =>
    let cmObj := newConfigMap (securePrefix ++ "configmap-" ++ deploymentMetadata.Name)
      deploymentMetadata.Namespace
    match encryptContainers env podSpec.Containers cmObj with
    | (cmObj, some err) => .returned (scObj, cmObj, some err)
    | (cmObj, none) =>
      let podSpec := maskSensitiveData env.scratchImage podSpec
      let podSpec := mountConfigMap podSpec cmObj
      let podSpec :=
        if env.VaultSecret ≠ "" then insertVaultSecret podSpec env.VaultSecret else podSpec
      let out := storePodSpec out podSpec
      let scObj := newSecureContainer (securePrefix ++ deploymentMetadata.Name)
        env.secureContainerImage out
      .returned (scObj, cmObj, none)

/-! ## Output file name

A Go string is taken to be valid UTF-8, so that scanning its characters for
the ASCII bytes `.` and `/` and cutting a suffix agree with the byte-wise
operations of the Go library. -/

namespace path

/-- The loop of `path.Ext`, entered with `n = i + 1` for the index `i` that
counts down from `len(path) - 1`: it stops at a slash, and returns `path[i:]`
at a dot. -/
def Ext.loop (chars : List Char) : Nat → List Char
  | 0 => []
  | i + 1 =>
    match chars[i]? with
    | none => []
    | some ch =>
      if ch = '/' then []
      else if ch = '.' then chars.drop i
      else Ext.loop chars i

/-- Go `path.Ext`: the suffix beginning at the final dot in the final
slash-separated element of the path, empty if there is no dot. -/
def Ext (file : String) : String :=
  String.mk (Ext.loop file.data file.data.length)

end path

namespace strings

/-- Go `strings.HasSuffix`. -/
def HasSuffix (s suffix : String) : Bool :=
  decide (suffix.data.length ≤ s.data.length) &&
    s.data.drop (s.data.length - suffix.data.length) == suffix.data

/-- Go `strings.TrimSuffix`. -/
def TrimSuffix (s suffix : String) : String :=
  if HasSuffix s suffix then String.mk (s.data.take (s.data.length - suffix.data.length)) else s

end strings

/-- `genSecureFile`. -/
def genSecureFile (file : String) : String :=
  strings.TrimSuffix file (path.Ext file) ++ "-sc" ++ path.Ext file

/-! ## Reference definitions and a concrete environment -/

/-- The container the extracted document is specified to hold for `c`: its
name, image, command, args, env, ports and resources, the resource maps in key
order. -/
def extractedContainer (c : corev1.Container) : app.Container :=
  { Name := c.Name, Image := c.Image, Command := c.Command, Args := c.Args, Env := c.Env,
    Ports := c.Ports, Resources := some c.Resources.canonical }

/-- The document `spec: containers: [c]` specified for a container. -/
def extractedDocument (c : corev1.Container) : Doc :=
  .obj [("spec", .obj [("containers", .list [(extractedContainer c).toJSON])])]

/-- The last container named `n`, in pod-spec order. -/
def lastNamed (containers : List corev1.Container) (n : String) : Option corev1.Container :=
  (containers.filter fun c => c.Name = n).getLast?

/-- The ciphertext of a container: the gateway's output on its extracted
bytes, when both steps succeed. -/
def cipherOf (env : Env) (c : corev1.Container) : Option String :=
  match extract env c with
  | .error _ => none
  | .ok cbytes =>
    match env.EncryptConfigMap cbytes env.Key with
    | .error _ => none
    | .ok encConfigMap => some encConfigMap

mutual
/-- A document written as flow-style YAML. -/
def Doc.render : Doc → String
  | .null => "null"
  | .str s => "\"" ++ s ++ "\""
  | .num n => toString n
  | .bool b => toString b
  | .list items => "[" ++ Doc.renderItems items ++ "]"
  | .obj fields => "\x7b" ++ Doc.renderFields fields ++ "\x7d"
/-- The items of a flow sequence. -/
def Doc.renderItems : List Doc → String
  | [] => ""
  | d :: ds => d.render ++ "," ++ Doc.renderItems ds
/-- The entries of a flow mapping. -/
def Doc.renderFields : List (String × Doc) → String
  | [] => ""
  | (k, d) :: ds => k ++ ": " ++ d.render ++ "," ++ Doc.renderFields ds
end

/-- A reader for the texts `Doc.render` writes for the documents of `known`. -/
def readAmong (known : List Doc) (y : String) : Except Error Doc :=
  match known.find? fun d => d.render = y with
  | some d => .ok d
  | none => .error "yaml: unsupported document"

/-- A toy cipher: the text reversed. -/
def demoCipher (text : String) : String :=
  String.mk text.data.reverse

/-- A concrete environment: flow-style YAML, a reader for the documents of the
given containers, and the toy cipher, which fails on the text `failOn`. -/
def demoEnv (vaultSecret : String) (containers : List corev1.Container) (failOn : String) : Env :=
  { secureContainerImage := "raksh/sc-runtime:latest"
    scratchImage := "scratch"
    Key := "0123456789abcdef"
    VaultSecret := vaultSecret
    JSONToYAML := fun j => .ok j.render
    YAMLToJSON := readAmong (containers.map corev1.Container.toJSON)
    EncryptConfigMap := fun text _ =>
      if text = failOn then .error "crypto: encryption failed" else .ok (demoCipher text) }

/-- The order in which the keys of an object are written by `json.Marshal` for
a map, and by `YAMLToJSON` for every object. -/
def keyLE {β : Type} (a b : String × β) : Prop :=
  keyLess b.1.data a.1.data = false

instance {β : Type} : DecidableRel (keyLE : String × β → String × β → Prop) :=
  fun a b => (inferInstance : Decidable (keyLess b.1.data a.1.data = false))

mutual
/-- The document with the keys of every object sorted, as `YAMLToJSON` returns
it: the YAML text is read into maps, which are written back as JSON with sorted
keys. -/
def Doc.sortKeys : Doc → Doc
  | .null => .null
  | .str s => .str s
  | .num n => .num n
  | .bool b => .bool b
  | .list items => .list (Doc.sortKeysItems items)
  | .obj fields => .obj (List.insertionSort keyLE (Doc.sortKeysFields fields))
/-- The items of a list, each with sorted keys. -/
def Doc.sortKeysItems : List Doc → List Doc
  | [] => []
  | d :: ds => d.sortKeys :: Doc.sortKeysItems ds
/-- The entries of an object, each value with sorted keys. -/
def Doc.sortKeysFields : List (String × Doc) → List (String × Doc)
  | [] => []
  | (k, d) :: ds => (k, d.sortKeys) :: Doc.sortKeysFields ds
end

/-- The character U+0085 (next line), a line break of YAML that `json.Marshal`
writes unescaped. -/
def nextLine : Char := Char.ofNat 133

/-- A string as YAML reads it from a double-quoted scalar, for strings whose
line breaks each stand alone between two non-blank characters: such a break is
folded to one space. -/
def foldBreaks (s : String) : String :=
  String.mk (s.data.map fun ch => if ch = nextLine then ' ' else ch)

mutual
/-- The document with the line breaks of every string value folded. -/
def Doc.foldBreaks : Doc → Doc
  | .null => .null
  | .str s => .str (Raksh.foldBreaks s)
  | .num n => .num n
  | .bool b => .bool b
  | .list items => .list (Doc.foldBreaksItems items)
  | .obj fields => .obj (Doc.foldBreaksFields fields)
/-- The items of a list, each with folded strings. -/
def Doc.foldBreaksItems : List Doc → List Doc
  | [] => []
  | d :: ds => d.foldBreaks :: Doc.foldBreaksItems ds
/-- The entries of an object, each value with folded strings. -/
def Doc.foldBreaksFields : List (String × Doc) → List (String × Doc)
  | [] => []
  | (k, d) :: ds => (k, d.foldBreaks) :: Doc.foldBreaksFields ds
end

/-- The characters before the first `stop`, and those after it. -/
def splitAtChar (stop : Char) : List Char → Option (List Char × List Char)
  | [] => none
  | ch :: rest =>
    if ch = stop then some ([], rest)
    else (splitAtChar stop rest).map fun p => (ch :: p.1, p.2)

/-- The text after a word, when the text starts with that word. -/
def afterWord : List Char → List Char → Option (List Char)
  | [], s => some s
  | _ :: _, [] => none
  | w :: ws, ch :: rest => if ch = w then afterWord ws rest else none

/-- The number written by the leading digits, added to `acc` shifted, and the
text after them. -/
def readDigits : List Char → Nat → Nat × List Char
  | [], acc => (acc, [])
  | ch :: rest, acc =>
    if ch.isDigit then readDigits rest (10 * acc + (ch.toNat - 48)) else (acc, ch :: rest)

mutual
/-- A reader for one flow-style YAML value at the head of a text, returning
the text that follows it. -/
def readValue : Nat → List Char → Option (Doc × List Char)
  | 0, _ => none
  | _ + 1, [] => none
  | fuel + 1, ch :: rest =>
    if ch = Char.ofNat 34 then
      (splitAtChar (Char.ofNat 34) rest).map fun p => (Doc.str (String.mk p.1), p.2)
    else if ch = '[' then (readItems fuel rest).map fun p => (Doc.list p.1, p.2)
    else if ch = Char.ofNat 123 then (readFields fuel rest).map fun p => (Doc.obj p.1, p.2)
    else if ch = '-' then some (Doc.num (-((readDigits rest 0).1 : Int)), (readDigits rest 0).2)
    else if ch.isDigit then
      some (Doc.num ((readDigits (ch :: rest) 0).1 : Int), (readDigits (ch :: rest) 0).2)
    else
      match afterWord "null".data (ch :: rest) with
      | some r => some (Doc.null, r)
      | none =>
        match afterWord "true".data (ch :: rest) with
        | some r => some (Doc.bool true, r)
        | none => (afterWord "false".data (ch :: rest)).map fun r => (Doc.bool false, r)
/-- The items of a flow sequence, each followed by a comma, up to the closing
bracket. -/
def readItems : Nat → List Char → Option (List Doc × List Char)
  | 0, _ => none
  | _ + 1, [] => none
  | fuel + 1, ch :: rest =>
    if ch = ']' then some ([], rest)
    else
      match readValue fuel (ch :: rest) with
      | some (d, sep :: more) =>
        if sep = ',' then (readItems fuel more).map fun p => (d :: p.1, p.2) else none
      | _ => none
/-- The entries of a flow mapping, each `key: value` followed by a comma, up to
the closing brace. -/
def readFields : Nat → List Char → Option (List (String × Doc) × List Char)
  | 0, _ => none
  | _ + 1, [] => none
  | fuel + 1, ch :: rest =>
    if ch = Char.ofNat 125 then some ([], rest)
    else
      match splitAtChar ':' (ch :: rest) with
      | some (k, blank :: more) =>
        if blank = ' ' then
          match readValue fuel more with
          | some (d, sep :: more2) =>
            if sep = ',' then
              (readFields fuel more2).map fun p => ((String.mk k, d) :: p.1, p.2)
            else none
          | _ => none
        else none
      | _ => none
end

/-- A reader for the flow-style YAML that `Doc.render` writes. -/
def readFlow (y : String) : Except Error Doc :=
  match readValue (y.length + 1) y.data with
  | some (d, []) => .ok d
  | _ => .error "yaml: did not find expected node content"

/-- An environment that follows `ghodss/yaml`: `JSONToYAML` reads the JSON text
as YAML, which folds the line breaks inside strings, and writes the result with
sorted keys; `YAMLToJSON` reads the YAML text the same way and returns the
document with sorted keys. The cipher never fails. -/
def ghodssEnv (vaultSecret : String) : Env :=
  { secureContainerImage := "raksh/sc-runtime:latest"
    scratchImage := "scratch"
    Key := "0123456789abcdef"
    VaultSecret := vaultSecret
    JSONToYAML := fun j => .ok (Doc.sortKeys (Doc.foldBreaks j)).render
    YAMLToJSON := fun y => (readFlow y).map fun d => Doc.sortKeys (Doc.foldBreaks d)
    EncryptConfigMap := fun text _ => .ok (demoCipher text) }

/-- A container named `name` whose argument and environment value hold the
character U+0085 between `up` and `now`. -/
def demoBanner (name : String) : corev1.Container :=
  { Name := name, Image := "myapp:1.0", Command := ["/bin/app"],
    Args := [String.mk ['u', 'p', nextLine, 'n', 'o', 'w']],
    WorkingDir := "",
    Ports := [],
    Env := [{ Name := "BANNER", Value := String.mk ['u', 'p', nextLine, 'n', 'o', 'w'],
              ValueFrom := none }],
    Resources := { Limits := [("memory", "1Gi"), ("cpu", "1")], Requests := [] },
    VolumeMounts := [], ImagePullPolicy := "" }

/-- A container with the given name and image, listening on port 8080 with one
environment variable. -/
def demoContainer (name image : String) : corev1.Container :=
  { Name := name, Image := image, Command := ["/bin/app"], Args := ["--serve"],
    WorkingDir := "/srv",
    Ports := [{ Name := "http", HostPort := 0, ContainerPort := 8080, Protocol := "TCP",
                HostIP := "" }],
    Env := [{ Name := "DB_PASSWORD", Value := "hunter2", ValueFrom := none }],
    Resources := { Limits := [("cpu", "1")], Requests := [] },
    VolumeMounts := [], ImagePullPolicy := "Always" }

/-- A pod spec with the given containers and no volumes. -/
def demoPodSpec (containers : List corev1.Container) : corev1.PodSpec :=
  { Volumes := [], InitContainers := [], Containers := containers, RestartPolicy := "Always",
    ServiceAccountName := "" }

/-- The deployment `web` in namespace `default` with the given containers. -/
def demoDeployment (containers : List corev1.Container) : runtime.Object :=
  .deployment
    { TypeMeta := { Kind := "Deployment", APIVersion := "apps/v1" }
      ObjectMeta := { Name := "web", Namespace := "default", Labels := [] }
      Spec := { Replicas := some 1
                Template := { ObjectMeta := { Name := "", Namespace := "", Labels := [] }
                              Spec := demoPodSpec containers } } }

/-- The `Spec` fields of a ReplicationController whose `Template` pointer is
`template`. -/
def demoRCSpecFields (template : Option reflect.GoValue) : List (String × reflect.GoValue) :=
  [("Replicas", .ptr (some (.scalar "2"))), ("Template", .ptr template)]

/-- The fields of a ReplicationController, a kind without an explicit case
whose `Spec.Template` is a pointer. -/
def demoRCFields (template : Option reflect.GoValue) : List (String × reflect.GoValue) :=
  [ ("TypeMeta", .struct [("Kind", .scalar "ReplicationController"),
                          ("APIVersion", .scalar "v1")]),
    ("ObjectMeta", .objectMeta { Name := "rc", Namespace := "prod", Labels := [] }),
    ("Spec", .struct (demoRCSpecFields template)),
    ("Status", .struct [("Replicas", .scalar "0")]) ]

/-- A ReplicationController as `reflect` sees it. -/
def demoReplicationController (template : Option reflect.GoValue) : runtime.Object :=
  .other (.struct (demoRCFields template))

/-- The fields of a pod template. -/
def demoTemplateFields (containers : List corev1.Container) : List (String × reflect.GoValue) :=
  [ ("ObjectMeta", .objectMeta { Name := "", Namespace := "", Labels := [] }),
    ("Spec", .podSpec (demoPodSpec containers)) ]

/-- A pod template as `reflect` sees it. -/
def demoTemplate (containers : List corev1.Container) : reflect.GoValue :=
  .struct (demoTemplateFields containers)

/-- A resource of a kind without an explicit case whose `Spec.Template` is a
struct, as in a DaemonSet. -/
def demoDaemonSet (containers : List corev1.Container) : runtime.Object :=
  .other (.struct
    [ ("TypeMeta", .struct [("Kind", .scalar "DaemonSet"), ("APIVersion", .scalar "apps/v1")]),
      ("ObjectMeta", .objectMeta { Name := "agent", Namespace := "kube-system", Labels := [] }),
      ("Spec", .struct [("Template", demoTemplate containers)]),
      ("Status", .struct []) ])

/-- A `corev1.Service` as `reflect` sees it: its `Spec` has no `Template`. -/
def demoService : runtime.Object :=
  .other (.struct
    [ ("TypeMeta", .struct [("Kind", .scalar "Service"), ("APIVersion", .scalar "v1")]),
      ("ObjectMeta", .objectMeta { Name := "web", Namespace := "default", Labels := [] }),
      ("Spec", .struct [("Ports", .scalar "80/TCP"), ("Type", .scalar "ClusterIP")]),
      ("Status", .struct []) ])

/-- A `corev1.ConfigMap` as `reflect` sees it: it has no `Spec`. -/
def demoConfigMapObject : runtime.Object :=
  .other (.struct
    [ ("TypeMeta", .struct [("Kind", .scalar "ConfigMap"), ("APIVersion", .scalar "v1")]),
      ("ObjectMeta", .objectMeta { Name := "settings", Namespace := "default", Labels := [] }),
      ("Data", .scalar "map[string]string") ])

/-- A `corev1.PodList` as `reflect` sees it: it has a `ListMeta` and no
`ObjectMeta`. -/
def demoPodList : runtime.Object :=
  .other (.struct
    [ ("TypeMeta", .struct [("Kind", .scalar "PodList"), ("APIVersion", .scalar "v1")]),
      ("ListMeta", .struct [("ResourceVersion", .scalar "1")]),
      ("Items", .scalar "[]v1.Pod") ])

/-- A resource whose `Spec.Template` is a struct without a `Spec` field. -/
def demoWorkflow : runtime.Object :=
  .other (.struct
    [ ("TypeMeta", .struct [("Kind", .scalar "Workflow"), ("APIVersion", .scalar "example/v1")]),
      ("ObjectMeta", .objectMeta { Name := "flow", Namespace := "default", Labels := [] }),
      ("Spec", .struct [("Template", .struct [("Steps", .scalar "[]Step")])]) ])

/-- The cron job `nightly` in namespace `batch` with the given containers. -/
def demoCronJob (containers : List corev1.Container) : runtime.Object :=
  .cronJob
    { TypeMeta := { Kind := "CronJob", APIVersion := "batch/v2alpha1" }
      ObjectMeta := { Name := "nightly", Namespace := "batch", Labels := [] }
      Spec :=
        { Schedule := "0 3 * * *"
          JobTemplate :=
            { ObjectMeta := { Name := "", Namespace := "", Labels := [] }
              Spec :=
                { Parallelism := none
                  Template := { ObjectMeta := { Name := "", Namespace := "", Labels := [] }
                                Spec := demoPodSpec containers } } } } }

/-- The pod `solo` in namespace `default` with the given containers. -/
def demoPod (containers : List corev1.Container) : runtime.Object :=
  .pod
    { TypeMeta := { Kind := "Pod", APIVersion := "v1" }
      ObjectMeta := { Name := "solo", Namespace := "default", Labels := [] }
      Spec := demoPodSpec containers }

/-- The scrubbed pod spec by description: every container masked, given the
Vault variables when a secret is configured, and given one more mount; one
volume per container appended; everything else as in the source pod spec. -/
def scrubbedPodSpec (env : Env) (ps : corev1.PodSpec) (cm : corev1.ConfigMap) : corev1.PodSpec :=
  { ps with
    Containers := ps.Containers.map fun c =>
      { c with
        Image := env.scratchImage
        Command := []
        Args := []
        Env := if env.VaultSecret = "" then [] else vaultSecrets env.VaultSecret
        VolumeMounts := c.VolumeMounts ++
          [{ Name := "secure-volume-" ++ c.Name, ReadOnly := true, MountPath := "/etc/raksh",
             SubPath := "" }] }
    Volumes := ps.Volumes ++ ps.Containers.map fun c =>
      { Name := "secure-volume-" ++ c.Name
        VolumeSource :=
          { HostPath := none
            ConfigMap := some
              { Name := cm.ObjectMeta.Name
                Items := [{ Key := c.Name, Path := "raksh.properties", Mode := none }]
                DefaultMode := none
                Optional := none } } } }

/-- The metadata block of an object: the `ObjectMeta` field of its struct. -/
def metadataOf : runtime.Object → Option metav1.ObjectMeta
  | .cronJob job => some job.ObjectMeta
  | .pod pod => some pod.ObjectMeta
  | .deployment deploy => some deploy.ObjectMeta
  | .other (.struct fields) =>
    match fields.lookup "ObjectMeta" with
    | some (.objectMeta m) => some m
    | _ => none
  | .other _ => none

/-! ## Auxiliary lemmas -/

theorem keyLess_irrefl : ∀ a : List Char, keyLess a a = false
  | [] => rfl
  | a :: as => by
    simp only [keyLess, Nat.lt_irrefl, if_false]
    exact keyLess_irrefl as

theorem keyLess_asymm : ∀ a b : List Char, keyLess a b = true → keyLess b a = false
  | _, [], h => by simp [keyLess] at h
  | [], _ :: _, _ => by simp [keyLess]
  | a :: as, b :: bs, h => by
    simp only [keyLess] at h ⊢
    by_cases h1 : a.toNat < b.toNat
    · have h2 : ¬ b.toNat < a.toNat := by omega
      simp [h2, h1]
    · by_cases h2 : b.toNat < a.toNat
      · simp [h1, h2] at h
      · simp only [h1, h2, if_false] at h ⊢
        exact keyLess_asymm as bs h

theorem keyLess_trans : ∀ a b c : List Char,
    keyLess a b = true → keyLess b c = true → keyLess a c = true
  | _, _, [], _, h2 => by simp [keyLess] at h2
  | _, [], _ :: _, h1, _ => by simp [keyLess] at h1
  | [], _ :: _, _ :: _, _, _ => by simp [keyLess]
  | a :: as, b :: bs, c :: cs, h1, h2 => by
    simp only [keyLess] at h1 h2 ⊢
    by_cases hab : a.toNat < b.toNat
    · by_cases hbc : b.toNat < c.toNat
      · have : a.toNat < c.toNat := by omega
        simp [this]
      · by_cases hcb : c.toNat < b.toNat
        · simp [hbc, hcb] at h2
        · have : a.toNat < c.toNat := by omega
          simp [this]
    · by_cases hba : b.toNat < a.toNat
      · simp [hab, hba] at h1
      · simp only [hab, hba, if_false] at h1
        by_cases hbc : b.toNat < c.toNat
        · have : a.toNat < c.toNat := by omega
          simp [this]
        · by_cases hcb : c.toNat < b.toNat
          · simp [hbc, hcb] at h2
          · simp only [hbc, hcb, if_false] at h2
            have h3 : ¬ a.toNat < c.toNat := by omega
            have h4 : ¬ c.toNat < a.toNat := by omega
            simp only [h3, h4, if_false]
            exact keyLess_trans as bs cs h1 h2

theorem keyLess_trichotomy : ∀ a b : List Char,
    keyLess a b = false → keyLess b a = false → a = b
  | [], [], _, _ => rfl
  | [], _ :: _, h, _ => by simp [keyLess] at h
  | _ :: _, [], _, h => by simp [keyLess] at h
  | a :: as, b :: bs, h1, h2 => by
    simp only [keyLess] at h1 h2
    by_cases hab : a.toNat < b.toNat
    · simp [hab] at h1
    · by_cases hba : b.toNat < a.toNat
      · simp [hba] at h2
      · simp only [hab, hba, if_false] at h1 h2
        have hn : a.toNat = b.toNat := by omega
        have hc : a = b := Char.ext (UInt32.ext hn)
        rw [hc, keyLess_trichotomy as bs h1 h2]

theorem ResourceList.set_key_mem (m : List (String × String)) (k v : String) :
    ∀ b ∈ ResourceList.set m k v, b.1 = k ∨ ∃ b' ∈ m, b'.1 = b.1 := by
  induction m with
  | nil =>
    intro b hb
    simp only [ResourceList.set, List.mem_singleton] at hb
    exact Or.inl (by rw [hb])
  | cons kv rest ih =>
    obtain ⟨k0, v0⟩ := kv
    intro b hb
    unfold ResourceList.set at hb
    split at hb
    · rcases List.mem_cons.mp hb with rfl | hb
      · exact Or.inl rfl
      · exact Or.inr ⟨b, hb, rfl⟩
    · split at hb
      · rcases List.mem_cons.mp hb with rfl | hb
        · exact Or.inr ⟨(k0, v0), List.mem_cons_self _ _, rfl⟩
        · rcases ih b hb with h | ⟨b', hb', h⟩
          · exact Or.inl h
          · exact Or.inr ⟨b', List.mem_cons_of_mem _ hb', h⟩
      · rcases List.mem_cons.mp hb with rfl | hb
        · exact Or.inr ⟨(k0, v0), List.mem_cons_self _ _, rfl⟩
        · exact Or.inr ⟨b, List.mem_cons_of_mem _ hb, rfl⟩

theorem ResourceList.set_keySorted (m : List (String × String)) (k v : String)
    (h : KeySorted m) : KeySorted (ResourceList.set m k v) := by
  induction m with
  | nil => simp [ResourceList.set, KeySorted]
  | cons kv rest ih =>
    obtain ⟨k0, v0⟩ := kv
    have hp : (∀ b ∈ rest, keyLess k0.data b.1.data = true) ∧ KeySorted rest :=
      List.pairwise_cons.mp h
    unfold ResourceList.set
    split
    · rename_i hlt
      refine List.pairwise_cons.mpr ⟨?_, h⟩
      intro b hb
      rcases List.mem_cons.mp hb with rfl | hb
      · exact hlt
      · exact keyLess_trans _ _ _ hlt (hp.1 b hb)
    · split
      · rename_i hnlt hgt
        refine List.pairwise_cons.mpr ⟨?_, ih hp.2⟩
        intro b hb
        rcases ResourceList.set_key_mem rest k v b hb with hk | ⟨b', hb', hk⟩
        · rw [hk]; exact hgt
        · rw [← hk]; exact hp.1 b' hb'
      · exact List.pairwise_cons.mpr ⟨hp.1, hp.2⟩

theorem ResourceList.set_append_of_lt (m : List (String × String)) (k v : String)
    (h : ∀ b ∈ m, keyLess b.1.data k.data = true) :
    ResourceList.set m k v = m ++ [(k, v)] := by
  induction m with
  | nil => rfl
  | cons kv rest ih =>
    obtain ⟨k0, v0⟩ := kv
    have h0 : keyLess k0.data k.data = true := h (k0, v0) (List.mem_cons_self _ _)
    have h1 : keyLess k.data k0.data = false := keyLess_asymm _ _ h0
    simp only [ResourceList.set, h1, h0, if_true, Bool.false_eq_true, if_false,
      List.cons_append]
    rw [ih (fun b hb => h b (List.mem_cons_of_mem _ hb))]

theorem ResourceList.foldl_set_of_keySorted (l : List (String × String)) :
    ∀ acc : List (String × String), KeySorted (acc ++ l) →
      l.foldl (fun m kv => ResourceList.set m kv.1 kv.2) acc = acc ++ l := by
  induction l with
  | nil => intro acc _; simp
  | cons x xs ih =>
    intro acc h
    have hlt : ∀ b ∈ acc, keyLess b.1.data x.1.data = true := by
      intro b hb
      exact (List.pairwise_append.mp h).2.2 b hb x (List.mem_cons_self _ _)
    rw [List.foldl_cons, ResourceList.set_append_of_lt acc x.1 x.2 hlt]
    have h' : KeySorted ((acc ++ [(x.1, x.2)]) ++ xs) := by
      simpa [List.append_assoc] using h
    rw [ih _ h']
    simp [List.append_assoc]

theorem ResourceList.canonical_of_keySorted (r : List (String × String)) (h : KeySorted r) :
    ResourceList.canonical r = r := by
  have := ResourceList.foldl_set_of_keySorted r [] (by simpa using h)
  simpa [ResourceList.canonical] using this

theorem ResourceList.foldl_set_keySorted (l : List (String × String)) :
    ∀ acc : List (String × String), KeySorted acc →
      KeySorted (l.foldl (fun m kv => ResourceList.set m kv.1 kv.2) acc) := by
  induction l with
  | nil => intro acc h; exact h
  | cons x xs ih =>
    intro acc h
    exact ih _ (ResourceList.set_keySorted acc x.1 x.2 h)

theorem ResourceList.canonical_keySorted (r : List (String × String)) :
    KeySorted (ResourceList.canonical r) :=
  ResourceList.foldl_set_keySorted r [] List.Pairwise.nil

theorem ResourceList.canonical_idem (r : List (String × String)) :
    ResourceList.canonical (ResourceList.canonical r) = ResourceList.canonical r :=
  ResourceList.canonical_of_keySorted _ (ResourceList.canonical_keySorted r)

theorem ResourceList.canonical_eq_nil (r : List (String × String)) :
    (ResourceList.canonical r).isEmpty = r.isEmpty := by
  cases r with
  | nil => rfl
  | cons x xs =>
    have hne : ∀ (l acc : List (String × String)), acc ≠ [] →
        l.foldl (fun m kv => ResourceList.set m kv.1 kv.2) acc ≠ [] := by
      intro l
      induction l with
      | nil => intro acc h; exact h
      | cons y ys ih =>
        intro acc _
        apply ih
        cases acc with
        | nil => simp [ResourceList.set]
        | cons a as =>
          obtain ⟨k0, v0⟩ := a
          unfold ResourceList.set
          split
          · simp
          · split <;> simp
    have h := hne xs (ResourceList.set [] x.1 x.2) (by simp [ResourceList.set])
    have hc : ResourceList.canonical (x :: xs) =
        xs.foldl (fun m kv => ResourceList.set m kv.1 kv.2) (ResourceList.set [] x.1 x.2) := rfl
    rw [hc]
    cases hf : xs.foldl (fun m kv => ResourceList.set m kv.1 kv.2) (ResourceList.set [] x.1 x.2) with
    | nil => exact absurd hf h
    | cons _ _ => rfl

theorem Doc.sortKeysItems_eq (items : List Doc) :
    Doc.sortKeysItems items = items.map Doc.sortKeys := by
  induction items with
  | nil => rfl
  | cons d ds ih => simp only [Doc.sortKeysItems, List.map_cons, ih]

theorem Doc.sortKeysFields_eq (fields : List (String × Doc)) :
    Doc.sortKeysFields fields = fields.map fun kv => (kv.1, kv.2.sortKeys) := by
  induction fields with
  | nil => rfl
  | cons kv ds ih =>
    obtain ⟨k, d⟩ := kv
    simp only [Doc.sortKeysFields, List.map_cons, ih]

theorem lookup_orderedInsert (a : String × Doc) (l : List (String × Doc)) (k : String) :
    (List.orderedInsert keyLE a l).lookup k = if k = a.1 then some a.2 else l.lookup k := by
  obtain ⟨ka, va⟩ := a
  induction l with
  | nil =>
    by_cases h : k = ka
    · simp [List.orderedInsert, List.lookup, h]
    · have hne : (k == ka) = false := by simpa using h
      simp [List.orderedInsert, List.lookup, h, hne]
  | cons b rest ih =>
    obtain ⟨kb, vb⟩ := b
    by_cases hle : keyLE (ka, va) (kb, vb)
    · have hcons : List.orderedInsert keyLE (ka, va) ((kb, vb) :: rest) =
          (ka, va) :: (kb, vb) :: rest := by
        simp [List.orderedInsert, hle]
      rw [hcons]
      by_cases h : k = ka
      · simp [List.lookup, h]
      · have hne : (k == ka) = false := by simpa using h
        simp [List.lookup, h, hne]
    · have hlt : keyLess kb.data ka.data = true := by
        simpa [keyLE] using hle
      have hab : ka ≠ kb := by
        intro e
        rw [e, keyLess_irrefl] at hlt
        cases hlt
      have hcons : List.orderedInsert keyLE (ka, va) ((kb, vb) :: rest) =
          (kb, vb) :: List.orderedInsert keyLE (ka, va) rest := by
        simp [List.orderedInsert, hle]
      rw [hcons]
      by_cases hb : k = kb
      · subst hb
        have hka : ¬ k = ka := fun e => hab e.symm
        simp [List.lookup, hka]
      · have hne : (k == kb) = false := by simpa using hb
        simp only [List.lookup, hne]
        exact ih

theorem lookup_insertionSort (l : List (String × Doc)) (k : String) :
    (List.insertionSort keyLE l).lookup k = l.lookup k := by
  induction l with
  | nil => rfl
  | cons a rest ih =>
    obtain ⟨ka, va⟩ := a
    rw [List.insertionSort_cons_eq_take_drop] at *
    rw [← List.orderedInsert_eq_take_drop, lookup_orderedInsert, ih]
    by_cases h : k = ka
    · simp [List.lookup, h]
    · have hne : (k == ka) = false := by simpa using h
      simp [List.lookup, h, hne]

theorem lookup_sortKeysFields (fields : List (String × Doc)) (k : String) :
    (Doc.sortKeysFields fields).lookup k = (fields.lookup k).map Doc.sortKeys := by
  induction fields with
  | nil => rfl
  | cons kv rest ih =>
    obtain ⟨k0, d⟩ := kv
    simp only [Doc.sortKeysFields, List.lookup]
    cases k == k0 with
    | true => rfl
    | false => exact ih

theorem field_sortKeys (fields : List (String × Doc)) (k : String) :
    field (List.insertionSort keyLE (Doc.sortKeysFields fields)) k = (field fields k).sortKeys := by
  unfold field
  rw [lookup_insertionSort, lookup_sortKeysFields]
  cases fields.lookup k <;> rfl

theorem Doc.sortKeys_obj (fields : List (String × Doc)) :
    (Doc.obj fields).sortKeys =
      Doc.obj (List.insertionSort keyLE (Doc.sortKeysFields fields)) := rfl

theorem sortKeys_eq_null (d : Doc) : d.sortKeys = Doc.null ↔ d = Doc.null := by
  cases d <;> simp [Doc.sortKeys]

theorem decodeString_sortKeys (d : Doc) : decodeString d.sortKeys = decodeString d := by
  cases d <;> rfl

theorem decodeInt_sortKeys (d : Doc) : decodeInt d.sortKeys = decodeInt d := by
  cases d <;> rfl

theorem decodeBoolPtr_sortKeys (d : Doc) : decodeBoolPtr d.sortKeys = decodeBoolPtr d := by
  cases d <;> rfl

theorem mapE_map_congr {α : Type} (f : Doc → Except Error α)
    (h : ∀ d, f d.sortKeys = f d) (items : List Doc) :
    mapE f (items.map Doc.sortKeys) = mapE f items := by
  induction items with
  | nil => rfl
  | cons d ds ih => simp only [List.map_cons, mapE, h, ih]

theorem decodeSlice_sortKeys {α : Type} (f : Doc → Except Error α)
    (h : ∀ d, f d.sortKeys = f d) (d : Doc) :
    decodeSlice f d.sortKeys = decodeSlice f d := by
  cases d with
  | list items =>
    simp only [Doc.sortKeys, decodeSlice, Doc.sortKeysItems_eq]
    exact mapE_map_congr f h items
  | _ => rfl

theorem decodePtr_sortKeys {α : Type} (f : Doc → Except Error α)
    (h : ∀ d, f d.sortKeys = f d) (d : Doc) :
    decodePtr f d.sortKeys = decodePtr f d := by
  cases d with
  | null => rfl
  | str s => simp only [Doc.sortKeys]
  | num n => simp only [Doc.sortKeys]
  | bool b => simp only [Doc.sortKeys]
  | list items =>
    have := h (.list items)
    simp only [Doc.sortKeys] at this ⊢
    simp only [decodePtr, this]
  | obj fields =>
    have := h (.obj fields)
    simp only [Doc.sortKeys] at this ⊢
    simp only [decodePtr, this]

theorem SecretKeySelector_fromJSON_sortKeys (d : Doc) :
    corev1.SecretKeySelector.fromJSON d.sortKeys = corev1.SecretKeySelector.fromJSON d := by
  cases d with
  | obj fields =>
    simp only [Doc.sortKeys, corev1.SecretKeySelector.fromJSON, field_sortKeys,
      decodeString_sortKeys, decodeBoolPtr_sortKeys]
  | _ => rfl

theorem ConfigMapKeySelector_fromJSON_sortKeys (d : Doc) :
    corev1.ConfigMapKeySelector.fromJSON d.sortKeys = corev1.ConfigMapKeySelector.fromJSON d := by
  cases d with
  | obj fields =>
    simp only [Doc.sortKeys, corev1.ConfigMapKeySelector.fromJSON, field_sortKeys,
      decodeString_sortKeys, decodeBoolPtr_sortKeys]
  | _ => rfl

theorem EnvVarSource_fromJSON_sortKeys (d : Doc) :
    corev1.EnvVarSource.fromJSON d.sortKeys = corev1.EnvVarSource.fromJSON d := by
  cases d with
  | obj fields =>
    simp only [Doc.sortKeys, corev1.EnvVarSource.fromJSON, field_sortKeys,
      decodePtr_sortKeys _ ConfigMapKeySelector_fromJSON_sortKeys,
      decodePtr_sortKeys _ SecretKeySelector_fromJSON_sortKeys]
  | _ => rfl

theorem EnvVar_fromJSON_sortKeys (d : Doc) :
    corev1.EnvVar.fromJSON d.sortKeys = corev1.EnvVar.fromJSON d := by
  cases d with
  | obj fields =>
    simp only [Doc.sortKeys, corev1.EnvVar.fromJSON, field_sortKeys, decodeString_sortKeys,
      decodePtr_sortKeys _ EnvVarSource_fromJSON_sortKeys]
  | _ => rfl

theorem ContainerPort_fromJSON_sortKeys (d : Doc) :
    corev1.ContainerPort.fromJSON d.sortKeys = corev1.ContainerPort.fromJSON d := by
  cases d with
  | obj fields =>
    simp only [Doc.sortKeys, corev1.ContainerPort.fromJSON, field_sortKeys,
      decodeString_sortKeys, decodeInt_sortKeys]
  | _ => rfl


theorem foldl_range_step {α β : Type} (step : List α × List β → Nat → List α × List β)
    (f : α → α) (g : α → β)
    (hstep : ∀ ys acc i x, ys[i]? = some x → step (ys, acc) i = (ys.set i (f x), acc ++ [g x]))
    (xs : List α) :
    ∀ n, n ≤ xs.length →
      (List.range n).foldl step (xs, []) = ((xs.take n).map f ++ xs.drop n, (xs.take n).map g) := by
  intro n
  induction n with
  | zero => intro _; simp
  | succ n ih =>
    intro hn
    have hlt : n < xs.length := hn
    have hlen : ((xs.take n).map f).length = n := by
      rw [List.length_map, List.length_take]
      exact Nat.min_eq_left (Nat.le_of_lt hlt)
    have hdrop : xs.drop n = xs[n] :: xs.drop (n + 1) := List.drop_eq_getElem_cons hlt
    have htake : xs.take (n + 1) = xs.take n ++ [xs[n]] := by
      rw [List.take_succ, List.getElem?_eq_getElem hlt]
      rfl
    have hget : ((xs.take n).map f ++ xs.drop n)[n]? = some xs[n] := by
      rw [List.getElem?_append_right (by omega), hlen, hdrop, Nat.sub_self]
      exact List.getElem?_cons_zero
    have hset : ((xs.take n).map f ++ xs.drop n).set n (f xs[n])
        = (xs.take (n + 1)).map f ++ xs.drop (n + 1) := by
      rw [List.set_append_right _ _ (by omega), hlen, hdrop, Nat.sub_self, htake, List.map_append,
        List.append_assoc]
      rfl
    rw [List.range_succ, List.foldl_append, ih (Nat.le_of_lt hlt), List.foldl_cons, List.foldl_nil,
      hstep _ _ _ _ hget, hset, htake, List.map_append, List.map_append]
    rfl

theorem forEachIndex_eq_map {α : Type} (f : α → α) (xs : List α) :
    forEachIndex f xs = xs.map f := by
  have key : ∀ (l : List Nat) (ys : List α) (acc : List Unit),
      (l.foldl (fun (st : List α × List Unit) index =>
          match st.1[index]? with
          | none => st
          | some x => (st.1.set index (f x), st.2 ++ [()])) (ys, acc)).1
        = l.foldl (fun ys index =>
          match ys[index]? with
          | none => ys
          | some y => ys.set index (f y)) ys := by
    intro l
    induction l with
    | nil => intro ys acc; rfl
    | cons i l ih =>
      intro ys acc
      rw [List.foldl_cons, List.foldl_cons]
      cases hi : ys[i]? with
      | none => exact ih ys acc
      | some y => exact ih _ _
  have h := foldl_range_step
    (fun (st : List α × List Unit) index =>
      match st.1[index]? with
      | none => st
      | some x => (st.1.set index (f x), st.2 ++ [()]))
    f (fun _ => ()) (by intro ys acc i x hx; simp only [hx]) xs xs.length (Nat.le_refl _)
  unfold forEachIndex
  rw [← key _ xs [], h, List.take_length, List.drop_length, List.append_nil]

theorem mountConfigMap_eq (pod : corev1.PodSpec) (cm : corev1.ConfigMap) :
    mountConfigMap pod cm =
      { pod with
        Containers := pod.Containers.map fun c =>
          { c with VolumeMounts := c.VolumeMounts ++
              [{ Name := "secure-volume-" ++ c.Name, ReadOnly := true,
                 MountPath := "/etc/raksh", SubPath := "" }] }
        Volumes := pod.Volumes ++ pod.Containers.map fun c =>
          { Name := "secure-volume-" ++ c.Name
            VolumeSource :=
              { HostPath := none
                ConfigMap := some
                  { Name := cm.ObjectMeta.Name
                    Items := [{ Key := c.Name, Path := "raksh.properties", Mode := none }]
                    DefaultMode := none
                    Optional := none } } } } := by
  unfold mountConfigMap
  simp only []
  rw [foldl_range_step _
    (fun c : corev1.Container => { c with VolumeMounts := c.VolumeMounts ++
      [{ Name := securePrefix ++ "volume-" ++ c.Name, ReadOnly := true,
         MountPath := "/etc/raksh", SubPath := "" }] })
    (fun c : corev1.Container => ({ Name := securePrefix ++ "volume-" ++ c.Name
                                    VolumeSource :=
              { HostPath := none
                ConfigMap := some
                  { Name := cm.ObjectMeta.Name
                    Items := [{ Key := c.Name, Path := "raksh.properties", Mode := none }]
                    DefaultMode := none
                    Optional := none } } } : corev1.Volume))
    (by intro ys acc i x hx; simp only [hx]) pod.Containers pod.Containers.length (Nat.le_refl _)]
  have hp : ∀ n : String, securePrefix ++ "volume-" ++ n = "secure-volume-" ++ n := by
    intro n
    show ("secure-" ++ "volume-") ++ n = "secure-volume-" ++ n
    rfl
  simp only [List.take_length, List.drop_length, List.append_nil, hp]

theorem GoMap.get?_set_self (m : GoMap) (k v : String) : (GoMap.set m k v).get? k = some v := by
  induction m with
  | nil => simp [GoMap.set, GoMap.get?, List.lookup]
  | cons kv rest ih =>
    obtain ⟨k0, v0⟩ := kv
    by_cases h : k0 = k
    · simp [GoMap.set, GoMap.get?, List.lookup, h]
    · have hne : (k == k0) = false := by simpa using fun e => h e.symm
      simp only [GoMap.set, if_neg h, GoMap.get?, List.lookup, hne]
      exact ih

theorem GoMap.get?_set_ne (m : GoMap) (k v n : String) (hn : n ≠ k) :
    (GoMap.set m k v).get? n = m.get? n := by
  induction m with
  | nil =>
    have hne : (n == k) = false := by simpa using hn
    simp [GoMap.set, GoMap.get?, List.lookup, hne]
  | cons kv rest ih =>
    obtain ⟨k0, v0⟩ := kv
    by_cases h : k0 = k
    · subst h
      have hne : (n == k0) = false := by simpa using hn
      simp [GoMap.set, GoMap.get?, List.lookup, hne]
    · simp only [GoMap.set, if_neg h, GoMap.get?, List.lookup]
      cases hk : n == k0 with
      | true => rfl
      | false => exact ih

theorem GoMap.mem_keys_iff (m : GoMap) (n : String) : n ∈ m.keys ↔ ∃ v, m.get? n = some v := by
  induction m with
  | nil => simp [GoMap.keys, GoMap.get?]
  | cons kv rest ih =>
    obtain ⟨k0, v0⟩ := kv
    by_cases h : n = k0
    · subst h
      simp [GoMap.keys, GoMap.get?, List.lookup]
    · have hne : (n == k0) = false := by simpa using h
      have ih2 : n ∈ List.map Prod.fst rest ↔ ∃ v, List.lookup n rest = some v := ih
      simp only [GoMap.keys, GoMap.get?, List.map_cons, List.mem_cons, List.lookup, hne, h,
        false_or]
      exact ih2

theorem GoMap.mem_keys_set (m : GoMap) (k v n : String) :
    n ∈ (GoMap.set m k v).keys ↔ n = k ∨ n ∈ m.keys := by
  rw [GoMap.mem_keys_iff, GoMap.mem_keys_iff]
  by_cases h : n = k
  · subst h
    simp [GoMap.get?_set_self]
  · simp [GoMap.get?_set_ne m k v n h, h]

theorem GoMap.nodup_keys_set (m : GoMap) (k v : String) (h : m.keys.Nodup) :
    (GoMap.set m k v).keys.Nodup := by
  induction m with
  | nil => simp [GoMap.set, GoMap.keys]
  | cons kv rest ih =>
    obtain ⟨k0, v0⟩ := kv
    have h2 : k0 ∉ GoMap.keys rest ∧ (GoMap.keys rest).Nodup := by
      simpa [GoMap.keys] using h
    by_cases hk : k0 = k
    · simpa [GoMap.set, hk, GoMap.keys] using h
    · have hmem : k0 ∉ (GoMap.set rest k v).keys := by
        rw [GoMap.mem_keys_set]
        exact fun hor => hor.elim hk h2.1
      have hnd := ih h2.2
      simp only [GoMap.set, if_neg hk]
      exact List.nodup_cons.mpr ⟨hmem, hnd⟩

theorem lastNamed_cons (c : corev1.Container) (rest : List corev1.Container) (n : String) :
    lastNamed (c :: rest) n =
      match lastNamed rest n with
      | some d => some d
      | none => if c.Name = n then some c else none := by
  unfold lastNamed
  by_cases h : c.Name = n
  · have hf : List.filter (fun c => decide (c.Name = n)) (c :: rest)
        = c :: List.filter (fun c => decide (c.Name = n)) rest :=
      List.filter_cons_of_pos (by simpa using h)
    rw [hf, if_pos h]
    cases hr : (List.filter (fun c => decide (c.Name = n)) rest) with
    | nil => rfl
    | cons d ds =>
      rw [List.getLast?_cons_cons]
      cases hg : (d :: ds).getLast? with
      | none => simp at hg
      | some x => rfl
  · have hf : List.filter (fun c => decide (c.Name = n)) (c :: rest)
        = List.filter (fun c => decide (c.Name = n)) rest :=
      List.filter_cons_of_neg (by simpa using h)
    rw [hf, if_neg h]
    generalize (List.filter (fun c => decide (c.Name = n)) rest).getLast? = o
    cases o <;> rfl

theorem lastNamed_isSome_iff (cs : List corev1.Container) (n : String) :
    (∃ c, lastNamed cs n = some c) ↔ n ∈ cs.map (fun c => c.Name) := by
  induction cs with
  | nil => simp [lastNamed]
  | cons c rest ih =>
    rw [lastNamed_cons]
    cases hr : lastNamed rest n with
    | some d =>
      have : n ∈ rest.map (fun c => c.Name) := ih.mp ⟨d, hr⟩
      simp [this]
    | none =>
      have hnot : n ∉ rest.map (fun c => c.Name) := by
        intro hmem
        obtain ⟨d, hd⟩ := ih.mpr hmem
        rw [hr] at hd
        cases hd
      by_cases h : c.Name = n
      · simp [h]
      · have h' : ¬ n = c.Name := fun e => h e.symm
        simp only [h, if_false, List.map_cons, List.mem_cons, h', false_or]
        constructor
        · rintro ⟨_, hc⟩; cases hc
        · intro hm; exact absurd hm hnot

theorem lastNamed_mem (cs : List corev1.Container) (n : String) (c : corev1.Container)
    (h : lastNamed cs n = some c) : c ∈ cs ∧ c.Name = n := by
  unfold lastNamed at h
  have hm := List.mem_of_getLast?_eq_some h
  simpa using List.mem_filter.mp hm

theorem cipherOf_eq_some (env : Env) (c : corev1.Container) (enc : String) :
    cipherOf env c = some enc ↔
      ∃ cbytes, extract env c = .ok cbytes ∧ env.EncryptConfigMap cbytes env.Key = .ok enc := by
  unfold cipherOf
  cases h1 : extract env c with
  | error e => simp
  | ok cbytes =>
    cases h2 : env.EncryptConfigMap cbytes env.Key with
    | error e => simp [h2]
    | ok e => simp [h2]

theorem encryptContainers_cons_ok (env : Env) (c : corev1.Container)
    (rest : List corev1.Container) (cm0 : corev1.ConfigMap) (cbytes enc : String)
    (h1 : extract env c = .ok cbytes) (h2 : env.EncryptConfigMap cbytes env.Key = .ok enc) :
    encryptContainers env (c :: rest) cm0 =
      encryptContainers env rest (setData (setData cm0 c.Name cbytes) c.Name enc) := by
  simp only [encryptContainers, h1, h2]

theorem encryptContainers_none (env : Env) :
    ∀ (cs : List corev1.Container) (cm0 cm : corev1.ConfigMap),
      encryptContainers env cs cm0 = (cm, none) →
      cm.TypeMeta = cm0.TypeMeta ∧ cm.ObjectMeta = cm0.ObjectMeta ∧
      (∀ c ∈ cs, ∃ enc, cipherOf env c = some enc) ∧
      (∀ n, cm.Data.get? n =
        match lastNamed cs n with
        | some c => cipherOf env c
        | none => cm0.Data.get? n) ∧
      (cm0.Data.keys.Nodup → cm.Data.keys.Nodup) := by
  intro cs
  induction cs with
  | nil =>
    intro cm0 cm h
    simp only [encryptContainers, Prod.mk.injEq, and_true] at h
    subst h
    simp [lastNamed]
  | cons c rest ih =>
    intro cm0 cm h
    cases h1 : extract env c with
    | error e => simp [encryptContainers, h1] at h
    | ok cbytes =>
      cases h2 : env.EncryptConfigMap cbytes env.Key with
      | error e => simp [encryptContainers, h1, h2] at h
      | ok enc =>
        rw [encryptContainers_cons_ok env c rest cm0 cbytes enc h1 h2] at h
        obtain ⟨ht, hm, hall, hget, hnd⟩ := ih _ _ h
        have hc : cipherOf env c = some enc := (cipherOf_eq_some env c enc).mpr ⟨cbytes, h1, h2⟩
        refine ⟨ht, hm, ?_, ?_, ?_⟩
        · intro d hd
          rcases List.mem_cons.mp hd with rfl | hd
          · exact ⟨enc, hc⟩
          · exact hall d hd
        · intro n
          rw [hget n, lastNamed_cons]
          cases hr : lastNamed rest n with
          | some d => rfl
          | none =>
            by_cases hn : c.Name = n
            · subst hn
              simp only [if_true, hc, setData]
              exact GoMap.get?_set_self _ _ _
            · have hn' : n ≠ c.Name := fun e => hn e.symm
              simp only [hn, if_false, setData]
              rw [GoMap.get?_set_ne _ _ _ _ hn', GoMap.get?_set_ne _ _ _ _ hn']
        · intro h0
          apply hnd
          simp only [setData]
          exact GoMap.nodup_keys_set _ _ _ (GoMap.nodup_keys_set _ _ _ h0)

theorem encryptContainers_append (env : Env) :
    ∀ (pre rest : List corev1.Container) (cm0 cm1 : corev1.ConfigMap),
      encryptContainers env pre cm0 = (cm1, none) →
      encryptContainers env (pre ++ rest) cm0 = encryptContainers env rest cm1 := by
  intro pre
  induction pre with
  | nil =>
    intro rest cm0 cm1 h
    simp only [encryptContainers, Prod.mk.injEq, and_true] at h
    subst h
    rfl
  | cons c pre ih =>
    intro rest cm0 cm1 h
    cases h1 : extract env c with
    | error e => simp [encryptContainers, h1] at h
    | ok cbytes =>
      cases h2 : env.EncryptConfigMap cbytes env.Key with
      | error e => simp [encryptContainers, h1, h2] at h
      | ok enc =>
        rw [encryptContainers_cons_ok env c pre cm0 cbytes enc h1 h2] at h
        rw [List.cons_append, encryptContainers_cons_ok env c (pre ++ rest) cm0 cbytes enc h1 h2]
        exact ih rest _ cm1 h

theorem encryptContainers_all (env : Env) :
    ∀ (cs : List corev1.Container) (cm0 : corev1.ConfigMap),
      (∀ c ∈ cs, ∃ enc, cipherOf env c = some enc) →
      ∃ cm, encryptContainers env cs cm0 = (cm, none) := by
  intro cs
  induction cs with
  | nil => intro cm0 _; exact ⟨cm0, rfl⟩
  | cons c rest ih =>
    intro cm0 h
    obtain ⟨enc, hc⟩ := h c (List.mem_cons_self _ _)
    obtain ⟨cbytes, h1, h2⟩ := (cipherOf_eq_some env c enc).mp hc
    rw [encryptContainers_cons_ok env c rest cm0 cbytes enc h1 h2]
    exact ih _ (fun d hd => h d (List.mem_cons_of_mem _ hd))

theorem encryptContainers_fail (env : Env) (c : corev1.Container)
    (post : List corev1.Container) (cm1 : corev1.ConfigMap) (cbytes err : String)
    (h1 : extract env c = .ok cbytes) (h2 : env.EncryptConfigMap cbytes env.Key = .error err) :
    encryptContainers env (c :: post) cm1 = (setData cm1 c.Name cbytes, some err) := by
  simp only [encryptContainers, h1, h2]

theorem setField_cons (k name : String) (w v : reflect.GoValue)
    (rest : List (String × reflect.GoValue)) :
    reflect.setField ((k, w) :: rest) name v =
      (if k = name then (k, v) else (k, w)) :: reflect.setField rest name v := rfl

theorem lookup_setField_self (fields : List (String × reflect.GoValue)) (name : String)
    (v old : reflect.GoValue) (h : fields.lookup name = some old) :
    (reflect.setField fields name v).lookup name = some v := by
  induction fields with
  | nil => simp at h
  | cons kv rest ih =>
    obtain ⟨k, w⟩ := kv
    rw [setField_cons]
    by_cases hk : k = name
    · subst hk
      rw [if_pos rfl]
      simp [List.lookup]
    · have hne : (name == k) = false := by simpa using fun e => hk e.symm
      simp only [List.lookup, hne] at h
      rw [if_neg hk]
      simp only [List.lookup, hne]
      exact ih h

theorem lookup_setField_ne (fields : List (String × reflect.GoValue)) (name other : String)
    (v : reflect.GoValue) (h : other ≠ name) :
    (reflect.setField fields name v).lookup other = fields.lookup other := by
  induction fields with
  | nil => rfl
  | cons kv rest ih =>
    obtain ⟨k, w⟩ := kv
    rw [setField_cons]
    by_cases hk : k = name
    · subst hk
      have hne : (other == k) = false := by simpa using h
      rw [if_pos rfl]
      simp only [List.lookup, hne]
      exact ih
    · rw [if_neg hk]
      simp only [List.lookup]
      cases other == k with
      | true => rfl
      | false => exact ih

theorem workloadAccessor_other_ok (v : reflect.GoValue) (m : metav1.ObjectMeta)
    (ps : corev1.PodSpec) :
    workloadAccessor (.other v) = .returned (.ok (m, ps)) ↔
      ∃ fields specFields templateFields,
        v = .struct fields ∧
        fields.lookup "ObjectMeta" = some (.objectMeta m) ∧
        fields.lookup "Spec" = some (.struct specFields) ∧
        (specFields.lookup "Template" = some (.struct templateFields) ∨
          specFields.lookup "Template" = some (.ptr (some (.struct templateFields)))) ∧
        templateFields.lookup "Spec" = some (.podSpec ps) := by
  constructor
  · intro h
    cases v with
    | struct fields =>
      refine ⟨fields, ?_⟩
      simp only [workloadAccessor, bind, reflect.FieldByName] at h
      cases hm : fields.lookup "ObjectMeta" with
      | none => simp [hm, reflect.asObjectMeta] at h
      | some mv =>
        cases mv with
        | objectMeta m0 =>
          simp only [hm, reflect.asObjectMeta] at h
          cases hs : fields.lookup "Spec" with
          | none => simp [hs] at h
          | some sv =>
            cases sv with
            | struct specFields =>
              simp only [hs] at h
              cases ht : specFields.lookup "Template" with
              | none => simp [ht, reflect.FieldByName] at h
              | some tv =>
                cases tv with
                | struct tf =>
                  simp only [ht, reflect.FieldByName] at h
                  cases hp : tf.lookup "Spec" with
                  | none => simp [hp, reflect.asPodSpec] at h
                  | some pv =>
                    cases pv <;> simp [hp, reflect.asPodSpec, pure] at h
                    obtain ⟨rfl, rfl⟩ := h
                    exact ⟨specFields, tf, rfl, rfl, rfl, Or.inl ht, hp⟩
                | ptr e =>
                  cases e with
                  | none => simp [ht, pure] at h
                  | some ev =>
                    cases ev with
                    | struct tf =>
                      simp only [ht, reflect.FieldByName] at h
                      cases hp : tf.lookup "Spec" with
                      | none => simp [hp, reflect.asPodSpec] at h
                      | some pv =>
                        cases pv <;> simp [hp, reflect.asPodSpec, pure] at h
                        obtain ⟨rfl, rfl⟩ := h
                        exact ⟨specFields, tf, rfl, rfl, rfl, Or.inr ht, hp⟩
                    | _ => simp [ht, reflect.FieldByName, reflect.asPodSpec] at h
                | _ => simp [ht, reflect.FieldByName, reflect.asPodSpec] at h
            | _ => simp [hs, reflect.FieldByName, reflect.asPodSpec] at h
        | _ => simp [hm, reflect.asObjectMeta] at h
    | _ => simp [workloadAccessor, bind, reflect.FieldByName, reflect.asObjectMeta] at h
  · rintro ⟨fields, specFields, tf, rfl, hm, hs, ht, hp⟩
    rcases ht with ht | ht <;>
      simp [workloadAccessor, bind, pure, reflect.FieldByName, reflect.asObjectMeta,
        reflect.asPodSpec, hm, hs, ht, hp]

theorem workloadAccessor_storePodSpec (out : runtime.Object) (m : metav1.ObjectMeta)
    (ps p : corev1.PodSpec) (h : workloadAccessor out = .returned (.ok (m, ps))) :
    workloadAccessor (storePodSpec out p) = .returned (.ok (m, p)) := by
  cases out with
  | cronJob job =>
    simp only [workloadAccessor, Outcome.returned.injEq, Except.ok.injEq, Prod.mk.injEq] at h
    simp only [workloadAccessor, storePodSpec, h.1]
  | pod v =>
    simp only [workloadAccessor, Outcome.returned.injEq, Except.ok.injEq, Prod.mk.injEq] at h
    simp only [workloadAccessor, storePodSpec, h.1]
  | deployment v =>
    simp only [workloadAccessor, Outcome.returned.injEq, Except.ok.injEq, Prod.mk.injEq] at h
    simp only [workloadAccessor, storePodSpec, h.1]
  | other v =>
    obtain ⟨fields, specFields, tf, rfl, hm, hs, ht, hp⟩ :=
      (workloadAccessor_other_ok v m ps).mp h
    have hne : ("ObjectMeta" : String) ≠ "Spec" := by decide
    rcases ht with ht | ht
    · simp only [storePodSpec, hs, ht]
      refine (workloadAccessor_other_ok _ m p).mpr
        ⟨_, reflect.setField specFields "Template"
              (.struct (reflect.setField tf "Spec" (.podSpec p))),
          reflect.setField tf "Spec" (.podSpec p), rfl, ?_, ?_, Or.inl ?_, ?_⟩
      · rw [lookup_setField_ne _ _ _ _ hne]; exact hm
      · exact lookup_setField_self _ _ _ _ hs
      · exact lookup_setField_self _ _ _ _ ht
      · exact lookup_setField_self _ _ _ _ hp
    · simp only [storePodSpec, hs, ht]
      refine (workloadAccessor_other_ok _ m p).mpr
        ⟨_, reflect.setField specFields "Template"
              (.ptr (some (.struct (reflect.setField tf "Spec" (.podSpec p))))),
          reflect.setField tf "Spec" (.podSpec p), rfl, ?_, ?_, Or.inr ?_, ?_⟩
      · rw [lookup_setField_ne _ _ _ _ hne]; exact hm
      · exact lookup_setField_self _ _ _ _ hs
      · exact lookup_setField_self _ _ _ _ ht
      · exact lookup_setField_self _ _ _ _ hp

theorem secureObject_of_accessor (env : Env) (obj : runtime.Object) (m : metav1.ObjectMeta)
    (ps : corev1.PodSpec) (h : workloadAccessor obj = .returned (.ok (m, ps))) :
    secureObject env obj =
      match encryptContainers env ps.Containers
          (newConfigMap (securePrefix ++ "configmap-" ++ m.Name) m.Namespace) with
      | (cm, some err) => .returned (zeroSecureContainer, cm, some err)
      | (cm, none) =>
        .returned
          (newSecureContainer (securePrefix ++ m.Name) env.secureContainerImage
            (storePodSpec obj
              (if env.VaultSecret ≠ "" then
                insertVaultSecret
                  (mountConfigMap (maskSensitiveData env.scratchImage ps) cm) env.VaultSecret
              else mountConfigMap (maskSensitiveData env.scratchImage ps) cm)),
            cm, none) := by
  simp only [secureObject, h]

theorem secureObject_ok (env : Env) (obj : runtime.Object)
    (sc : securecontainersv1alpha1.SecureContainer) (cm : corev1.ConfigMap)
    (h : secureObject env obj = .returned (sc, cm, none)) :
    ∃ m ps, workloadAccessor obj = .returned (.ok (m, ps)) ∧
      encryptContainers env ps.Containers
          (newConfigMap (securePrefix ++ "configmap-" ++ m.Name) m.Namespace) = (cm, none) ∧
      sc = newSecureContainer (securePrefix ++ m.Name) env.secureContainerImage
            (storePodSpec obj
              (if env.VaultSecret ≠ "" then
                insertVaultSecret
                  (mountConfigMap (maskSensitiveData env.scratchImage ps) cm) env.VaultSecret
              else mountConfigMap (maskSensitiveData env.scratchImage ps) cm)) := by
  cases hacc : workloadAccessor obj with
  | panicked msg => simp [secureObject, hacc] at h
  | returned r =>
    cases r with
    | error err => simp [secureObject, hacc] at h
    | ok mp =>
      obtain ⟨m, ps⟩ := mp
      rw [secureObject_of_accessor env obj m ps hacc] at h
      refine ⟨m, ps, rfl, ?_⟩
      cases hloop : encryptContainers env ps.Containers
          (newConfigMap (securePrefix ++ "configmap-" ++ m.Name) m.Namespace) with
      | mk cm1 e =>
        rw [hloop] at h
        cases e with
        | some err => simp at h
        | none =>
          simp only [Outcome.returned.injEq, Prod.mk.injEq, and_true] at h
          obtain ⟨h1, h2⟩ := h
          subst h2
          exact ⟨rfl, h1.symm⟩

theorem ok_bind {α β : Type} (a : α) (f : α → Except Error β) :
    (Except.ok a >>= f) = f a := rfl

theorem field_nil (k : String) : field [] k = Doc.null := rfl

theorem field_cons_self (k : String) (d : Doc) (rest : List (String × Doc)) :
    field ((k, d) :: rest) k = d := by
  simp [field, List.lookup]

theorem field_cons_ne (k k' : String) (d : Doc) (rest : List (String × Doc)) (h : k' ≠ k) :
    field ((k, d) :: rest) k' = field rest k' := by
  have hne : (k' == k) = false := by simpa using h
  simp [field, List.lookup, hne]

theorem field_omitempty_self (k : String) (e : Bool) (d : Doc) (rest : List (String × Doc)) :
    field (omitempty k e d ++ rest) k = if e then field rest k else d := by
  cases e
  · simp [omitempty, field_cons_self]
  · simp [omitempty]

theorem field_omitempty_ne (k k' : String) (e : Bool) (d : Doc) (rest : List (String × Doc))
    (h : k' ≠ k) : field (omitempty k e d ++ rest) k' = field rest k' := by
  cases e
  · simp [omitempty, field_cons_ne _ _ _ _ h]
  · simp [omitempty]

theorem field_omitnil_self (k : String) (o : Option Doc) (rest : List (String × Doc)) :
    field (omitnil k o ++ rest) k = o.getD (field rest k) := by
  cases o
  · simp [omitnil]
  · simp [omitnil, field_cons_self]

theorem field_omitnil_ne (k k' : String) (o : Option Doc) (rest : List (String × Doc))
    (h : k' ≠ k) : field (omitnil k o ++ rest) k' = field rest k' := by
  cases o
  · simp [omitnil]
  · simp [omitnil, field_cons_ne _ _ _ _ h]

theorem decodeString_omitempty (s : String) :
    decodeString (if (s == "") = true then Doc.null else Doc.str s) = .ok s := by
  by_cases h : s = ""
  · subst h; rfl
  · have : (s == "") = false := by simpa using h
    simp [this, decodeString]

theorem decodeInt_omitempty (n : Int) :
    decodeInt (if (n == 0) = true then Doc.null else Doc.num n) = .ok n := by
  by_cases h : n = 0
  · subst h; rfl
  · have : (n == 0) = false := by simpa using h
    simp [this, decodeInt]

theorem decodeBoolPtr_omitnil (o : Option Bool) :
    decodeBoolPtr ((o.map Doc.bool).getD Doc.null) = .ok o := by
  cases o <;> rfl

theorem mapE_map {α β : Type} (f : β → Except Error α) (g : α → β) (xs : List α)
    (h : ∀ x ∈ xs, f (g x) = .ok x) : mapE f (xs.map g) = .ok xs := by
  induction xs with
  | nil => rfl
  | cons x xs ih =>
    have hx := h x (List.mem_cons_self _ _)
    have hxs := ih (fun y hy => h y (List.mem_cons_of_mem _ hy))
    simp only [List.map_cons, mapE, hx, hxs]

theorem decodeSlice_omitempty {α : Type} (f : Doc → Except Error α) (g : α → Doc)
    (xs : List α) (h : ∀ x ∈ xs, f (g x) = .ok x) :
    decodeSlice f (if xs.isEmpty = true then Doc.null else Doc.list (xs.map g)) = .ok xs := by
  cases xs with
  | nil => rfl
  | cons x xs =>
    simp only [List.isEmpty_cons, Bool.false_eq_true, if_false, decodeSlice]
    exact mapE_map f g _ h

theorem decodeStrings_omitempty (xs : List String) :
    decodeSlice decodeString (if xs.isEmpty = true then Doc.null else encodeStrings xs)
      = .ok xs :=
  decodeSlice_omitempty decodeString Doc.str xs (fun _ _ => rfl)

theorem decodeResourceList_omitempty (r : List (String × String)) :
    decodeResourceList (if r.isEmpty = true then Doc.null else encodeResourceList r) =
      .ok (ResourceList.canonical r) := by
  cases r with
  | nil => rfl
  | cons x xs =>
    simp only [List.isEmpty_cons, Bool.false_eq_true, if_false, decodeResourceList,
      encodeResourceList]
    have hmap := mapE_map
      (fun kv : String × Doc => (decodeString kv.2).map fun q => (kv.1, q))
      (fun kv : String × String => (kv.1, Doc.str kv.2))
      (ResourceList.canonical (x :: xs)) (fun _ _ => rfl)
    rw [hmap]
    exact congrArg Except.ok (ResourceList.canonical_idem (x :: xs))

theorem field_omitempty_last_self (k : String) (e : Bool) (d : Doc) :
    field (omitempty k e d) k = if e then Doc.null else d := by
  have h := field_omitempty_self k e d []
  rwa [List.append_nil] at h

theorem field_omitempty_last_ne (k k' : String) (e : Bool) (d : Doc) (h : k' ≠ k) :
    field (omitempty k e d) k' = Doc.null := by
  have h2 := field_omitempty_ne k k' e d [] h
  rwa [List.append_nil] at h2

theorem field_omitnil_last_self (k : String) (o : Option Doc) :
    field (omitnil k o) k = o.getD Doc.null := by
  have h := field_omitnil_self k o []
  rwa [List.append_nil] at h

theorem field_omitnil_last_ne (k k' : String) (o : Option Doc) (h : k' ≠ k) :
    field (omitnil k o) k' = Doc.null := by
  have h2 := field_omitnil_ne k k' o [] h
  rwa [List.append_nil] at h2

theorem decodeString_str (s : String) : decodeString (Doc.str s) = .ok s := rfl

theorem decodeInt_num (n : Int) : decodeInt (Doc.num n) = .ok n := rfl

theorem decodePtr_omitnil {α : Type} (f : Doc → Except Error α) (g : α → Doc) (o : Option α)
    (hnull : ∀ x, g x ≠ Doc.null) (h : ∀ x, f (g x) = .ok x) :
    decodePtr f ((o.map g).getD Doc.null) = .ok o := by
  cases o with
  | none => rfl
  | some x =>
    simp only [Option.map_some', Option.getD_some]
    have hx := h x
    have hn := hnull x
    unfold decodePtr
    split
    · rename_i heq
      exact absurd heq hn
    · rw [hx]; rfl

theorem SecretKeySelector_roundtrip (s : corev1.SecretKeySelector) :
    corev1.SecretKeySelector.fromJSON s.toJSON = .ok s := by
  simp (disch := decide) only [corev1.SecretKeySelector.toJSON, corev1.SecretKeySelector.fromJSON,
    List.append_assoc, List.singleton_append, List.cons_append, List.nil_append, field_omitempty_self, field_omitempty_ne,
    field_cons_self, field_cons_ne, field_omitnil_self, field_omitnil_ne, field_nil,
    field_omitempty_last_self, field_omitempty_last_ne, field_omitnil_last_self,
    field_omitnil_last_ne,
    decodeString_omitempty, decodeBoolPtr_omitnil, ok_bind, decodeString_str]
  rfl

theorem ConfigMapKeySelector_roundtrip (s : corev1.ConfigMapKeySelector) :
    corev1.ConfigMapKeySelector.fromJSON s.toJSON = .ok s := by
  simp (disch := decide) only [corev1.ConfigMapKeySelector.toJSON,
    corev1.ConfigMapKeySelector.fromJSON,
    List.append_assoc, List.singleton_append, List.cons_append, List.nil_append, field_omitempty_self, field_omitempty_ne,
    field_cons_self, field_cons_ne, field_omitnil_self, field_omitnil_ne, field_nil,
    field_omitempty_last_self, field_omitempty_last_ne, field_omitnil_last_self,
    field_omitnil_last_ne,
    decodeString_omitempty, decodeBoolPtr_omitnil, ok_bind, decodeString_str]
  rfl

theorem EnvVarSource_roundtrip (s : corev1.EnvVarSource) :
    corev1.EnvVarSource.fromJSON s.toJSON = .ok s := by
  simp (disch := decide) only [corev1.EnvVarSource.toJSON, corev1.EnvVarSource.fromJSON,
    List.append_assoc, List.singleton_append, List.cons_append, List.nil_append, field_omitempty_self, field_omitempty_ne,
    field_cons_self, field_cons_ne, field_omitnil_self, field_omitnil_ne, field_nil,
    field_omitempty_last_self, field_omitempty_last_ne, field_omitnil_last_self,
    field_omitnil_last_ne, ok_bind]
  rw [decodePtr_omitnil _ _ _ (fun x => by simp [corev1.ConfigMapKeySelector.toJSON])
      ConfigMapKeySelector_roundtrip,
    ok_bind,
    decodePtr_omitnil _ _ _ (fun x => by simp [corev1.SecretKeySelector.toJSON])
      SecretKeySelector_roundtrip]
  rfl

theorem EnvVar_roundtrip (e : corev1.EnvVar) : corev1.EnvVar.fromJSON e.toJSON = .ok e := by
  simp (disch := decide) only [corev1.EnvVar.toJSON, corev1.EnvVar.fromJSON,
    List.append_assoc, List.singleton_append, List.cons_append, List.nil_append, field_omitempty_self, field_omitempty_ne,
    field_cons_self, field_cons_ne, field_omitnil_self, field_omitnil_ne, field_nil,
    field_omitempty_last_self, field_omitempty_last_ne, field_omitnil_last_self,
    field_omitnil_last_ne, decodeString_omitempty, ok_bind, decodeString_str]
  rw [decodePtr_omitnil _ _ _ (fun x => by simp [corev1.EnvVarSource.toJSON])
      EnvVarSource_roundtrip]
  rfl

theorem ContainerPort_roundtrip (p : corev1.ContainerPort) :
    corev1.ContainerPort.fromJSON p.toJSON = .ok p := by
  simp (disch := decide) only [corev1.ContainerPort.toJSON, corev1.ContainerPort.fromJSON,
    List.append_assoc, List.singleton_append, List.cons_append, List.nil_append, field_omitempty_self, field_omitempty_ne,
    field_cons_self, field_cons_ne, field_omitnil_self, field_omitnil_ne, field_nil,
    field_omitempty_last_self, field_omitempty_last_ne, field_omitnil_last_self,
    field_omitnil_last_ne, decodeString_omitempty, decodeInt_omitempty, decodeInt_num, ok_bind,
    decodeString_str]
  rfl

theorem ResourceRequirements_roundtrip (r : corev1.ResourceRequirements) :
    corev1.ResourceRequirements.fromJSON r.toJSON = .ok r.canonical := by
  simp (disch := decide) only [corev1.ResourceRequirements.toJSON,
    corev1.ResourceRequirements.fromJSON,
    List.append_assoc, List.singleton_append, List.cons_append, List.nil_append, field_omitempty_self, field_omitempty_ne,
    field_cons_self, field_cons_ne, field_omitnil_self, field_omitnil_ne, field_nil,
    field_omitempty_last_self, field_omitempty_last_ne, field_omitnil_last_self,
    field_omitnil_last_ne, decodeResourceList_omitempty, ok_bind]
  rfl

/-- Decoding the document of a `corev1.Container` into the struct `Container`
keeps exactly the seven tagged fields. -/
theorem Container_fromJSON_toJSON (c : corev1.Container) :
    app.Container.fromJSON c.toJSON = .ok (extractedContainer c) := by
  simp (disch := decide) only [corev1.Container.toJSON, app.Container.fromJSON,
    List.append_assoc, List.singleton_append, List.cons_append, List.nil_append, field_omitempty_self, field_omitempty_ne,
    field_cons_self, field_cons_ne, field_omitnil_self, field_omitnil_ne, field_nil,
    field_omitempty_last_self, field_omitempty_last_ne, field_omitnil_last_self,
    field_omitnil_last_ne, decodeString_omitempty, decodeStrings_omitempty, ok_bind,
    decodeString_str]
  rw [decodeSlice_omitempty _ _ _ (fun x _ => EnvVar_roundtrip x), ok_bind,
    decodeSlice_omitempty _ _ _ (fun x _ => ContainerPort_roundtrip x), ok_bind]
  have hres : decodePtr corev1.ResourceRequirements.fromJSON c.Resources.toJSON
      = .ok (some c.Resources.canonical) := by
    have hobj : ∃ fs, c.Resources.toJSON = Doc.obj fs := ⟨_, rfl⟩
    obtain ⟨fs, hfs⟩ := hobj
    have hr := ResourceRequirements_roundtrip c.Resources
    rw [hfs] at hr ⊢
    simp only [decodePtr, hr]
    rfl
  rw [hres]
  rfl

theorem keySorted_map_str (l : List (String × String)) (h : KeySorted l) :
    List.Sorted keyLE (l.map fun kv => (kv.1, Doc.str kv.2)) := by
  unfold List.Sorted
  rw [List.pairwise_map]
  exact List.Pairwise.imp (fun {a b} hab => keyLess_asymm _ _ hab) h

theorem sortKeys_encodeResourceList (r : List (String × String)) :
    (encodeResourceList r).sortKeys = encodeResourceList r := by
  have hmap : Doc.sortKeysFields
      ((ResourceList.canonical r).map fun kv => (kv.1, Doc.str kv.2)) =
      (ResourceList.canonical r).map fun kv => (kv.1, Doc.str kv.2) := by
    rw [Doc.sortKeysFields_eq, List.map_map]
    rfl
  simp only [encodeResourceList, Doc.sortKeys, hmap]
  exact congrArg Doc.obj
    (List.Sorted.insertionSort_eq (keySorted_map_str _ (ResourceList.canonical_keySorted r)))

theorem decodeResourceList_sortKeys_omitempty (r : List (String × String)) :
    decodeResourceList
        (if r.isEmpty = true then Doc.null else encodeResourceList r).sortKeys =
      .ok (ResourceList.canonical r) := by
  have h : (if r.isEmpty = true then Doc.null else encodeResourceList r).sortKeys =
      (if r.isEmpty = true then Doc.null else encodeResourceList r) := by
    split
    · rfl
    · exact sortKeys_encodeResourceList r
  rw [h, decodeResourceList_omitempty]

theorem ResourceRequirements_sortKeys_roundtrip (r : corev1.ResourceRequirements) :
    corev1.ResourceRequirements.fromJSON r.toJSON.sortKeys = .ok r.canonical := by
  simp (disch := decide) only [corev1.ResourceRequirements.toJSON, Doc.sortKeys_obj,
    corev1.ResourceRequirements.fromJSON, field_sortKeys,
    List.append_assoc, List.singleton_append, List.cons_append, List.nil_append, field_omitempty_self, field_omitempty_ne,
    field_cons_self, field_cons_ne, field_omitnil_self, field_omitnil_ne, field_nil,
    field_omitempty_last_self, field_omitempty_last_ne, field_omitnil_last_self,
    field_omitnil_last_ne, decodeResourceList_sortKeys_omitempty, ok_bind]
  rfl

/-- Decoding the document of a `corev1.Container`, its keys sorted, into the
struct `Container` keeps exactly the seven tagged fields. -/
theorem Container_fromJSON_sortKeys_toJSON (c : corev1.Container) :
    app.Container.fromJSON c.toJSON.sortKeys = .ok (extractedContainer c) := by
  have hres : decodePtr corev1.ResourceRequirements.fromJSON c.Resources.toJSON.sortKeys
      = .ok (some c.Resources.canonical) := by
    have hr := ResourceRequirements_sortKeys_roundtrip c.Resources
    have hobj : ∃ fs, c.Resources.toJSON.sortKeys = Doc.obj fs := ⟨_, rfl⟩
    obtain ⟨fs, hfs⟩ := hobj
    rw [hfs] at hr ⊢
    simp only [decodePtr, hr]
    rfl
  simp (disch := decide) only [corev1.Container.toJSON, Doc.sortKeys_obj, app.Container.fromJSON,
    field_sortKeys,
    List.append_assoc, List.singleton_append, List.cons_append, List.nil_append, field_omitempty_self, field_omitempty_ne,
    field_cons_self, field_cons_ne, field_omitnil_self, field_omitnil_ne, field_nil,
    field_omitempty_last_self, field_omitempty_last_ne, field_omitnil_last_self,
    field_omitnil_last_ne, decodeString_sortKeys, decodeSlice_sortKeys _ decodeString_sortKeys,
    decodeSlice_sortKeys _ EnvVar_fromJSON_sortKeys,
    decodeSlice_sortKeys _ ContainerPort_fromJSON_sortKeys,
    decodeString_omitempty, decodeStrings_omitempty, ok_bind, decodeString_str]
  rw [decodeSlice_omitempty _ _ _ (fun x _ => EnvVar_roundtrip x), ok_bind,
    decodeSlice_omitempty _ _ _ (fun x _ => ContainerPort_roundtrip x), ok_bind, hres]
  rfl

theorem maskSensitiveData_eq (scratchImage : String) (pod : corev1.PodSpec) :
    maskSensitiveData scratchImage pod =
      { pod with
        Containers := pod.Containers.map fun c =>
          { c with Image := scratchImage, Command := [], Args := [], Env := [] } } := by
  unfold maskSensitiveData
  rw [forEachIndex_eq_map]

theorem insertVaultSecret_eq (pod : corev1.PodSpec) (secretName : String) :
    insertVaultSecret pod secretName =
      { pod with
        Containers := pod.Containers.map fun c =>
          { c with Env := c.Env ++ vaultSecrets secretName } } := by
  unfold insertVaultSecret
  rw [forEachIndex_eq_map]

theorem metadataOf_of_accessor (obj : runtime.Object) (m : metav1.ObjectMeta)
    (ps : corev1.PodSpec) (h : workloadAccessor obj = .returned (.ok (m, ps))) :
    metadataOf obj = some m := by
  cases obj with
  | cronJob job =>
    simp only [workloadAccessor, Outcome.returned.injEq, Except.ok.injEq, Prod.mk.injEq] at h
    simp only [metadataOf, h.1]
  | pod v =>
    simp only [workloadAccessor, Outcome.returned.injEq, Except.ok.injEq, Prod.mk.injEq] at h
    simp only [metadataOf, h.1]
  | deployment v =>
    simp only [workloadAccessor, Outcome.returned.injEq, Except.ok.injEq, Prod.mk.injEq] at h
    simp only [metadataOf, h.1]
  | other v =>
    obtain ⟨fields, specFields, tf, rfl, hm, _, _, _⟩ := (workloadAccessor_other_ok v m ps).mp h
    simp only [metadataOf, hm]

theorem securePrefix_append (n : String) : securePrefix ++ n = "secure-" ++ n := rfl

theorem securePrefix_configmap (n : String) :
    securePrefix ++ "configmap-" ++ n = "secure-configmap-" ++ n := by
  show ("secure-" ++ "configmap-") ++ n = "secure-configmap-" ++ n
  rfl

theorem secureObject_embedded (env : Env) (obj : runtime.Object)
    (sc : securecontainersv1alpha1.SecureContainer) (cm : corev1.ConfigMap)
    (m : metav1.ObjectMeta) (ps : corev1.PodSpec)
    (h : secureObject env obj = .returned (sc, cm, none))
    (hacc : workloadAccessor obj = .returned (.ok (m, ps))) :
    sc.Object.Object = some (storePodSpec obj (scrubbedPodSpec env ps cm)) ∧
    encryptContainers env ps.Containers
      (newConfigMap ("secure-configmap-" ++ m.Name) m.Namespace) = (cm, none) := by
  obtain ⟨m', ps1, hacc', hloop, rfl⟩ := secureObject_ok env obj sc cm h
  rw [hacc] at hacc'
  simp only [Outcome.returned.injEq, Except.ok.injEq, Prod.mk.injEq] at hacc'
  obtain ⟨rfl, rfl⟩ := hacc'
  rw [securePrefix_configmap] at hloop
  refine ⟨?_, hloop⟩
  by_cases hv : env.VaultSecret = ""
  · simp [newSecureContainer, scrubbedPodSpec, hv, mountConfigMap_eq, maskSensitiveData_eq,
      Function.comp_def]
  · simp [newSecureContainer, scrubbedPodSpec, hv, mountConfigMap_eq, maskSensitiveData_eq,
      insertVaultSecret_eq, Function.comp_def]

theorem ResourceRequirements_toJSON_canonical (r : corev1.ResourceRequirements) :
    r.canonical.toJSON = r.toJSON := by
  simp only [corev1.ResourceRequirements.toJSON, corev1.ResourceRequirements.canonical,
    encodeResourceList, ResourceList.canonical_idem, ResourceList.canonical_eq_nil]

theorem ResourceRequirements_canonical_of_keySorted (r : corev1.ResourceRequirements)
    (hl : KeySorted r.Limits) (hr : KeySorted r.Requests) : r.canonical = r := by
  cases r with
  | mk limits requests =>
    simp only [corev1.ResourceRequirements.canonical,
      ResourceList.canonical_of_keySorted limits hl,
      ResourceList.canonical_of_keySorted requests hr]

theorem extractedContainer_toJSON (c : corev1.Container) :
    (extractedContainer c).toJSON = .obj (
      [("name", .str c.Name)]
      ++ omitempty "image" (c.Image == "") (.str c.Image)
      ++ omitempty "command" c.Command.isEmpty (encodeStrings c.Command)
      ++ omitempty "args" c.Args.isEmpty (encodeStrings c.Args)
      ++ omitempty "env" c.Env.isEmpty (.list (c.Env.map corev1.EnvVar.toJSON))
      ++ omitempty "ports" c.Ports.isEmpty (.list (c.Ports.map corev1.ContainerPort.toJSON))
      ++ [("resources", c.Resources.toJSON)]) := by
  simp only [extractedContainer, app.Container.toJSON, Option.map_some', omitnil,
    ResourceRequirements_toJSON_canonical]

/-! ## The claims -/

/-- C1: when `secureObject` succeeds on a workload, the workload has a pod spec
`ps`, and the wrapper embeds the workload with its pod spec replaced by one
whose containers are those of `ps`, one for one in the same order under the
same names, each with the scratch image, an empty command, empty args, and an
env list that is empty when no Vault secret is configured and is exactly the
four Vault variables when one is. -/
theorem C1_embedded_containers_masked (env : Env) (obj : runtime.Object)
    (sc : securecontainersv1alpha1.SecureContainer) (cm : corev1.ConfigMap)
    (h : secureObject env obj = .returned (sc, cm, none)) :
    ∃ m ps out ps', workloadAccessor obj = .returned (.ok (m, ps)) ∧
      sc.Object.Object = some out ∧ out = storePodSpec obj ps' ∧
      workloadAccessor out = .returned (.ok (m, ps')) ∧
      ((vaultSecrets env.VaultSecret).map fun e => e.Name) =
        ["SC_VAULT_ADDR", "SC_VAULT_TOKEN", "SC_VAULT_SECRET", "SC_VAULT_SYMM_KEY"] ∧
      ps'.Containers.length = ps.Containers.length ∧
      List.Forall₂
        (fun c c' => c'.Name = c.Name ∧ c'.Image = env.scratchImage ∧ c'.Command = [] ∧
          c'.Args = [] ∧
          c'.Env = if env.VaultSecret = "" then [] else vaultSecrets env.VaultSecret)
        ps.Containers ps'.Containers ∧
      ∀ c ∈ ps'.Containers,
        c.Image = env.scratchImage ∧ c.Command = [] ∧ c.Args = [] ∧
        c.Env = if env.VaultSecret = "" then [] else vaultSecrets env.VaultSecret := by
  obtain ⟨m, ps, hacc, _, _⟩ := secureObject_ok env obj sc cm h
  obtain ⟨hobj, _⟩ := secureObject_embedded env obj sc cm m ps h hacc
  refine ⟨m, ps, _, scrubbedPodSpec env ps cm, hacc, hobj, rfl,
    workloadAccessor_storePodSpec obj m ps _ hacc, rfl, ?_, ?_, ?_⟩
  · simp [scrubbedPodSpec]
  · show List.Forall₂ _ ps.Containers (ps.Containers.map _)
    rw [List.forall₂_map_right_iff, List.forall₂_same]
    intro c _
    exact ⟨rfl, rfl, rfl, rfl, rfl⟩
  · intro c hc
    simp only [scrubbedPodSpec, List.mem_map] at hc
    obtain ⟨c0, _, rfl⟩ := hc
    exact ⟨rfl, rfl, rfl, rfl⟩

set_option maxRecDepth 100000 in
/-- C1 at the deployment `web` with the containers `api` and `sidecar`, once
without and once with a Vault secret. -/
theorem C1_embedded_containers_masked_witness :
    (∃ sc cm,
      secureObject
        (demoEnv "" [demoContainer "api" "myapp:1.0", demoContainer "sidecar" "envoy:1.9"] "")
        (demoDeployment [demoContainer "api" "myapp:1.0", demoContainer "sidecar" "envoy:1.9"])
        = .returned (sc, cm, none) ∧
      ∃ m ps out ps',
        workloadAccessor
          (demoDeployment [demoContainer "api" "myapp:1.0", demoContainer "sidecar" "envoy:1.9"])
          = .returned (.ok (m, ps)) ∧
        sc.Object.Object = some out ∧
        out = storePodSpec
          (demoDeployment [demoContainer "api" "myapp:1.0", demoContainer "sidecar" "envoy:1.9"])
          ps' ∧
        ps'.Containers.length = ps.Containers.length ∧
        List.Forall₂
          (fun c c' => c'.Name = c.Name ∧ c'.Image = "scratch" ∧ c'.Command = [] ∧
            c'.Args = [] ∧ c'.Env = [])
          ps.Containers ps'.Containers) ∧
    (∃ sc cm,
      secureObject (demoEnv "vault-creds" [demoContainer "api" "myapp:1.0"] "")
        (demoDeployment [demoContainer "api" "myapp:1.0"]) = .returned (sc, cm, none) ∧
      ∃ m ps out ps',
        workloadAccessor (demoDeployment [demoContainer "api" "myapp:1.0"])
          = .returned (.ok (m, ps)) ∧
        sc.Object.Object = some out ∧
        out = storePodSpec (demoDeployment [demoContainer "api" "myapp:1.0"]) ps' ∧
        ps'.Containers.length = ps.Containers.length ∧
        List.Forall₂
          (fun c c' => c'.Name = c.Name ∧ c'.Image = "scratch" ∧ c'.Command = [] ∧
            c'.Args = [] ∧ c'.Env = vaultSecrets "vault-creds")
          ps.Containers ps'.Containers) :=
  ⟨⟨_, _, rfl,
      (C1_embedded_containers_masked
        (demoEnv "" [demoContainer "api" "myapp:1.0", demoContainer "sidecar" "envoy:1.9"] "")
        (demoDeployment [demoContainer "api" "myapp:1.0", demoContainer "sidecar" "envoy:1.9"])
        _ _ rfl).imp
        fun _ hm => hm.imp fun _ hps => hps.imp fun _ hout => hout.imp
          fun _ hp => ⟨hp.1, hp.2.1, hp.2.2.1, hp.2.2.2.2.2.1, hp.2.2.2.2.2.2.1⟩⟩,
    ⟨_, _, rfl,
      (C1_embedded_containers_masked
        (demoEnv "vault-creds" [demoContainer "api" "myapp:1.0"] "")
        (demoDeployment [demoContainer "api" "myapp:1.0"]) _ _ rfl).imp
        fun _ hm => hm.imp fun _ hps => hps.imp fun _ hout => hout.imp
          fun _ hp => ⟨hp.1, hp.2.1, hp.2.2.1, hp.2.2.2.2.2.1, hp.2.2.2.2.2.2.1⟩⟩⟩

theorem demoCipher_involutive (text : String) : demoCipher (demoCipher text) = text := by
  simp [demoCipher]

theorem demoEnv_decrypt (vaultSecret : String) (containers : List corev1.Container)
    (failOn text enc : String)
    (h : (demoEnv vaultSecret containers failOn).EncryptConfigMap text
      (demoEnv vaultSecret containers failOn).Key = .ok enc) :
    demoCipher enc = text := by
  simp only [demoEnv] at h
  by_cases hf : text = failOn
  · simp [hf] at h
  · simp only [hf, if_false, Except.ok.injEq] at h
    rw [← h]
    exact demoCipher_involutive text

theorem extract_of_codec (env : Env) (c : corev1.Container)
    (hcodec : ∀ y, env.JSONToYAML c.toJSON = .ok y → env.YAMLToJSON y = .ok c.toJSON.sortKeys)
    (cbytes : String) (h : extract env c = .ok cbytes) :
    ∃ y, env.JSONToYAML c.toJSON = .ok y ∧
      yaml.Unmarshal env y app.Container.fromJSON = .ok (extractedContainer c) ∧
      env.JSONToYAML (extractedDocument c) = .ok cbytes := by
  unfold extract yaml.Marshal yaml.Unmarshal at h
  cases hy : env.JSONToYAML c.toJSON with
  | error e => simp [hy] at h
  | ok y =>
    simp only [hy, hcodec y hy, Container_fromJSON_sortKeys_toJSON] at h
    refine ⟨y, rfl, ?_, h⟩
    simp only [yaml.Unmarshal, hcodec y hy, Container_fromJSON_sortKeys_toJSON]

theorem ghodssEnv_decrypt (vaultSecret text enc : String)
    (h : (ghodssEnv vaultSecret).EncryptConfigMap text (ghodssEnv vaultSecret).Key = .ok enc) :
    demoCipher enc = text := by
  simp only [ghodssEnv, Except.ok.injEq] at h
  rw [← h]
  exact demoCipher_involutive text

/-- C2: when `secureObject` succeeds, the keys of the config map's `Data` are
exactly the container names of the source pod spec, each key once, and the
value under a name is the gateway's output on the extracted bytes of the last
container carrying that name. -/
theorem C2_config_map_entries (env : Env) (obj : runtime.Object)
    (sc : securecontainersv1alpha1.SecureContainer) (cm : corev1.ConfigMap)
    (m : metav1.ObjectMeta) (ps : corev1.PodSpec)
    (h : secureObject env obj = .returned (sc, cm, none))
    (hacc : workloadAccessor obj = .returned (.ok (m, ps))) :
    (∀ n, n ∈ cm.Data.keys ↔ n ∈ ps.Containers.map fun c => c.Name) ∧
    cm.Data.keys.Nodup ∧
    ∀ n c, lastNamed ps.Containers n = some c →
      ∃ cbytes enc, extract env c = .ok cbytes ∧
        env.EncryptConfigMap cbytes env.Key = .ok enc ∧
        cm.Data.get? n = some enc := by
  obtain ⟨m', ps', hacc', hloop, _⟩ := secureObject_ok env obj sc cm h
  rw [hacc] at hacc'
  simp only [Outcome.returned.injEq, Except.ok.injEq, Prod.mk.injEq] at hacc'
  obtain ⟨rfl, rfl⟩ := hacc'
  obtain ⟨_, _, hall, hget, hnd⟩ := encryptContainers_none env _ _ _ hloop
  refine ⟨?_, hnd (by simp [newConfigMap, GoMap.keys]), ?_⟩
  · intro n
    rw [GoMap.mem_keys_iff, hget n, ← lastNamed_isSome_iff]
    cases hl : lastNamed ps.Containers n with
    | none => simp [newConfigMap, GoMap.get?]
    | some c =>
      obtain ⟨enc, henc⟩ := hall c (lastNamed_mem _ _ _ hl).1
      simp [henc]
  · intro n c hl
    obtain ⟨enc, henc⟩ := hall c (lastNamed_mem _ _ _ hl).1
    obtain ⟨cbytes, h1, h2⟩ := (cipherOf_eq_some env c enc).mp henc
    refine ⟨cbytes, enc, h1, h2, ?_⟩
    rw [hget n, hl]
    exact henc

set_option maxRecDepth 100000 in
/-- C2 at a deployment with two containers named `app`: one entry, holding the
second container's ciphertext. -/
theorem C2_config_map_entries_witness :
    ∃ sc cm,
      secureObject
        (demoEnv "" [demoContainer "app" "first:1.0", demoContainer "app" "second:2.0"] "")
        (demoDeployment [demoContainer "app" "first:1.0", demoContainer "app" "second:2.0"])
        = .returned (sc, cm, none) ∧
      cm.Data.keys = ["app"] ∧
      lastNamed [demoContainer "app" "first:1.0", demoContainer "app" "second:2.0"] "app"
        = some (demoContainer "app" "second:2.0") ∧
      ((∀ n, n ∈ cm.Data.keys ↔
          n ∈ [demoContainer "app" "first:1.0", demoContainer "app" "second:2.0"].map
            fun c => c.Name) ∧
        cm.Data.keys.Nodup ∧
        ∀ n c,
          lastNamed [demoContainer "app" "first:1.0", demoContainer "app" "second:2.0"] n
            = some c →
          ∃ cbytes enc,
            extract
              (demoEnv "" [demoContainer "app" "first:1.0", demoContainer "app" "second:2.0"] "")
              c = .ok cbytes ∧
            (demoEnv "" [demoContainer "app" "first:1.0", demoContainer "app" "second:2.0"]
              "").EncryptConfigMap cbytes
              (demoEnv "" [demoContainer "app" "first:1.0", demoContainer "app" "second:2.0"]
                "").Key = .ok enc ∧
            cm.Data.get? n = some enc) :=
  ⟨_, _, rfl, by decide, by decide,
    C2_config_map_entries
      (demoEnv "" [demoContainer "app" "first:1.0", demoContainer "app" "second:2.0"] "")
      (demoDeployment [demoContainer "app" "first:1.0", demoContainer "app" "second:2.0"])
      _ _ _ _ rfl rfl⟩

set_option maxRecDepth 100000 in
/-- C3 as stated fails, in two ways, each with a cipher that the decrypt
function inverts and a successful `secureObject`. With two containers named
`app`, decrypting the entry under the first container's name gives the second
container's document, not the first's. With a single container `api` whose
argument and environment value are `up`, U+0085, `now`, under a YAML library
that folds a line break inside a string to a space, decrypting the entry
under its name gives a document whose container has the argument `up now`
and an environment value that differ from the container's. -/
theorem C3_counterexample :
    (∃ sc cm cbytes,
      (∀ text enc,
        (demoEnv "" [demoContainer "app" "first:1.0", demoContainer "app" "second:2.0"]
          "").EncryptConfigMap text
          (demoEnv "" [demoContainer "app" "first:1.0", demoContainer "app" "second:2.0"]
            "").Key = .ok enc → demoCipher enc = text) ∧
      secureObject
        (demoEnv "" [demoContainer "app" "first:1.0", demoContainer "app" "second:2.0"] "")
        (demoDeployment [demoContainer "app" "first:1.0", demoContainer "app" "second:2.0"])
        = .returned (sc, cm, none) ∧
      demoContainer "app" "first:1.0" ∈
        [demoContainer "app" "first:1.0", demoContainer "app" "second:2.0"] ∧
      extract
        (demoEnv "" [demoContainer "app" "first:1.0", demoContainer "app" "second:2.0"] "")
        (demoContainer "app" "first:1.0") = .ok cbytes ∧
      (demoEnv "" [demoContainer "app" "first:1.0", demoContainer "app" "second:2.0"]
        "").JSONToYAML (extractedDocument (demoContainer "app" "first:1.0")) = .ok cbytes ∧
      (cm.Data.get? (demoContainer "app" "first:1.0").Name).map demoCipher ≠ some cbytes) ∧
    (∃ sc cm cbytes, ∃ cSpec : app.Container,
      (∀ text enc,
        (ghodssEnv "").EncryptConfigMap text (ghodssEnv "").Key = .ok enc →
          demoCipher enc = text) ∧
      secureObject (ghodssEnv "") (demoDeployment [demoBanner "api"])
        = .returned (sc, cm, none) ∧
      lastNamed [demoBanner "api"] "api" = some (demoBanner "api") ∧
      (cm.Data.get? (demoBanner "api").Name).map demoCipher = some cbytes ∧
      (ghodssEnv "").YAMLToJSON cbytes =
        .ok (Doc.sortKeys (.obj [("spec", .obj [("containers", .list [cSpec.toJSON])])])) ∧
      cSpec.Name = "api" ∧
      (demoBanner "api").Args = [String.mk ['u', 'p', nextLine, 'n', 'o', 'w']] ∧
      cSpec.Args = ["up now"] ∧
      cSpec.Args ≠ (demoBanner "api").Args ∧
      cSpec.Env = [{ Name := "BANNER", Value := "up now", ValueFrom := none }] ∧
      cSpec.Env ≠ (demoBanner "api").Env) :=
  ⟨⟨_, _, _, demoEnv_decrypt _ _ _, rfl, by decide, rfl, rfl, by decide⟩,
    ⟨_, _, _,
      { Name := "api", Image := "myapp:1.0", Command := ["/bin/app"], Args := ["up now"],
        Env := [{ Name := "BANNER", Value := "up now", ValueFrom := none }], Ports := [],
        Resources := some { Limits := [("cpu", "1"), ("memory", "1Gi")], Requests := [] } },
      ghodssEnv_decrypt "", rfl, by decide, rfl, rfl, rfl, rfl, rfl, by decide, rfl,
      by decide⟩⟩

/-- C3, amended: with a decrypt function that inverts the gateway, for every
container that is the last one carrying its name, decrypting the entry stored
under its name yields the bytes the extraction step produced for it; and when
the YAML library reads back the text it wrote for the container's document as
that document, its keys sorted, those bytes are the text of the document
`spec: containers: [c']`, where `c'` has the container's name, image, command,
args, env, ports and resources (the resource maps, which have no order, in key
order). -/
theorem C3_decrypt_round_trip (env : Env) (decrypt : String → String)
    (obj : runtime.Object) (sc : securecontainersv1alpha1.SecureContainer)
    (cm : corev1.ConfigMap) (m : metav1.ObjectMeta) (ps : corev1.PodSpec)
    (c : corev1.Container)
    (hdec : ∀ text enc, env.EncryptConfigMap text env.Key = .ok enc → decrypt enc = text)
    (h : secureObject env obj = .returned (sc, cm, none))
    (hacc : workloadAccessor obj = .returned (.ok (m, ps)))
    (hlast : lastNamed ps.Containers c.Name = some c) :
    ∃ cbytes, (cm.Data.get? c.Name).map decrypt = some cbytes ∧
      extract env c = .ok cbytes ∧
      ((∀ y, env.JSONToYAML c.toJSON = .ok y → env.YAMLToJSON y = .ok c.toJSON.sortKeys) →
        ∃ cSpec : app.Container,
          env.JSONToYAML (.obj [("spec", .obj [("containers", .list [cSpec.toJSON])])])
            = .ok cbytes ∧
          cSpec.Name = c.Name ∧ cSpec.Image = c.Image ∧ cSpec.Command = c.Command ∧
          cSpec.Args = c.Args ∧ cSpec.Env = c.Env ∧ cSpec.Ports = c.Ports ∧
          cSpec.Resources = some c.Resources.canonical ∧
          (KeySorted c.Resources.Limits → KeySorted c.Resources.Requests →
            cSpec.Resources = some c.Resources) ∧
          cSpec.toJSON = .obj (
            [("name", .str c.Name)]
            ++ omitempty "image" (c.Image == "") (.str c.Image)
            ++ omitempty "command" c.Command.isEmpty (encodeStrings c.Command)
            ++ omitempty "args" c.Args.isEmpty (encodeStrings c.Args)
            ++ omitempty "env" c.Env.isEmpty (.list (c.Env.map corev1.EnvVar.toJSON))
            ++ omitempty "ports" c.Ports.isEmpty
                (.list (c.Ports.map corev1.ContainerPort.toJSON))
            ++ [("resources", c.Resources.toJSON)])) := by
  obtain ⟨m', ps', hacc', hloop, _⟩ := secureObject_ok env obj sc cm h
  rw [hacc] at hacc'
  simp only [Outcome.returned.injEq, Except.ok.injEq, Prod.mk.injEq] at hacc'
  obtain ⟨rfl, rfl⟩ := hacc'
  obtain ⟨_, _, hall, hget, _⟩ := encryptContainers_none env _ _ _ hloop
  obtain ⟨enc, henc⟩ := hall c (lastNamed_mem _ _ _ hlast).1
  obtain ⟨cbytes, h1, h2⟩ := (cipherOf_eq_some env c enc).mp henc
  refine ⟨cbytes, ?_, h1, ?_⟩
  · rw [hget c.Name, hlast]
    show Option.map decrypt (cipherOf env c) = some cbytes
    rw [henc, Option.map_some', hdec cbytes enc h2]
  · intro hcodec
    obtain ⟨_, _, _, hdoc⟩ := extract_of_codec env c hcodec cbytes h1
    refine ⟨extractedContainer c, hdoc, rfl, rfl, rfl, rfl, rfl, rfl, rfl, ?_,
      extractedContainer_toJSON c⟩
    intro hl hr
    show some c.Resources.canonical = some c.Resources
    rw [ResourceRequirements_canonical_of_keySorted c.Resources hl hr]

set_option maxRecDepth 100000 in
/-- C3, amended, at a deployment with the containers `api` and `sidecar`, under
a YAML library that sorts keys. -/
theorem C3_decrypt_round_trip_witness :
    ∃ sc cm,
      secureObject (ghodssEnv "")
        (demoDeployment [demoContainer "api" "myapp:1.0", demoContainer "sidecar" "envoy:1.9"])
        = .returned (sc, cm, none) ∧
      lastNamed [demoContainer "api" "myapp:1.0", demoContainer "sidecar" "envoy:1.9"] "api"
        = some (demoContainer "api" "myapp:1.0") ∧
      ∃ cbytes, (cm.Data.get? "api").map demoCipher = some cbytes ∧
        extract (ghodssEnv "") (demoContainer "api" "myapp:1.0") = .ok cbytes ∧
        ∃ cSpec : app.Container,
          (ghodssEnv "").JSONToYAML
            (.obj [("spec", .obj [("containers", .list [cSpec.toJSON])])]) = .ok cbytes ∧
          cSpec.Name = "api" ∧ cSpec.Image = "myapp:1.0" ∧ cSpec.Command = ["/bin/app"] ∧
          cSpec.Args = ["--serve"] ∧
          cSpec.Env = [{ Name := "DB_PASSWORD", Value := "hunter2", ValueFrom := none }] ∧
          cSpec.Ports = [{ Name := "http", HostPort := 0, ContainerPort := 8080,
                           Protocol := "TCP", HostIP := "" }] ∧
          cSpec.Resources = some { Limits := [("cpu", "1")], Requests := [] } :=
  ⟨_, _, rfl, by decide,
    (C3_decrypt_round_trip (ghodssEnv "") demoCipher
      (demoDeployment [demoContainer "api" "myapp:1.0", demoContainer "sidecar" "envoy:1.9"])
      _ _ _ _ (demoContainer "api" "myapp:1.0")
      (ghodssEnv_decrypt "") rfl rfl (by decide)).imp
      fun _ hc => ⟨hc.1, hc.2.1,
        (hc.2.2 (fun y hy => by
          have hy2 : (Doc.sortKeys (Doc.foldBreaks
              (demoContainer "api" "myapp:1.0").toJSON)).render = y := by
            simpa [ghodssEnv] using hy
          subst hy2
          rfl)).imp
          fun _ hs => ⟨hs.1, hs.2.1, hs.2.2.1, hs.2.2.2.1, hs.2.2.2.2.1, hs.2.2.2.2.2.1,
            hs.2.2.2.2.2.2.1, hs.2.2.2.2.2.2.2.1⟩⟩⟩

/-- C4: when `secureObject` succeeds on a workload of any kind whose metadata
block has name `N` and namespace `NS`, the wrapper is named `secure-N`, the
config map is named `secure-configmap-N`, and the config map's namespace is
`NS`. -/
theorem C4_wrapper_and_config_names (env : Env) (obj : runtime.Object)
    (sc : securecontainersv1alpha1.SecureContainer) (cm : corev1.ConfigMap)
    (h : secureObject env obj = .returned (sc, cm, none)) :
    ∃ m, metadataOf obj = some m ∧
      sc.ObjectMeta.Name = "secure-" ++ m.Name ∧
      cm.ObjectMeta.Name = "secure-configmap-" ++ m.Name ∧
      cm.ObjectMeta.Namespace = m.Namespace := by
  obtain ⟨m, ps, hacc, hloop, rfl⟩ := secureObject_ok env obj sc cm h
  obtain ⟨_, hmeta, _⟩ := encryptContainers_none env _ _ _ hloop
  refine ⟨m, metadataOf_of_accessor obj m ps hacc, ?_, ?_, ?_⟩
  · exact securePrefix_append m.Name
  · rw [hmeta]
    exact securePrefix_configmap m.Name
  · rw [hmeta]
    rfl

set_option maxRecDepth 100000 in
/-- C4 at the deployment `web` in namespace `default` and at a daemon set, a
kind without an explicit case. -/
theorem C4_wrapper_and_config_names_witness :
    (∃ sc cm,
      secureObject (demoEnv "" [demoContainer "api" "myapp:1.0"] "")
        (demoDeployment [demoContainer "api" "myapp:1.0"]) = .returned (sc, cm, none) ∧
      sc.ObjectMeta.Name = "secure-web" ∧ cm.ObjectMeta.Name = "secure-configmap-web" ∧
      cm.ObjectMeta.Namespace = "default" ∧
      ∃ m, metadataOf (demoDeployment [demoContainer "api" "myapp:1.0"]) = some m ∧
        sc.ObjectMeta.Name = "secure-" ++ m.Name ∧
        cm.ObjectMeta.Name = "secure-configmap-" ++ m.Name ∧
        cm.ObjectMeta.Namespace = m.Namespace) ∧
    (∃ sc cm,
      secureObject (demoEnv "" [demoContainer "api" "myapp:1.0"] "")
        (demoDaemonSet [demoContainer "api" "myapp:1.0"]) = .returned (sc, cm, none) ∧
      sc.ObjectMeta.Name = "secure-agent" ∧ cm.ObjectMeta.Name = "secure-configmap-agent" ∧
      cm.ObjectMeta.Namespace = "kube-system" ∧
      ∃ m, metadataOf (demoDaemonSet [demoContainer "api" "myapp:1.0"]) = some m ∧
        sc.ObjectMeta.Name = "secure-" ++ m.Name ∧
        cm.ObjectMeta.Name = "secure-configmap-" ++ m.Name ∧
        cm.ObjectMeta.Namespace = m.Namespace) :=
  ⟨⟨_, _, rfl, by decide, by decide, by decide,
      C4_wrapper_and_config_names (demoEnv "" [demoContainer "api" "myapp:1.0"] "")
        (demoDeployment [demoContainer "api" "myapp:1.0"]) _ _ rfl⟩,
    ⟨_, _, rfl, by decide, by decide, by decide,
      C4_wrapper_and_config_names (demoEnv "" [demoContainer "api" "myapp:1.0"] "")
        (demoDaemonSet [demoContainer "api" "myapp:1.0"]) _ _ rfl⟩⟩

/-- C5: `mountConfigMap` (i) gives every container its previous mounts followed
by exactly one mount named `secure-volume-<name>`, read-only, at `/etc/raksh`,
and (ii) gives the pod its previous volumes followed by one volume per
container, in container order, named `secure-volume-<name>`, sourced from the
config map named `cm.Name`, with the single item `<name>` to
`raksh.properties`; nothing else of the pod spec changes. -/
theorem C5_mountConfigMap (pod : corev1.PodSpec) (cm : corev1.ConfigMap) :
    (mountConfigMap pod cm).Containers =
      (pod.Containers.map fun c =>
        { c with VolumeMounts := c.VolumeMounts ++
            [{ Name := "secure-volume-" ++ c.Name, ReadOnly := true,
               MountPath := "/etc/raksh", SubPath := "" }] }) ∧
    (mountConfigMap pod cm).Volumes =
      pod.Volumes ++ (pod.Containers.map fun c =>
        { Name := "secure-volume-" ++ c.Name
          VolumeSource :=
            { HostPath := none
              ConfigMap := some
                { Name := cm.ObjectMeta.Name
                  Items := [{ Key := c.Name, Path := "raksh.properties", Mode := none }]
                  DefaultMode := none
                  Optional := none } } }) ∧
    (mountConfigMap pod cm).Containers.length = pod.Containers.length ∧
    (mountConfigMap pod cm).Volumes.length = pod.Volumes.length + pod.Containers.length ∧
    (mountConfigMap pod cm).InitContainers = pod.InitContainers ∧
    (mountConfigMap pod cm).RestartPolicy = pod.RestartPolicy ∧
    (mountConfigMap pod cm).ServiceAccountName = pod.ServiceAccountName := by
  rw [mountConfigMap_eq]
  simp

/-- C6: for a resource of a kind without an explicit case that has a metadata
block and whose `Spec.Template` is a pointer: when the pointer is nil,
`secureObject` returns the error `spec.template is required value` with the
zero wrapper (no embedded object) and the zero config map (no entries); when it
points to a template holding a pod spec, the accessor returns that pod spec,
and `secureObject` returns, without panic, what the container loop over that
pod spec's containers yields. -/
theorem C6_template_pointer (env : Env) (fields specFields : List (String × reflect.GoValue))
    (m : metav1.ObjectMeta)
    (hm : fields.lookup "ObjectMeta" = some (.objectMeta m))
    (hs : fields.lookup "Spec" = some (.struct specFields)) :
    (specFields.lookup "Template" = some (.ptr none) →
      secureObject env (.other (.struct fields)) =
        .returned (zeroSecureContainer, zeroConfigMap, some "spec.template is required value") ∧
      zeroSecureContainer.Object.Object = none ∧ zeroConfigMap.Data = []) ∧
    (∀ templateFields ps,
      specFields.lookup "Template" = some (.ptr (some (.struct templateFields))) →
      templateFields.lookup "Spec" = some (.podSpec ps) →
      workloadAccessor (.other (.struct fields)) = .returned (.ok (m, ps)) ∧
      ∃ sc cm err, secureObject env (.other (.struct fields)) = .returned (sc, cm, err) ∧
        (cm, err) = encryptContainers env ps.Containers
          (newConfigMap ("secure-configmap-" ++ m.Name) m.Namespace) ∧
        (err = none → ∃ out ps', sc.Object.Object = some out ∧
          workloadAccessor out = .returned (.ok (m, ps')) ∧
          ps'.Containers.length = ps.Containers.length)) := by
  constructor
  · intro ht
    refine ⟨?_, rfl, rfl⟩
    simp [secureObject, workloadAccessor, bind, pure, reflect.FieldByName, reflect.asObjectMeta,
      hm, hs, ht]
  · intro tf ps ht hp
    have hacc : workloadAccessor (.other (.struct fields)) = .returned (.ok (m, ps)) :=
      (workloadAccessor_other_ok _ m ps).mpr ⟨fields, specFields, tf, rfl, hm, hs, Or.inr ht, hp⟩
    refine ⟨hacc, ?_⟩
    rw [secureObject_of_accessor env _ m ps hacc, securePrefix_configmap]
    cases hloop : encryptContainers env ps.Containers
        (newConfigMap ("secure-configmap-" ++ m.Name) m.Namespace) with
    | mk cm e =>
      cases e with
      | some err => exact ⟨_, cm, some err, rfl, rfl, fun hc => by cases hc⟩
      | none =>
        refine ⟨_, cm, none, rfl, rfl, fun _ => ⟨_, _, rfl,
          workloadAccessor_storePodSpec _ m ps _ hacc, ?_⟩⟩
        by_cases hv : env.VaultSecret = "" <;>
          simp [hv, mountConfigMap_eq, maskSensitiveData_eq, insertVaultSecret_eq]

set_option maxRecDepth 100000 in
/-- C6 at a ReplicationController, once with a nil template and once with a
template holding the container `api`. -/
theorem C6_template_pointer_witness :
    (secureObject (demoEnv "" [demoContainer "api" "myapp:1.0"] "")
        (demoReplicationController none) =
      .returned (zeroSecureContainer, zeroConfigMap, some "spec.template is required value") ∧
      zeroSecureContainer.Object.Object = none ∧ zeroConfigMap.Data = []) ∧
    (workloadAccessor
        (demoReplicationController (some (demoTemplate [demoContainer "api" "myapp:1.0"]))) =
      .returned (.ok ({ Name := "rc", Namespace := "prod", Labels := [] },
        demoPodSpec [demoContainer "api" "myapp:1.0"])) ∧
      ∃ sc cm err,
        secureObject (demoEnv "" [demoContainer "api" "myapp:1.0"] "")
          (demoReplicationController (some (demoTemplate [demoContainer "api" "myapp:1.0"])))
          = .returned (sc, cm, err) ∧
        (cm, err) = encryptContainers (demoEnv "" [demoContainer "api" "myapp:1.0"] "")
          (demoPodSpec [demoContainer "api" "myapp:1.0"]).Containers
          (newConfigMap ("secure-configmap-" ++ "rc") "prod") ∧
        (err = none → ∃ out ps', sc.Object.Object = some out ∧
          workloadAccessor out =
            .returned (.ok ({ Name := "rc", Namespace := "prod", Labels := [] }, ps')) ∧
          ps'.Containers.length =
            (demoPodSpec [demoContainer "api" "myapp:1.0"]).Containers.length)) :=
  ⟨(C6_template_pointer (demoEnv "" [demoContainer "api" "myapp:1.0"] "")
      (demoRCFields none) (demoRCSpecFields none)
      { Name := "rc", Namespace := "prod", Labels := [] } rfl rfl).1 rfl,
    (C6_template_pointer (demoEnv "" [demoContainer "api" "myapp:1.0"] "")
      (demoRCFields (some (demoTemplate [demoContainer "api" "myapp:1.0"])))
      (demoRCSpecFields (some (demoTemplate [demoContainer "api" "myapp:1.0"])))
      { Name := "rc", Namespace := "prod", Labels := [] } rfl rfl).2
      (demoTemplateFields [demoContainer "api" "myapp:1.0"])
      (demoPodSpec [demoContainer "api" "myapp:1.0"]) rfl rfl⟩

/-- C7, the code at inputs of kinds without an explicit case that lack a field
the accessor looks up: a Service (no `Template` under `Spec`), a ConfigMap (no
`Spec`), a PodList (no `ObjectMeta`) and a resource whose template has no
`Spec`. In each case `secureObject` panics inside `reflect`; it returns neither
an error nor a result. -/
theorem C7_missing_field_panics (env : Env) :
    secureObject env demoService =
      .panicked "reflect: call of reflect.Value.FieldByName on zero Value" ∧
    secureObject env demoConfigMapObject =
      .panicked "reflect: call of reflect.Value.FieldByName on zero Value" ∧
    secureObject env demoPodList = .panicked "reflect.Value.Addr of unaddressable value" ∧
    secureObject env demoWorkflow = .panicked "reflect.Value.Addr of unaddressable value" :=
  ⟨rfl, rfl, rfl, rfl⟩

/-- C8: the accessor reads the pod spec at the path of the kind (CronJob:
`Spec.JobTemplate.Spec.Template.Spec`; Pod: `Spec`; Deployment:
`Spec.Template.Spec`; any other kind: `Spec.Template.Spec`, the template a
struct or a non-nil pointer), and when `secureObject` succeeds the embedded
object is the input with the pod spec at that path replaced by one whose
containers have the same names in the same order, hence the same number. -/
theorem C8_pod_spec_path_and_container_order (env : Env) (obj : runtime.Object)
    (sc : securecontainersv1alpha1.SecureContainer) (cm : corev1.ConfigMap)
    (m : metav1.ObjectMeta) (ps : corev1.PodSpec)
    (h : secureObject env obj = .returned (sc, cm, none))
    (hacc : workloadAccessor obj = .returned (.ok (m, ps))) :
    (∀ job, workloadAccessor (.cronJob job) =
      .returned (.ok (job.ObjectMeta, job.Spec.JobTemplate.Spec.Template.Spec))) ∧
    (∀ pod, workloadAccessor (.pod pod) = .returned (.ok (pod.ObjectMeta, pod.Spec))) ∧
    (∀ deploy, workloadAccessor (.deployment deploy) =
      .returned (.ok (deploy.ObjectMeta, deploy.Spec.Template.Spec))) ∧
    (∀ fields specFields templateFields m0 ps0,
      fields.lookup "ObjectMeta" = some (.objectMeta m0) →
      fields.lookup "Spec" = some (.struct specFields) →
      (specFields.lookup "Template" = some (.struct templateFields) ∨
        specFields.lookup "Template" = some (.ptr (some (.struct templateFields)))) →
      templateFields.lookup "Spec" = some (.podSpec ps0) →
      workloadAccessor (.other (.struct fields)) = .returned (.ok (m0, ps0))) ∧
    ∃ out ps', sc.Object.Object = some out ∧ out = storePodSpec obj ps' ∧
      workloadAccessor out = .returned (.ok (m, ps')) ∧
      (ps'.Containers.map fun c => c.Name) = (ps.Containers.map fun c => c.Name) ∧
      ps'.Containers.length = ps.Containers.length := by
  refine ⟨fun _ => rfl, fun _ => rfl, fun _ => rfl, ?_, ?_⟩
  · intro fields specFields tf m0 ps0 hm hs ht hp
    exact (workloadAccessor_other_ok _ m0 ps0).mpr ⟨fields, specFields, tf, rfl, hm, hs, ht, hp⟩
  · obtain ⟨m', ps1, hacc', _, rfl⟩ := secureObject_ok env obj sc cm h
    rw [hacc] at hacc'
    simp only [Outcome.returned.injEq, Except.ok.injEq, Prod.mk.injEq] at hacc'
    obtain ⟨rfl, rfl⟩ := hacc'
    refine ⟨_, _, rfl, rfl, workloadAccessor_storePodSpec obj m ps _ hacc, ?_, ?_⟩ <;>
      by_cases hv : env.VaultSecret = "" <;>
      simp [hv, mountConfigMap_eq, maskSensitiveData_eq, insertVaultSecret_eq, Function.comp]

set_option maxRecDepth 100000 in
/-- C8 at a cron job with the containers `api` and `sidecar`. -/
theorem C8_pod_spec_path_and_container_order_witness :
    ∃ sc cm,
      secureObject
        (demoEnv "" [demoContainer "api" "myapp:1.0", demoContainer "sidecar" "envoy:1.9"] "")
        (demoCronJob [demoContainer "api" "myapp:1.0", demoContainer "sidecar" "envoy:1.9"])
        = .returned (sc, cm, none) ∧
      ∃ out ps', sc.Object.Object = some out ∧
        out = storePodSpec
          (demoCronJob [demoContainer "api" "myapp:1.0", demoContainer "sidecar" "envoy:1.9"])
          ps' ∧
        workloadAccessor out =
          .returned (.ok ({ Name := "nightly", Namespace := "batch", Labels := [] }, ps')) ∧
        (ps'.Containers.map fun c => c.Name) = ["api", "sidecar"] ∧
        ps'.Containers.length = 2 :=
  ⟨_, _, rfl,
    (C8_pod_spec_path_and_container_order
      (demoEnv "" [demoContainer "api" "myapp:1.0", demoContainer "sidecar" "envoy:1.9"] "")
      (demoCronJob [demoContainer "api" "myapp:1.0", demoContainer "sidecar" "envoy:1.9"])
      _ _ { Name := "nightly", Namespace := "batch", Labels := [] }
      (demoPodSpec [demoContainer "api" "myapp:1.0", demoContainer "sidecar" "envoy:1.9"])
      rfl rfl).2.2.2.2⟩

/-- C9: for a workload the accessor accepts, (i) if the gateway fails on a
container whose predecessors were all extracted and encrypted, `secureObject`
returns the gateway's error unchanged together with the zero wrapper, which
embeds no object, and the config map is the one the loop yields on the
containers up to the failing one alone, so that no later container is reached;
(ii) if extraction and the gateway succeed for every container, `secureObject`
succeeds. -/
theorem C9_gateway_failure_propagates (env : Env) (obj : runtime.Object)
    (m : metav1.ObjectMeta) (ps : corev1.PodSpec)
    (hacc : workloadAccessor obj = .returned (.ok (m, ps))) :
    (∀ pre c post cbytes err,
      ps.Containers = pre ++ c :: post →
      (∀ d ∈ pre, ∃ b enc, extract env d = .ok b ∧ env.EncryptConfigMap b env.Key = .ok enc) →
      extract env c = .ok cbytes →
      env.EncryptConfigMap cbytes env.Key = .error err →
      ∃ cm, secureObject env obj = .returned (zeroSecureContainer, cm, some err) ∧
        zeroSecureContainer.Object.Object = none ∧
        encryptContainers env (pre ++ [c])
          (newConfigMap ("secure-configmap-" ++ m.Name) m.Namespace) = (cm, some err)) ∧
    ((∀ d ∈ ps.Containers,
        ∃ b enc, extract env d = .ok b ∧ env.EncryptConfigMap b env.Key = .ok enc) →
      ∃ sc cm, secureObject env obj = .returned (sc, cm, none)) := by
  constructor
  · intro pre c post cbytes err hsplit hpre h1 h2
    have hpre' : ∀ d ∈ pre, ∃ enc, cipherOf env d = some enc := by
      intro d hd
      obtain ⟨b, enc, hb, he⟩ := hpre d hd
      exact ⟨enc, (cipherOf_eq_some env d enc).mpr ⟨b, hb, he⟩⟩
    obtain ⟨cm1, hcm1⟩ := encryptContainers_all env pre
      (newConfigMap ("secure-configmap-" ++ m.Name) m.Namespace) hpre'
    refine ⟨setData cm1 c.Name cbytes, ?_, rfl, ?_⟩
    · rw [secureObject_of_accessor env obj m ps hacc, securePrefix_configmap, hsplit,
        encryptContainers_append env pre (c :: post) _ cm1 hcm1,
        encryptContainers_fail env c post cm1 cbytes err h1 h2]
    · rw [encryptContainers_append env pre [c] _ cm1 hcm1,
        encryptContainers_fail env c [] cm1 cbytes err h1 h2]
  · intro hall
    have hall' : ∀ d ∈ ps.Containers, ∃ enc, cipherOf env d = some enc := by
      intro d hd
      obtain ⟨b, enc, hb, he⟩ := hall d hd
      exact ⟨enc, (cipherOf_eq_some env d enc).mpr ⟨b, hb, he⟩⟩
    obtain ⟨cm, hcm⟩ := encryptContainers_all env ps.Containers
      (newConfigMap ("secure-configmap-" ++ m.Name) m.Namespace) hall'
    rw [secureObject_of_accessor env obj m ps hacc, securePrefix_configmap, hcm]
    exact ⟨_, cm, rfl⟩

set_option maxRecDepth 100000 in
/-- C9 at a deployment with the containers `api`, `sidecar` and `logger`, the
gateway failing on the document of `sidecar`: the error is the gateway's and
the config map has no entry for `logger`. -/
theorem C9_gateway_failure_propagates_witness :
    ∃ cm,
      secureObject
        (demoEnv ""
          [demoContainer "api" "myapp:1.0", demoContainer "sidecar" "envoy:1.9",
            demoContainer "logger" "fluentd:1.3"]
          (extractedDocument (demoContainer "sidecar" "envoy:1.9")).render)
        (demoDeployment
          [demoContainer "api" "myapp:1.0", demoContainer "sidecar" "envoy:1.9",
            demoContainer "logger" "fluentd:1.3"])
        = .returned (zeroSecureContainer, cm, some "crypto: encryption failed") ∧
      zeroSecureContainer.Object.Object = none ∧
      encryptContainers
        (demoEnv ""
          [demoContainer "api" "myapp:1.0", demoContainer "sidecar" "envoy:1.9",
            demoContainer "logger" "fluentd:1.3"]
          (extractedDocument (demoContainer "sidecar" "envoy:1.9")).render)
        ([demoContainer "api" "myapp:1.0"] ++ [demoContainer "sidecar" "envoy:1.9"])
        (newConfigMap ("secure-configmap-" ++ "web") "default")
        = (cm, some "crypto: encryption failed") :=
  (C9_gateway_failure_propagates
    (demoEnv ""
      [demoContainer "api" "myapp:1.0", demoContainer "sidecar" "envoy:1.9",
        demoContainer "logger" "fluentd:1.3"]
      (extractedDocument (demoContainer "sidecar" "envoy:1.9")).render)
    (demoDeployment
      [demoContainer "api" "myapp:1.0", demoContainer "sidecar" "envoy:1.9",
        demoContainer "logger" "fluentd:1.3"])
    { Name := "web", Namespace := "default", Labels := [] }
    (demoPodSpec
      [demoContainer "api" "myapp:1.0", demoContainer "sidecar" "envoy:1.9",
        demoContainer "logger" "fluentd:1.3"])
    rfl).1
    [demoContainer "api" "myapp:1.0"] (demoContainer "sidecar" "envoy:1.9")
    [demoContainer "logger" "fluentd:1.3"]
    (extractedDocument (demoContainer "sidecar" "envoy:1.9")).render
    "crypto: encryption failed" rfl
    (fun d hd => by
      have hd' : d = demoContainer "api" "myapp:1.0" := by simpa using hd
      subst hd'
      exact ⟨_, _, rfl, rfl⟩)
    rfl rfl

/-- C10: when `secureObject` succeeds, the wrapper has kind `SecureContainer`
and apiVersion `securecontainers.k8s.io/v1alpha1`, its image reference names
the configured `secureContainerImage`, and it embeds the input object with its
pod spec replaced by the result of `maskSensitiveData`, then `mountConfigMap`
with the returned config map, then `insertVaultSecret` exactly when a Vault
secret name is configured. -/
theorem C10_wrapper_contents (env : Env) (obj : runtime.Object)
    (sc : securecontainersv1alpha1.SecureContainer) (cm : corev1.ConfigMap)
    (m : metav1.ObjectMeta) (ps : corev1.PodSpec)
    (h : secureObject env obj = .returned (sc, cm, none))
    (hacc : workloadAccessor obj = .returned (.ok (m, ps))) :
    sc.TypeMeta.Kind = "SecureContainer" ∧
    sc.TypeMeta.APIVersion = "securecontainers.k8s.io/v1alpha1" ∧
    sc.Spec.SecureContainerImageRef.Name = env.secureContainerImage ∧
    (env.VaultSecret = "" →
      sc.Object.Object = some (storePodSpec obj
        (mountConfigMap (maskSensitiveData env.scratchImage ps) cm)) ∧
      workloadAccessor (storePodSpec obj
        (mountConfigMap (maskSensitiveData env.scratchImage ps) cm)) =
        .returned (.ok (m, mountConfigMap (maskSensitiveData env.scratchImage ps) cm))) ∧
    (env.VaultSecret ≠ "" →
      sc.Object.Object = some (storePodSpec obj
        (insertVaultSecret (mountConfigMap (maskSensitiveData env.scratchImage ps) cm)
          env.VaultSecret)) ∧
      workloadAccessor (storePodSpec obj
        (insertVaultSecret (mountConfigMap (maskSensitiveData env.scratchImage ps) cm)
          env.VaultSecret)) =
        .returned (.ok (m, insertVaultSecret
          (mountConfigMap (maskSensitiveData env.scratchImage ps) cm) env.VaultSecret))) := by
  obtain ⟨m', ps1, hacc', _, rfl⟩ := secureObject_ok env obj sc cm h
  rw [hacc] at hacc'
  simp only [Outcome.returned.injEq, Except.ok.injEq, Prod.mk.injEq] at hacc'
  obtain ⟨rfl, rfl⟩ := hacc'
  refine ⟨rfl, rfl, rfl, ?_, ?_⟩
  · intro hv
    refine ⟨?_, workloadAccessor_storePodSpec obj m ps _ hacc⟩
    simp [newSecureContainer, hv]
  · intro hv
    refine ⟨?_, workloadAccessor_storePodSpec obj m ps _ hacc⟩
    simp [newSecureContainer, hv]

set_option maxRecDepth 100000 in
/-- C10 at the deployment `web` with the container `api` and the Vault secret
`vault-creds`. -/
theorem C10_wrapper_contents_witness :
    ∃ sc cm,
      secureObject (demoEnv "vault-creds" [demoContainer "api" "myapp:1.0"] "")
        (demoDeployment [demoContainer "api" "myapp:1.0"]) = .returned (sc, cm, none) ∧
      sc.TypeMeta.Kind = "SecureContainer" ∧
      sc.TypeMeta.APIVersion = "securecontainers.k8s.io/v1alpha1" ∧
      sc.Spec.SecureContainerImageRef.Name = "raksh/sc-runtime:latest" ∧
      sc.Object.Object = some (storePodSpec (demoDeployment [demoContainer "api" "myapp:1.0"])
        (insertVaultSecret
          (mountConfigMap (maskSensitiveData "scratch" (demoPodSpec [demoContainer "api" "myapp:1.0"]))
            cm)
          "vault-creds")) :=
  ⟨_, _, rfl,
    (C10_wrapper_contents (demoEnv "vault-creds" [demoContainer "api" "myapp:1.0"] "")
      (demoDeployment [demoContainer "api" "myapp:1.0"]) _ _
      { Name := "web", Namespace := "default", Labels := [] }
      (demoPodSpec [demoContainer "api" "myapp:1.0"]) rfl rfl).1,
    (C10_wrapper_contents (demoEnv "vault-creds" [demoContainer "api" "myapp:1.0"] "")
      (demoDeployment [demoContainer "api" "myapp:1.0"]) _ _
      { Name := "web", Namespace := "default", Labels := [] }
      (demoPodSpec [demoContainer "api" "myapp:1.0"]) rfl rfl).2.1,
    (C10_wrapper_contents (demoEnv "vault-creds" [demoContainer "api" "myapp:1.0"] "")
      (demoDeployment [demoContainer "api" "myapp:1.0"]) _ _
      { Name := "web", Namespace := "default", Labels := [] }
      (demoPodSpec [demoContainer "api" "myapp:1.0"]) rfl rfl).2.2.1,
    ((C10_wrapper_contents (demoEnv "vault-creds" [demoContainer "api" "myapp:1.0"] "")
      (demoDeployment [demoContainer "api" "myapp:1.0"]) _ _
      { Name := "web", Namespace := "default", Labels := [] }
      (demoPodSpec [demoContainer "api" "myapp:1.0"]) rfl rfl).2.2.2.2 (by decide)).1⟩

theorem Ext_loop_dot (stem ext : List Char) (hext : ∀ ch ∈ ext, ch ≠ '/' ∧ ch ≠ '.') :
    ∀ k, k ≤ ext.length →
      path.Ext.loop (stem ++ '.' :: ext) (stem.length + 1 + k) = '.' :: ext := by
  intro k
  induction k with
  | zero =>
    intro _
    have hget : (stem ++ '.' :: ext)[stem.length]? = some '.' := by
      rw [List.getElem?_append_right (Nat.le_refl _), Nat.sub_self]
      exact List.getElem?_cons_zero
    show path.Ext.loop (stem ++ '.' :: ext) (stem.length + 1) = '.' :: ext
    unfold path.Ext.loop
    rw [hget]
    simp
  | succ k ih =>
    intro hk
    have hlt : k < ext.length := hk
    have hget : (stem ++ '.' :: ext)[stem.length + 1 + k]? = some ext[k] := by
      rw [List.getElem?_append_right (by omega)]
      have : stem.length + 1 + k - stem.length = k + 1 := by omega
      rw [this, List.getElem?_cons_succ, List.getElem?_eq_getElem hlt]
    have hch := hext ext[k] (List.getElem_mem _)
    show path.Ext.loop (stem ++ '.' :: ext) (stem.length + 1 + k + 1) = '.' :: ext
    unfold path.Ext.loop
    rw [hget]
    simp only [hch.1, hch.2, if_false]
    exact ih (Nat.le_of_lt hlt)

theorem Ext_append_dot (stem : String) (ext : List Char)
    (hext : ∀ ch ∈ ext, ch ≠ '/' ∧ ch ≠ '.') :
    path.Ext (stem ++ String.mk ('.' :: ext)) = String.mk ('.' :: ext) := by
  unfold path.Ext
  have hlen : (stem ++ String.mk ('.' :: ext)).data.length = stem.data.length + 1 + ext.length := by
    simp [String.data_append]
    omega
  rw [hlen, String.data_append]
  exact congrArg String.mk (Ext_loop_dot stem.data ext hext ext.length (Nat.le_refl _))

theorem TrimSuffix_append (stem suffix : String) :
    strings.TrimSuffix (stem ++ suffix) suffix = stem := by
  have hlen : (stem ++ suffix).data.length - suffix.data.length = stem.data.length := by
    simp [String.data_append]
  have hs : strings.HasSuffix (stem ++ suffix) suffix = true := by
    unfold strings.HasSuffix
    rw [hlen]
    simp [String.data_append]
  unfold strings.TrimSuffix
  rw [if_pos hs, hlen]
  simp [String.data_append]

theorem genSecureFile_append_ext (stem : String) (ext : List Char)
    (hext : ∀ ch ∈ ext, ch ≠ '/' ∧ ch ≠ '.') :
    genSecureFile (stem ++ String.mk ('.' :: ext)) = stem ++ "-sc" ++ String.mk ('.' :: ext) := by
  unfold genSecureFile
  rw [Ext_append_dot stem ext hext, TrimSuffix_append]

/-- C16: for every string `X`, `genSecureFile (X ++ ".yaml") = X ++ "-sc.yaml"`
and `genSecureFile (X ++ ".yml") = X ++ "-sc.yml"`: `-sc` goes right before the
final extension and the rest of the path is kept, dots and slashes in `X`
included. -/
theorem C16_genSecureFile (X : String) :
    genSecureFile (X ++ ".yaml") = X ++ "-sc.yaml" ∧
    genSecureFile (X ++ ".yml") = X ++ "-sc.yml" ∧
    genSecureFile "manifests/v1.2/web.yaml" = "manifests/v1.2/web-sc.yaml" := by
  refine ⟨?_, ?_, by decide⟩
  · have h := genSecureFile_append_ext X ['y', 'a', 'm', 'l'] (by decide)
    rw [String.append_assoc] at h
    exact h
  · have h := genSecureFile_append_ext X ['y', 'm', 'l'] (by decide)
    rw [String.append_assoc] at h
    exact h

theorem secure_volume_name_injective :
    Function.Injective (fun n : String => "secure-volume-" ++ n) := by
  intro a b h
  have hd : ("secure-volume-" ++ a).data = ("secure-volume-" ++ b).data := congrArg String.data h
  rw [String.data_append, String.data_append] at hd
  exact String.ext (List.append_cancel_left hd)

/-- C11: `maskSensitiveData` rewrites every container, not only the first, to
the scratch image with empty command, args and env, keeps the number and order
of the containers and the rest of the pod spec, and changes nothing when the
pod spec has no containers. -/
theorem C11_maskSensitiveData (scratchImage : String) (pod : corev1.PodSpec) :
    (maskSensitiveData scratchImage pod).Containers =
      (pod.Containers.map fun c =>
        { c with Image := scratchImage, Command := [], Args := [], Env := [] }) ∧
    (∀ c ∈ (maskSensitiveData scratchImage pod).Containers,
      c.Image = scratchImage ∧ c.Command = [] ∧ c.Args = [] ∧ c.Env = []) ∧
    (maskSensitiveData scratchImage pod).Containers.length = pod.Containers.length ∧
    (maskSensitiveData scratchImage pod).Volumes = pod.Volumes ∧
    (maskSensitiveData scratchImage pod).InitContainers = pod.InitContainers ∧
    (pod.Containers = [] → maskSensitiveData scratchImage pod = pod) := by
  rw [maskSensitiveData_eq]
  refine ⟨rfl, ?_, by simp, rfl, rfl, ?_⟩
  · intro c hc
    obtain ⟨c0, _, rfl⟩ := List.mem_map.mp hc
    exact ⟨rfl, rfl, rfl, rfl⟩
  · intro h
    cases pod
    simp only at h
    subst h
    rfl

/-- C13: `insertVaultSecret` appends to the env of every container, after its
existing entries, the variables `SC_VAULT_ADDR`, `SC_VAULT_TOKEN`,
`SC_VAULT_SECRET`, `SC_VAULT_SYMM_KEY` in this order, each a secret-key
reference to the secret `s` with keys `vaultAdd`, `vaultToken`, `secretName`,
`keyName`; and when the configured Vault secret name is empty, a successful
`secureObject` embeds the masked and mounted pod spec without injection, every
container's env being empty as masking left it. -/
theorem C13_insertVaultSecret (pod : corev1.PodSpec) (s : String) :
    (insertVaultSecret pod s).Containers =
      (pod.Containers.map fun c =>
        { c with Env := c.Env ++
          [ { Name := "SC_VAULT_ADDR", Value := "",
              ValueFrom := some
                { ConfigMapKeyRef := none
                  SecretKeyRef := some { Name := s, Key := "vaultAdd", Optional := none } } },
            { Name := "SC_VAULT_TOKEN", Value := "",
              ValueFrom := some
                { ConfigMapKeyRef := none
                  SecretKeyRef := some { Name := s, Key := "vaultToken", Optional := none } } },
            { Name := "SC_VAULT_SECRET", Value := "",
              ValueFrom := some
                { ConfigMapKeyRef := none
                  SecretKeyRef := some { Name := s, Key := "secretName", Optional := none } } },
            { Name := "SC_VAULT_SYMM_KEY", Value := "",
              ValueFrom := some
                { ConfigMapKeyRef := none
                  SecretKeyRef := some { Name := s, Key := "keyName", Optional := none } } } ] }) ∧
    (insertVaultSecret pod s).Volumes = pod.Volumes ∧
    (insertVaultSecret pod s).InitContainers = pod.InitContainers ∧
    (∀ (env : Env) (obj : runtime.Object) (sc : securecontainersv1alpha1.SecureContainer)
        (cm : corev1.ConfigMap) (m : metav1.ObjectMeta) (ps : corev1.PodSpec),
      env.VaultSecret = "" →
      secureObject env obj = .returned (sc, cm, none) →
      workloadAccessor obj = .returned (.ok (m, ps)) →
      sc.Object.Object = some (storePodSpec obj
        (mountConfigMap (maskSensitiveData env.scratchImage ps) cm)) ∧
      ∀ c ∈ (mountConfigMap (maskSensitiveData env.scratchImage ps) cm).Containers,
        c.Env = []) := by
  rw [insertVaultSecret_eq]
  refine ⟨rfl, rfl, rfl, ?_⟩
  intro env obj sc cm m ps hv h hacc
  obtain ⟨m', ps1, hacc', _, rfl⟩ := secureObject_ok env obj sc cm h
  rw [hacc] at hacc'
  simp only [Outcome.returned.injEq, Except.ok.injEq, Prod.mk.injEq] at hacc'
  obtain ⟨rfl, rfl⟩ := hacc'
  constructor
  · simp [newSecureContainer, hv]
  · intro c hc
    simp only [mountConfigMap_eq, maskSensitiveData_eq, List.map_map, List.mem_map,
      Function.comp] at hc
    obtain ⟨c0, _, rfl⟩ := hc
    rfl

set_option maxRecDepth 100000 in
/-- C13 at a pod spec with the container `api` and the secret `vault-creds`,
and at the deployment `web` with no Vault secret configured. -/
theorem C13_insertVaultSecret_witness :
    ((insertVaultSecret (demoPodSpec [demoContainer "api" "myapp:1.0"])
        "vault-creds").Containers.map fun c => c.Env.map fun e => e.Name) =
      [["DB_PASSWORD", "SC_VAULT_ADDR", "SC_VAULT_TOKEN", "SC_VAULT_SECRET",
        "SC_VAULT_SYMM_KEY"]] ∧
    ∃ sc cm,
      secureObject (demoEnv "" [demoContainer "api" "myapp:1.0"] "")
        (demoDeployment [demoContainer "api" "myapp:1.0"]) = .returned (sc, cm, none) ∧
      sc.Object.Object = some (storePodSpec (demoDeployment [demoContainer "api" "myapp:1.0"])
        (mountConfigMap
          (maskSensitiveData "scratch" (demoPodSpec [demoContainer "api" "myapp:1.0"])) cm)) ∧
      ∀ c ∈ (mountConfigMap
          (maskSensitiveData "scratch" (demoPodSpec [demoContainer "api" "myapp:1.0"]))
          cm).Containers,
        c.Env = [] :=
  ⟨by decide, _, _, rfl,
    (C13_insertVaultSecret (demoPodSpec [demoContainer "api" "myapp:1.0"]) "vault-creds").2.2.2
      (demoEnv "" [demoContainer "api" "myapp:1.0"] "")
      (demoDeployment [demoContainer "api" "myapp:1.0"]) _ _
      { Name := "web", Namespace := "default", Labels := [] }
      (demoPodSpec [demoContainer "api" "myapp:1.0"]) rfl rfl rfl⟩

/-- C14: masking erases injected variables, `maskSensitiveData` after
`insertVaultSecret` being `maskSensitiveData` alone, whereas
`insertVaultSecret` after `maskSensitiveData` leaves every container with
exactly the four Vault variables; so the two orders differ on every pod spec
that has a container. -/
theorem C14_mask_erases_injection (scratchImage s : String) (pod : corev1.PodSpec) :
    maskSensitiveData scratchImage (insertVaultSecret pod s) =
      maskSensitiveData scratchImage pod ∧
    (∀ c ∈ (insertVaultSecret (maskSensitiveData scratchImage pod) s).Containers,
      c.Env = vaultSecrets s) ∧
    (vaultSecrets s).length = 4 ∧
    (pod.Containers ≠ [] →
      insertVaultSecret (maskSensitiveData scratchImage pod) s ≠
        maskSensitiveData scratchImage (insertVaultSecret pod s)) := by
  have h1 : maskSensitiveData scratchImage (insertVaultSecret pod s) =
      maskSensitiveData scratchImage pod := by
    simp only [maskSensitiveData_eq, insertVaultSecret_eq, List.map_map, Function.comp_def]
  have h2 : ∀ c ∈ (insertVaultSecret (maskSensitiveData scratchImage pod) s).Containers,
      c.Env = vaultSecrets s := by
    intro c hc
    simp only [maskSensitiveData_eq, insertVaultSecret_eq, List.map_map, List.mem_map,
      Function.comp] at hc
    obtain ⟨c0, _, rfl⟩ := hc
    rfl
  refine ⟨h1, h2, rfl, ?_⟩
  intro hne heq
  rw [h1] at heq
  cases hcs : pod.Containers with
  | nil => exact hne hcs
  | cons c0 rest =>
    have hmem : ({ c0 with Image := scratchImage, Command := [], Args := [], Env := [] } :
        corev1.Container) ∈ (maskSensitiveData scratchImage pod).Containers := by
      rw [maskSensitiveData_eq, hcs]
      exact List.mem_cons_self _ _
    have hmem2 := hmem
    rw [← heq] at hmem2
    have henv := h2 _ hmem2
    have hlen := congrArg List.length henv
    simp [vaultSecrets] at hlen

/-- C14 at a pod spec with the container `api`: the two orders give different
pod specs. -/
theorem C14_mask_erases_injection_witness :
    insertVaultSecret (maskSensitiveData "scratch" (demoPodSpec [demoContainer "api" "myapp:1.0"]))
        "vault-creds" ≠
      maskSensitiveData "scratch"
        (insertVaultSecret (demoPodSpec [demoContainer "api" "myapp:1.0"]) "vault-creds") :=
  (C14_mask_erases_injection "scratch" "vault-creds"
    (demoPodSpec [demoContainer "api" "myapp:1.0"])).2.2.2 (by decide)

/-- C15: masking and mounting commute: for every pod spec and config map,
`mountConfigMap (maskSensitiveData p) cm = maskSensitiveData (mountConfigMap p cm)`. -/
theorem C15_mask_mount_commute (scratchImage : String) (pod : corev1.PodSpec)
    (cm : corev1.ConfigMap) :
    mountConfigMap (maskSensitiveData scratchImage pod) cm =
      maskSensitiveData scratchImage (mountConfigMap pod cm) := by
  simp only [maskSensitiveData_eq, mountConfigMap_eq, List.map_map, Function.comp_def]

/-- C20: the volumes `mountConfigMap` appends are named
`secure-volume-<container name>`, one per container in order, so their names
are pairwise distinct exactly when the container names are; a pod spec with two
containers named `app` ends with two appended volumes both named
`secure-volume-app`. -/
theorem C20_appended_volume_names (pod : corev1.PodSpec) (cm : corev1.ConfigMap) :
    (mountConfigMap pod cm).Volumes.take pod.Volumes.length = pod.Volumes ∧
    (((mountConfigMap pod cm).Volumes.drop pod.Volumes.length).map fun v => v.Name) =
      (pod.Containers.map fun c => "secure-volume-" ++ c.Name) ∧
    ((((mountConfigMap pod cm).Volumes.drop pod.Volumes.length).map fun v => v.Name).Nodup ↔
      (pod.Containers.map fun c => c.Name).Nodup) ∧
    (((mountConfigMap
        (demoPodSpec [demoContainer "app" "first:1.0", demoContainer "app" "second:2.0"])
        cm).Volumes.map fun v => v.Name) = ["secure-volume-app", "secure-volume-app"]) := by
  have hnames : (((mountConfigMap pod cm).Volumes.drop pod.Volumes.length).map fun v => v.Name) =
      (pod.Containers.map fun c => "secure-volume-" ++ c.Name) := by
    rw [mountConfigMap_eq]
    simp [List.map_map, Function.comp]
  refine ⟨?_, hnames, ?_, ?_⟩
  · rw [mountConfigMap_eq]
    simp
  · rw [hnames]
    have hmap : (pod.Containers.map fun c => "secure-volume-" ++ c.Name) =
        (pod.Containers.map fun c => c.Name).map (fun n : String => "secure-volume-" ++ n) := by
      simp [List.map_map, Function.comp]
    rw [hmap]
    exact List.nodup_map_iff secure_volume_name_injective
  · rw [mountConfigMap_eq]
    rfl

theorem encryptContainers_keys (env : Env) (cs : List corev1.Container)
    (name namespace_ : String) (cm : corev1.ConfigMap)
    (h : encryptContainers env cs (newConfigMap name namespace_) = (cm, none)) (n : String) :
    n ∈ cm.Data.keys ↔ n ∈ cs.map fun c => c.Name := by
  obtain ⟨_, _, hall, hget, _⟩ := encryptContainers_none env _ _ _ h
  rw [GoMap.mem_keys_iff, hget n, ← lastNamed_isSome_iff]
  cases hl : lastNamed cs n with
  | none => simp [newConfigMap, GoMap.get?]
  | some c =>
    obtain ⟨enc, henc⟩ := hall c (lastNamed_mem _ _ _ hl).1
    simp [henc]

theorem encryptContainers_values (env : Env) (cs : List corev1.Container)
    (name namespace_ : String) (cm : corev1.ConfigMap)
    (h : encryptContainers env cs (newConfigMap name namespace_) = (cm, none))
    (n v : String) (hv : cm.Data.get? n = some v) :
    ∃ c cbytes, c ∈ cs ∧ c.Name = n ∧ extract env c = .ok cbytes ∧
      env.EncryptConfigMap cbytes env.Key = .ok v := by
  obtain ⟨_, _, _, hget, _⟩ := encryptContainers_none env _ _ _ h
  rw [hget n] at hv
  cases hl : lastNamed cs n with
  | none =>
    rw [hl] at hv
    simp [newConfigMap, GoMap.get?] at hv
  | some c =>
    rw [hl] at hv
    obtain ⟨cbytes, h1, h2⟩ := (cipherOf_eq_some env c v).mp hv
    exact ⟨c, cbytes, (lastNamed_mem _ _ _ hl).1, (lastNamed_mem _ _ _ hl).2, h1, h2⟩

theorem setField_setField (fields : List (String × reflect.GoValue)) (name : String)
    (v w : reflect.GoValue) :
    reflect.setField (reflect.setField fields name v) name w = reflect.setField fields name w := by
  induction fields with
  | nil => rfl
  | cons kv rest ih =>
    obtain ⟨k, u⟩ := kv
    by_cases hk : k = name
    · subst hk
      simp only [setField_cons, if_true, ih]
    · simp only [setField_cons, if_neg hk, ih]

theorem setField_of_not_mem (fields : List (String × reflect.GoValue)) (name : String)
    (v : reflect.GoValue) (h : name ∉ fields.map Prod.fst) :
    reflect.setField fields name v = fields := by
  induction fields with
  | nil => rfl
  | cons kv rest ih =>
    obtain ⟨k, u⟩ := kv
    have hk : ¬ k = name := fun e => h (by simp [e])
    have hrest : name ∉ rest.map Prod.fst := fun hm => h (by simp [hm])
    rw [setField_cons, if_neg hk, ih hrest]

theorem setField_eq_self (fields : List (String × reflect.GoValue)) (name : String)
    (v : reflect.GoValue) (hnd : (fields.map Prod.fst).Nodup)
    (h : fields.lookup name = some v) : reflect.setField fields name v = fields := by
  induction fields with
  | nil => rfl
  | cons kv rest ih =>
    obtain ⟨k, u⟩ := kv
    have hnd' : k ∉ rest.map Prod.fst ∧ (rest.map Prod.fst).Nodup := by simpa using hnd
    rw [setField_cons]
    by_cases hk : k = name
    · subst hk
      have hu : u = v := by simpa [List.lookup] using h
      rw [if_pos rfl, hu, setField_of_not_mem rest k v hnd'.1]
    · have hne : (name == k) = false := by simpa using fun e => hk e.symm
      simp only [List.lookup, hne] at h
      rw [if_neg hk, ih hnd'.2 h]

theorem storePodSpec_storePodSpec (obj : runtime.Object) (m : metav1.ObjectMeta)
    (ps q p : corev1.PodSpec) (h : workloadAccessor obj = .returned (.ok (m, ps))) :
    storePodSpec (storePodSpec obj q) p = storePodSpec obj p := by
  cases obj with
  | cronJob job => rfl
  | pod v => rfl
  | deployment v => rfl
  | other v =>
    obtain ⟨fields, specFields, tf, rfl, hm, hs, ht, hp⟩ :=
      (workloadAccessor_other_ok v m ps).mp h
    rcases ht with ht | ht
    · simp only [storePodSpec, hs, ht, lookup_setField_self _ _ _ _ hs,
        lookup_setField_self _ _ _ _ ht, setField_setField]
    · simp only [storePodSpec, hs, ht, lookup_setField_self _ _ _ _ hs,
        lookup_setField_self _ _ _ _ ht, setField_setField]

theorem storePodSpec_same (obj : runtime.Object) (m : metav1.ObjectMeta)
    (ps : corev1.PodSpec) (h : workloadAccessor obj = .returned (.ok (m, ps)))
    (hunique : ∀ fields, obj = .other (.struct fields) →
      (fields.map Prod.fst).Nodup ∧
      ∀ specFields, fields.lookup "Spec" = some (.struct specFields) →
        (specFields.map Prod.fst).Nodup ∧
        ∀ templateFields,
          (specFields.lookup "Template" = some (.struct templateFields) ∨
            specFields.lookup "Template" = some (.ptr (some (.struct templateFields)))) →
          (templateFields.map Prod.fst).Nodup) :
    storePodSpec obj ps = obj := by
  cases obj with
  | cronJob job =>
    simp only [workloadAccessor, Outcome.returned.injEq, Except.ok.injEq, Prod.mk.injEq] at h
    simp only [storePodSpec, ← h.2]
  | pod v =>
    simp only [workloadAccessor, Outcome.returned.injEq, Except.ok.injEq, Prod.mk.injEq] at h
    simp only [storePodSpec, ← h.2]
  | deployment v =>
    simp only [workloadAccessor, Outcome.returned.injEq, Except.ok.injEq, Prod.mk.injEq] at h
    simp only [storePodSpec, ← h.2]
  | other v =>
    obtain ⟨fields, specFields, tf, rfl, hm, hs, ht, hp⟩ :=
      (workloadAccessor_other_ok v m ps).mp h
    obtain ⟨hn1, hrest⟩ := hunique fields rfl
    obtain ⟨hn2, hrest2⟩ := hrest specFields hs
    have hn3 := hrest2 tf ht
    rcases ht with ht | ht
    · simp only [storePodSpec, hs, ht, setField_eq_self tf "Spec" _ hn3 hp,
        setField_eq_self specFields "Template" _ hn2 ht, setField_eq_self fields "Spec" _ hn1 hs]
    · simp only [storePodSpec, hs, ht, setField_eq_self tf "Spec" _ hn3 hp,
        setField_eq_self specFields "Template" _ hn2 ht, setField_eq_self fields "Spec" _ hn1 hs]

theorem metadataOf_storePodSpec (obj : runtime.Object) (m : metav1.ObjectMeta)
    (ps p : corev1.PodSpec) (h : workloadAccessor obj = .returned (.ok (m, ps))) :
    metadataOf (storePodSpec obj p) = metadataOf obj := by
  rw [metadataOf_of_accessor obj m ps h,
    metadataOf_of_accessor _ m p (workloadAccessor_storePodSpec obj m ps p h)]

set_option maxRecDepth 100000 in
/-- C12 as stated fails: for the container `api` whose argument and environment
value are `up`, U+0085, `now`, under a YAML library that folds a line break
inside a string to a space, the value `c'` the extraction step decodes and puts
into the document has the argument `up now` and an environment value that
differ from the container's, and the document reads back with that `c'`. -/
theorem C12_counterexample :
    ∃ y cSpec cbytes,
      (ghodssEnv "").JSONToYAML (demoBanner "api").toJSON = .ok y ∧
      yaml.Unmarshal (ghodssEnv "") y app.Container.fromJSON = .ok cSpec ∧
      extract (ghodssEnv "") (demoBanner "api") = .ok cbytes ∧
      (ghodssEnv "").JSONToYAML
        (.obj [("spec", .obj [("containers", .list [cSpec.toJSON])])]) = .ok cbytes ∧
      (ghodssEnv "").YAMLToJSON cbytes =
        .ok (Doc.sortKeys (.obj [("spec", .obj [("containers", .list [cSpec.toJSON])])])) ∧
      (demoBanner "api").Args = [String.mk ['u', 'p', nextLine, 'n', 'o', 'w']] ∧
      cSpec.Args = ["up now"] ∧
      cSpec.Args ≠ (demoBanner "api").Args ∧
      cSpec.Env = [{ Name := "BANNER", Value := "up now", ValueFrom := none }] ∧
      cSpec.Env ≠ (demoBanner "api").Env :=
  ⟨_, _, _, rfl, rfl, rfl, rfl, rfl, rfl, by decide, by decide, by decide, by decide⟩

/-- C12, amended: when the YAML writer succeeds on a container's document and
the reader reads that text back as the same document, its keys sorted, the
extraction step decodes a value `c'` whose name, image, command, args, env,
ports and resources are the container's (the resource maps, which have no
order, in key order), and builds the document `spec: containers: [c']` with
that single element, whose keys are only those seven; the container's other
fields, such as its volume mounts, have no influence on `c'`. -/
theorem C12_extracted_document (env : Env) (c : corev1.Container) (y : String)
    (hy : env.JSONToYAML c.toJSON = .ok y)
    (hcodec : env.YAMLToJSON y = .ok c.toJSON.sortKeys) :
    ∃ cSpec, yaml.Unmarshal env y app.Container.fromJSON = .ok cSpec ∧
      cSpec.Name = c.Name ∧ cSpec.Image = c.Image ∧ cSpec.Command = c.Command ∧
      cSpec.Args = c.Args ∧ cSpec.Env = c.Env ∧ cSpec.Ports = c.Ports ∧
      cSpec.Resources = some c.Resources.canonical ∧
      (KeySorted c.Resources.Limits → KeySorted c.Resources.Requests →
        cSpec.Resources = some c.Resources) ∧
      extract env c =
        env.JSONToYAML (.obj [("spec", .obj [("containers", .list [cSpec.toJSON])])]) ∧
      cSpec.toJSON = .obj (
        [("name", .str c.Name)]
        ++ omitempty "image" (c.Image == "") (.str c.Image)
        ++ omitempty "command" c.Command.isEmpty (encodeStrings c.Command)
        ++ omitempty "args" c.Args.isEmpty (encodeStrings c.Args)
        ++ omitempty "env" c.Env.isEmpty (.list (c.Env.map corev1.EnvVar.toJSON))
        ++ omitempty "ports" c.Ports.isEmpty (.list (c.Ports.map corev1.ContainerPort.toJSON))
        ++ [("resources", c.Resources.toJSON)]) ∧
      ∀ workingDir mounts policy,
        app.Container.fromJSON
          ({ c with WorkingDir := workingDir, VolumeMounts := mounts,
                    ImagePullPolicy := policy } : corev1.Container).toJSON = .ok cSpec ∧
        app.Container.fromJSON
          ({ c with WorkingDir := workingDir, VolumeMounts := mounts,
                    ImagePullPolicy := policy } : corev1.Container).toJSON.sortKeys
            = .ok cSpec := by
  refine ⟨extractedContainer c, ?_, rfl, rfl, rfl, rfl, rfl, rfl, rfl, ?_, ?_,
    extractedContainer_toJSON c, ?_⟩
  · simp only [yaml.Unmarshal, hcodec, Container_fromJSON_sortKeys_toJSON]
  · intro hl hr
    show some c.Resources.canonical = some c.Resources
    rw [ResourceRequirements_canonical_of_keySorted c.Resources hl hr]
  · simp only [extract, yaml.Marshal, yaml.Unmarshal, hy, hcodec,
      Container_fromJSON_sortKeys_toJSON]
    rfl
  · intro workingDir mounts policy
    rw [Container_fromJSON_toJSON, Container_fromJSON_sortKeys_toJSON]
    exact ⟨rfl, rfl⟩

set_option maxRecDepth 100000 in
/-- C12, amended, at the container `api` of image `myapp:1.0`, under a YAML
library that sorts keys. -/
theorem C12_extracted_document_witness :
    (ghodssEnv "").JSONToYAML (demoContainer "api" "myapp:1.0").toJSON =
      .ok (Doc.sortKeys (demoContainer "api" "myapp:1.0").toJSON).render ∧
    (ghodssEnv "").YAMLToJSON (Doc.sortKeys (demoContainer "api" "myapp:1.0").toJSON).render =
      .ok (demoContainer "api" "myapp:1.0").toJSON.sortKeys ∧
    extract (ghodssEnv "") (demoContainer "api" "myapp:1.0") =
      .ok (Doc.sortKeys (extractedDocument (demoContainer "api" "myapp:1.0"))).render ∧
    ∃ cSpec,
      yaml.Unmarshal (ghodssEnv "")
        (Doc.sortKeys (demoContainer "api" "myapp:1.0").toJSON).render
        app.Container.fromJSON = .ok cSpec ∧
      cSpec.Name = "api" ∧ cSpec.Image = "myapp:1.0" ∧ cSpec.Command = ["/bin/app"] ∧
      cSpec.Args = ["--serve"] ∧
      cSpec.Env = [{ Name := "DB_PASSWORD", Value := "hunter2", ValueFrom := none }] ∧
      cSpec.Ports = [{ Name := "http", HostPort := 0, ContainerPort := 8080, Protocol := "TCP",
                       HostIP := "" }] ∧
      cSpec.Resources = some { Limits := [("cpu", "1")], Requests := [] } :=
  ⟨rfl, rfl, rfl,
    (C12_extracted_document (ghodssEnv "") (demoContainer "api" "myapp:1.0")
      (Doc.sortKeys (demoContainer "api" "myapp:1.0").toJSON).render rfl rfl).imp
      fun _ hc => ⟨hc.1, hc.2.1, hc.2.2.1, hc.2.2.2.1, hc.2.2.2.2.1, hc.2.2.2.2.2.1,
        hc.2.2.2.2.2.2.1, hc.2.2.2.2.2.2.2.1⟩⟩

/-- C17: for a workload the accessor accepts, (i) when the gateway fails on a
container whose predecessors were all extracted and encrypted, the config map
returned with the error holds under that container's name the unencrypted
bytes `extract` produced for it; (ii) on a successful return every value of
`Data` is the gateway's output on the extracted bytes of a container of that
name, and, if no output the gateway gave for a container of the pod spec is
itself the extracted document of one, no value of `Data` is such a
document. -/
theorem C17_plaintext_only_on_failure (env : Env) (obj : runtime.Object)
    (m : metav1.ObjectMeta) (ps : corev1.PodSpec)
    (hacc : workloadAccessor obj = .returned (.ok (m, ps))) :
    (∀ pre c post cbytes err,
      ps.Containers = pre ++ c :: post →
      (∀ d ∈ pre, ∃ b enc, extract env d = .ok b ∧ env.EncryptConfigMap b env.Key = .ok enc) →
      extract env c = .ok cbytes →
      env.EncryptConfigMap cbytes env.Key = .error err →
      ∃ cm, secureObject env obj = .returned (zeroSecureContainer, cm, some err) ∧
        cm.Data.get? c.Name = some cbytes) ∧
    (∀ sc cm, secureObject env obj = .returned (sc, cm, none) →
      (∀ n v, cm.Data.get? n = some v →
        ∃ c cbytes, c ∈ ps.Containers ∧ c.Name = n ∧ extract env c = .ok cbytes ∧
          env.EncryptConfigMap cbytes env.Key = .ok v) ∧
      ((∀ c ∈ ps.Containers, ∀ b e, extract env c = .ok b →
          env.EncryptConfigMap b env.Key = .ok e →
          ∀ d ∈ ps.Containers, extract env d ≠ .ok e) →
        ∀ n v, cm.Data.get? n = some v → ∀ d ∈ ps.Containers, extract env d ≠ .ok v)) := by
  constructor
  · intro pre c post cbytes err hsplit hpre h1 h2
    have hpre' : ∀ d ∈ pre, ∃ enc, cipherOf env d = some enc := by
      intro d hd
      obtain ⟨b, enc, hb, he⟩ := hpre d hd
      exact ⟨enc, (cipherOf_eq_some env d enc).mpr ⟨b, hb, he⟩⟩
    obtain ⟨cm1, hcm1⟩ := encryptContainers_all env pre
      (newConfigMap ("secure-configmap-" ++ m.Name) m.Namespace) hpre'
    refine ⟨setData cm1 c.Name cbytes, ?_, ?_⟩
    · rw [secureObject_of_accessor env obj m ps hacc, securePrefix_configmap, hsplit,
        encryptContainers_append env pre (c :: post) _ cm1 hcm1,
        encryptContainers_fail env c post cm1 cbytes err h1 h2]
    · exact GoMap.get?_set_self _ _ _
  · intro sc cm h
    have hloop := (secureObject_embedded env obj sc cm m ps h hacc).2
    have hvals := encryptContainers_values env ps.Containers _ _ cm hloop
    refine ⟨hvals, ?_⟩
    intro hgate n v hv d hd
    obtain ⟨c, cbytes, hc, _, h1, h2⟩ := hvals n v hv
    exact hgate c hc cbytes v h1 h2 d hd

set_option maxRecDepth 100000 in
theorem demoEnv_output_not_document :
    ∀ c ∈ (demoPodSpec [demoContainer "api" "myapp:1.0"]).Containers, ∀ b e,
      extract (demoEnv "" [demoContainer "api" "myapp:1.0"] "") c = .ok b →
      (demoEnv "" [demoContainer "api" "myapp:1.0"] "").EncryptConfigMap b
        (demoEnv "" [demoContainer "api" "myapp:1.0"] "").Key = .ok e →
      ∀ d ∈ (demoPodSpec [demoContainer "api" "myapp:1.0"]).Containers,
        extract (demoEnv "" [demoContainer "api" "myapp:1.0"] "") d ≠ .ok e := by
  intro c hc b e hb he d hd hbad
  have hc' : c = demoContainer "api" "myapp:1.0" := by simpa [demoPodSpec] using hc
  have hd' : d = demoContainer "api" "myapp:1.0" := by simpa [demoPodSpec] using hd
  subst hc' hd'
  have hdoc : extract (demoEnv "" [demoContainer "api" "myapp:1.0"] "")
      (demoContainer "api" "myapp:1.0") =
      .ok (extractedDocument (demoContainer "api" "myapp:1.0")).render := rfl
  rw [hdoc] at hb hbad
  have hb' : (extractedDocument (demoContainer "api" "myapp:1.0")).render = b := by
    simpa using hb
  have he' : (extractedDocument (demoContainer "api" "myapp:1.0")).render = e := by
    simpa using hbad
  subst hb'
  have hcipher : demoCipher e = (extractedDocument (demoContainer "api" "myapp:1.0")).render :=
    demoEnv_decrypt "" [demoContainer "api" "myapp:1.0"] "" _ e he
  rw [← he'] at hcipher
  exact absurd hcipher (by decide)

set_option maxRecDepth 100000 in
/-- C17 at a deployment with the containers `api`, `sidecar` and `logger`, the
gateway failing on the document of `sidecar`: the entry `sidecar` of the
returned config map is that document in clear; and at the deployment with the
container `api` alone and a gateway that succeeds: no entry is a document. -/
theorem C17_plaintext_only_on_failure_witness :
    (∃ cm,
      secureObject
        (demoEnv ""
          [demoContainer "api" "myapp:1.0", demoContainer "sidecar" "envoy:1.9",
            demoContainer "logger" "fluentd:1.3"]
          (extractedDocument (demoContainer "sidecar" "envoy:1.9")).render)
        (demoDeployment
          [demoContainer "api" "myapp:1.0", demoContainer "sidecar" "envoy:1.9",
            demoContainer "logger" "fluentd:1.3"])
        = .returned (zeroSecureContainer, cm, some "crypto: encryption failed") ∧
      cm.Data.get? "sidecar" =
        some (extractedDocument (demoContainer "sidecar" "envoy:1.9")).render) ∧
    (∃ sc cm,
      secureObject (demoEnv "" [demoContainer "api" "myapp:1.0"] "")
        (demoDeployment [demoContainer "api" "myapp:1.0"]) = .returned (sc, cm, none) ∧
      ∀ n v, cm.Data.get? n = some v →
        ∀ d ∈ (demoPodSpec [demoContainer "api" "myapp:1.0"]).Containers,
          extract (demoEnv "" [demoContainer "api" "myapp:1.0"] "") d ≠ .ok v) :=
  ⟨(C17_plaintext_only_on_failure
    (demoEnv ""
      [demoContainer "api" "myapp:1.0", demoContainer "sidecar" "envoy:1.9",
        demoContainer "logger" "fluentd:1.3"]
      (extractedDocument (demoContainer "sidecar" "envoy:1.9")).render)
    (demoDeployment
      [demoContainer "api" "myapp:1.0", demoContainer "sidecar" "envoy:1.9",
        demoContainer "logger" "fluentd:1.3"])
    { Name := "web", Namespace := "default", Labels := [] }
    (demoPodSpec
      [demoContainer "api" "myapp:1.0", demoContainer "sidecar" "envoy:1.9",
        demoContainer "logger" "fluentd:1.3"])
    rfl).1
    [demoContainer "api" "myapp:1.0"] (demoContainer "sidecar" "envoy:1.9")
    [demoContainer "logger" "fluentd:1.3"]
    (extractedDocument (demoContainer "sidecar" "envoy:1.9")).render
    "crypto: encryption failed" rfl
    (fun d hd => by
      have hd' : d = demoContainer "api" "myapp:1.0" := by simpa using hd
      subst hd'
      exact ⟨_, _, rfl, rfl⟩)
    rfl rfl,
   ⟨_, _, rfl,
    ((C17_plaintext_only_on_failure (demoEnv "" [demoContainer "api" "myapp:1.0"] "")
      (demoDeployment [demoContainer "api" "myapp:1.0"])
      { Name := "web", Namespace := "default", Labels := [] }
      (demoPodSpec [demoContainer "api" "myapp:1.0"]) rfl).2 _ _ rfl).2
      demoEnv_output_not_document⟩⟩

/-- C18: when `secureObject` succeeds, the embedded pod spec keeps the source
volumes and ends with one added volume per container; every added volume
references the config map by the name of the returned config map, and its
single item key is a key of the returned `Data`; and every container has, after
its previous mounts, one added mount that names a volume of the embedded pod
spec. -/
theorem C18_wrapper_config_consistency (env : Env) (obj : runtime.Object)
    (sc : securecontainersv1alpha1.SecureContainer) (cm : corev1.ConfigMap)
    (m : metav1.ObjectMeta) (ps : corev1.PodSpec)
    (h : secureObject env obj = .returned (sc, cm, none))
    (hacc : workloadAccessor obj = .returned (.ok (m, ps))) :
    ∃ out ps', sc.Object.Object = some out ∧
      workloadAccessor out = .returned (.ok (m, ps')) ∧
      ps'.Volumes.take ps.Volumes.length = ps.Volumes ∧
      (ps'.Volumes.drop ps.Volumes.length).length = ps.Containers.length ∧
      (∀ v ∈ ps'.Volumes.drop ps.Volumes.length, ∃ src item,
        v.VolumeSource.ConfigMap = some src ∧ src.Name = cm.ObjectMeta.Name ∧
        src.Items = [item] ∧ item.Key ∈ cm.Data.keys) ∧
      List.Forall₂
        (fun c c' => ∃ mnt, c'.VolumeMounts = c.VolumeMounts ++ [mnt] ∧
          ∃ v ∈ ps'.Volumes, v.Name = mnt.Name)
        ps.Containers ps'.Containers := by
  obtain ⟨hobj, hloop⟩ := secureObject_embedded env obj sc cm m ps h hacc
  refine ⟨_, scrubbedPodSpec env ps cm, hobj,
    workloadAccessor_storePodSpec obj m ps _ hacc, ?_, ?_, ?_, ?_⟩
  · simp [scrubbedPodSpec]
  · simp [scrubbedPodSpec]
  · intro v hv
    simp only [scrubbedPodSpec, List.drop_left, List.mem_map] at hv
    obtain ⟨c, hc, rfl⟩ := hv
    refine ⟨_, _, rfl, rfl, rfl, ?_⟩
    exact (encryptContainers_keys env ps.Containers _ _ cm hloop c.Name).mpr
      (List.mem_map.mpr ⟨c, hc, rfl⟩)
  · show List.Forall₂ _ ps.Containers (ps.Containers.map _)
    rw [List.forall₂_map_right_iff, List.forall₂_same]
    intro c hc
    refine ⟨_, rfl,
      { Name := "secure-volume-" ++ c.Name
        VolumeSource :=
          { HostPath := none
            ConfigMap := some
              { Name := cm.ObjectMeta.Name
                Items := [{ Key := c.Name, Path := "raksh.properties", Mode := none }]
                DefaultMode := none
                Optional := none } } }, ?_, rfl⟩
    simp only [scrubbedPodSpec, List.mem_append, List.mem_map]
    exact Or.inr ⟨c, hc, rfl⟩

set_option maxRecDepth 100000 in
/-- C18 at the deployment `web` with the container `api`. -/
theorem C18_wrapper_config_consistency_witness :
    ∃ sc cm,
      secureObject (demoEnv "" [demoContainer "api" "myapp:1.0"] "")
        (demoDeployment [demoContainer "api" "myapp:1.0"]) = .returned (sc, cm, none) ∧
      cm.ObjectMeta.Name = "secure-configmap-web" ∧ cm.Data.keys = ["api"] ∧
      ∃ out ps', sc.Object.Object = some out ∧
        workloadAccessor out =
          .returned (.ok ({ Name := "web", Namespace := "default", Labels := [] }, ps')) ∧
        ps'.Volumes.take (demoPodSpec [demoContainer "api" "myapp:1.0"]).Volumes.length =
          (demoPodSpec [demoContainer "api" "myapp:1.0"]).Volumes ∧
        (ps'.Volumes.drop (demoPodSpec [demoContainer "api" "myapp:1.0"]).Volumes.length).length =
          (demoPodSpec [demoContainer "api" "myapp:1.0"]).Containers.length ∧
        (∀ v ∈ ps'.Volumes.drop (demoPodSpec [demoContainer "api" "myapp:1.0"]).Volumes.length,
          ∃ src item,
            v.VolumeSource.ConfigMap = some src ∧ src.Name = cm.ObjectMeta.Name ∧
            src.Items = [item] ∧ item.Key ∈ cm.Data.keys) ∧
        List.Forall₂
          (fun c c' => ∃ mnt, c'.VolumeMounts = c.VolumeMounts ++ [mnt] ∧
            ∃ v ∈ ps'.Volumes, v.Name = mnt.Name)
          (demoPodSpec [demoContainer "api" "myapp:1.0"]).Containers ps'.Containers :=
  ⟨_, _, rfl, by decide, by decide,
    C18_wrapper_config_consistency (demoEnv "" [demoContainer "api" "myapp:1.0"] "")
      (demoDeployment [demoContainer "api" "myapp:1.0"]) _ _
      { Name := "web", Namespace := "default", Labels := [] }
      (demoPodSpec [demoContainer "api" "myapp:1.0"]) rfl rfl⟩

/-- C19: when `secureObject` succeeds, the embedded object has the metadata of
the input and differs from it at most in the pod spec (storing one pod spec
into both gives the same object, and storing the source pod spec back gives
the input when struct field names are unique); the embedded pod spec keeps the
init containers, restart policy and service account, keeps the source volumes
as a prefix of its volumes, and each container keeps its name, ports,
resources, working directory and pull policy and its previous mounts as a
prefix of its mounts. -/
theorem C19_frame (env : Env) (obj : runtime.Object)
    (sc : securecontainersv1alpha1.SecureContainer) (cm : corev1.ConfigMap)
    (m : metav1.ObjectMeta) (ps : corev1.PodSpec)
    (h : secureObject env obj = .returned (sc, cm, none))
    (hacc : workloadAccessor obj = .returned (.ok (m, ps))) :
    ∃ out ps', sc.Object.Object = some out ∧
      workloadAccessor out = .returned (.ok (m, ps')) ∧
      metadataOf out = some m ∧ metadataOf obj = some m ∧
      (∀ p, storePodSpec out p = storePodSpec obj p) ∧
      ((∀ fields, obj = .other (.struct fields) →
          (fields.map Prod.fst).Nodup ∧
          ∀ specFields, fields.lookup "Spec" = some (.struct specFields) →
            (specFields.map Prod.fst).Nodup ∧
            ∀ templateFields,
              (specFields.lookup "Template" = some (.struct templateFields) ∨
                specFields.lookup "Template" = some (.ptr (some (.struct templateFields)))) →
              (templateFields.map Prod.fst).Nodup) →
        storePodSpec out ps = obj) ∧
      ps'.InitContainers = ps.InitContainers ∧
      ps'.RestartPolicy = ps.RestartPolicy ∧
      ps'.ServiceAccountName = ps.ServiceAccountName ∧
      ps'.Volumes.take ps.Volumes.length = ps.Volumes ∧
      List.Forall₂
        (fun c c' => c'.Name = c.Name ∧ c'.Ports = c.Ports ∧ c'.Resources = c.Resources ∧
          c'.WorkingDir = c.WorkingDir ∧ c'.ImagePullPolicy = c.ImagePullPolicy ∧
          c'.VolumeMounts.take c.VolumeMounts.length = c.VolumeMounts)
        ps.Containers ps'.Containers := by
  obtain ⟨hobj, _⟩ := secureObject_embedded env obj sc cm m ps h hacc
  have hacc' := workloadAccessor_storePodSpec obj m ps (scrubbedPodSpec env ps cm) hacc
  refine ⟨_, scrubbedPodSpec env ps cm, hobj, hacc', metadataOf_of_accessor _ m _ hacc',
    metadataOf_of_accessor obj m ps hacc,
    fun p => storePodSpec_storePodSpec obj m ps _ p hacc, ?_, rfl, rfl, rfl, ?_, ?_⟩
  · intro hunique
    rw [storePodSpec_storePodSpec obj m ps _ ps hacc]
    exact storePodSpec_same obj m ps hacc hunique
  · simp [scrubbedPodSpec]
  · show List.Forall₂ _ ps.Containers (ps.Containers.map _)
    rw [List.forall₂_map_right_iff, List.forall₂_same]
    intro c _
    refine ⟨rfl, rfl, rfl, rfl, rfl, ?_⟩
    simp

set_option maxRecDepth 100000 in
/-- C19 at the deployment `web` with the container `api`, which listens on
port 8080 with a cpu limit: both survive in the embedded deployment. -/
theorem C19_frame_witness :
    ∃ sc cm,
      secureObject (demoEnv "vault-creds" [demoContainer "api" "myapp:1.0"] "")
        (demoDeployment [demoContainer "api" "myapp:1.0"]) = .returned (sc, cm, none) ∧
      ∃ out ps', sc.Object.Object = some out ∧
        workloadAccessor out =
          .returned (.ok ({ Name := "web", Namespace := "default", Labels := [] }, ps')) ∧
        storePodSpec out (demoPodSpec [demoContainer "api" "myapp:1.0"]) =
          demoDeployment [demoContainer "api" "myapp:1.0"] ∧
        List.Forall₂
          (fun c c' => c'.Name = c.Name ∧ c'.Ports = c.Ports ∧ c'.Resources = c.Resources ∧
            c'.WorkingDir = c.WorkingDir ∧ c'.ImagePullPolicy = c.ImagePullPolicy ∧
            c'.VolumeMounts.take c.VolumeMounts.length = c.VolumeMounts)
          (demoPodSpec [demoContainer "api" "myapp:1.0"]).Containers ps'.Containers :=
  ⟨_, _, rfl,
    (C19_frame (demoEnv "vault-creds" [demoContainer "api" "myapp:1.0"] "")
      (demoDeployment [demoContainer "api" "myapp:1.0"]) _ _
      { Name := "web", Namespace := "default", Labels := [] }
      (demoPodSpec [demoContainer "api" "myapp:1.0"]) rfl rfl).imp
      fun _ hout => hout.imp
        fun _ hp => ⟨hp.1, hp.2.1,
          hp.2.2.2.2.2.1 (fun fields hf => by cases hf),
          hp.2.2.2.2.2.2.2.2.2.2⟩⟩

end Raksh
